import Mathlib

/-!
The mailcow-operator condition tracker and response normalizer.

Shallow embedding of `helpers/status.go` and `mailcow/custom.go`, together with the
parts of `k8s.io/apimachinery/pkg/api/meta`, `encoding/json`, `fmt` and `net/http`
that these two files call.  Library behaviour that the repository does not contain is
either modelled next to the code that calls it (with a comment saying so) or taken as a
field of `GoRuntime`.
-/

namespace MailcowOperator

/-! ## Conditions (`metav1.Condition`, `meta.SetStatusCondition`) -/

/-- The `metav1.ConditionStatus` constant `ConditionTrue`; the Go type is a string type. -/
def ConditionTrue : String := "True"

/-- The `metav1.ConditionStatus` constant `ConditionFalse`. -/
def ConditionFalse : String := "False"

/-- The fields of `metav1.Condition`.  `lastTransitionTime` is a clock reading, `0` being
the zero time (`IsZero`). -/
structure Condition where
  type : String
  status : String
  observedGeneration : Int
  lastTransitionTime : Nat
  reason : String
  message : String
deriving DecidableEq, Repr

/-- Library function `meta.FindStatusCondition`: the first condition of the given type.
The Go function returns a pointer into the slice; the pointed-to value is returned here and
writes through the pointer are done by `writeBack`. -/
def FindStatusCondition : List Condition → String → Option Condition
  | [], _ => none
  | c :: cs, conditionType =>
    if c.type = conditionType then some c else FindStatusCondition cs conditionType

/-- A write through the pointer that `FindStatusCondition` returned: the first condition
of the given type is replaced by `c`. -/
def writeBack (conditionType : String) (c : Condition) : List Condition → List Condition
  | [] => []
  | x :: xs =>
    if x.type = conditionType then c :: xs else x :: writeBack conditionType c xs

/-- The field-by-field update that `meta.SetStatusCondition` performs on an existing
condition, with the `changed` result; `now` is the reading of `time.Now()`. -/
def updateExisting (now : Nat) (existing newCondition : Condition) : Condition × Bool :=
  let s1 : Condition × Bool :=
    if existing.status ≠ newCondition.status then
      ({ existing with
          status := newCondition.status
          lastTransitionTime :=
            if newCondition.lastTransitionTime ≠ 0 then newCondition.lastTransitionTime
            else now }, true)
    else (existing, false)
  let s2 : Condition × Bool :=
    if s1.1.reason ≠ newCondition.reason then
      ({ s1.1 with reason := newCondition.reason }, true)
    else s1
  let s3 : Condition × Bool :=
    if s2.1.message ≠ newCondition.message then
      ({ s2.1 with message := newCondition.message }, true)
    else s2
  if s3.1.observedGeneration ≠ newCondition.observedGeneration then
    ({ s3.1 with observedGeneration := newCondition.observedGeneration }, true)
  else s3

/-- Library function `meta.SetStatusCondition` on a non-nil slice: appends the condition
when its type is absent (stamping a zero transition time with `now`), otherwise updates the
first condition of that type in place.  Returns the new slice and `changed`. -/
def SetStatusCondition (now : Nat) (conditions : List Condition) (newCondition : Condition) :
    List Condition × Bool :=
  match FindStatusCondition conditions newCondition.type with
  | none =>
    (conditions ++
      [if newCondition.lastTransitionTime = 0 then
          { newCondition with lastTransitionTime := now }
        else newCondition], true)
  | some existing =>
    let r := updateExisting now existing newCondition
    (writeBack newCondition.type r.1 conditions, r.2)

/-- Library function `meta.IsStatusConditionTrue`. -/
def IsStatusConditionTrue (conditions : List Condition) (conditionType : String) : Bool :=
  match FindStatusCondition conditions conditionType with
  | some c => c.status == ConditionTrue
  | none => false

/-- The local `otherTypes` of `SetConditionStatus`. -/
def otherTypes : List String := ["Ready", "Progressing", "Degraded"]

/-- How many of the three well-known condition types are True in a list, each looked up
the way `meta.IsStatusConditionTrue` does. -/
def wellKnownTrue (conditions : List Condition) : Nat :=
  (otherTypes.filter (fun t => IsStatusConditionTrue conditions t)).length

/-- How many conditions of a list carry the given type. -/
def typeCount (conditions : List Condition) (conditionType : String) : Nat :=
  (conditions.map Condition.type).count conditionType

/-- One iteration of the loop of `SetConditionStatus` (status.go lines 23-36). -/
def resetOther (now : Nat) (conditionType : String) (generation : Int)
    (conditions : List Condition) (t : String) : List Condition :=
  if t = conditionType then conditions
  else
    match FindStatusCondition conditions t with
    | some cond =>
      (SetStatusCondition now conditions
        { type := t
          status := ConditionFalse
          reason := cond.reason
          message := cond.message
          observedGeneration := generation
          lastTransitionTime := 0 }).1
    | none => conditions

/-- `helpers.SetConditionStatus` (status.go lines 11-37), as a function from the slice
before the call to the slice after it. -/
def SetConditionStatus (now : Nat) (conditions : List Condition)
    (conditionType status reason message : String) (generation : Int) : List Condition :=
  let conditions :=
    (SetStatusCondition now conditions
      { type := conditionType
        status := status
        reason := reason
        message := message
        observedGeneration := generation
        lastTransitionTime := 0 }).1
  otherTypes.foldl (resetOther now conditionType generation) conditions

/-! ## The `changed` result and the per-kind status helpers -/

/-- Whether the named condition differs in status, reason or message between two
look-ups; a condition that is absent on one side only counts as changed. -/
def conditionChanged : Option Condition → Option Condition → Bool
  | some b, some a => b.status != a.status || b.reason != a.reason || b.message != a.message
  | none, none => false
  | _, _ => true

/-- Modelled from the spec: the boolean result of `SetConditionStatus`.  The controllers use
`changed := helpers.SetConditionStatus(...)`, but the function in `helpers/status.go` has no
result; the result is taken from section 4.2, "returns whether the named condition's
status, reason, or message actually changed".  The list is the one that the source
function computes. -/
def SetConditionStatusChanged (now : Nat) (conditions : List Condition)
    (conditionType status reason message : String) (generation : Int) :
    List Condition × Bool :=
  let after := SetConditionStatus now conditions conditionType status reason message generation
  (after, conditionChanged (FindStatusCondition conditions conditionType)
    (FindStatusCondition after conditionType))

/-- The status block written by the helpers (`MailboxStatus`; the controllers of the other
kinds use the same two fields). -/
structure ResourceStatus where
  phase : String
  conditions : List Condition
deriving DecidableEq, Repr

/-- The part of a declared object that the status helpers touch: `ObjectMeta.Generation`
and `Status`. -/
structure Resource where
  generation : Int
  status : ResourceStatus
deriving DecidableEq, Repr

/-- Outcome of a status helper: the object as the helper leaves it, the objects handed to
`r.Status().Update` in order, and the error returned. -/
structure HelperResult where
  object : Resource
  updates : List Resource
  err : Option String
deriving DecidableEq, Repr

/-- The body shared by the helpers of the mailbox, domain-admin and alias controllers
(e.g. mailbox_controller.go lines 215-222): persist only when `SetConditionStatus` reports
a change.  The controllers pass no status argument; the condition is set to True. -/
def setConditionGated (now : Nat) (statusUpdate : Resource → Option String) (obj : Resource)
    (conditionType reason message : String) : Bool × HelperResult :=
  let r := SetConditionStatusChanged now obj.status.conditions conditionType ConditionTrue
    reason message obj.generation
  let obj := { obj with status := { obj.status with conditions := r.1 } }
  if !r.2 then (r.2, { object := obj, updates := [], err := none })
  else
    let obj := { obj with status := { obj.status with phase := conditionType } }
    (r.2, { object := obj, updates := [obj], err := statusUpdate obj })

/-- `MailboxReconciler.setProgressing` (mailbox_controller.go lines 215-222). -/
def MailboxReconciler.setProgressing (now : Nat) (statusUpdate : Resource → Option String)
    (mailbox : Resource) (message : String) : Bool × HelperResult :=
  setConditionGated now statusUpdate mailbox "Progressing" "Reconciling" message

/-- `MailboxReconciler.setReady` (mailbox_controller.go lines 224-231). -/
def MailboxReconciler.setReady (now : Nat) (statusUpdate : Resource → Option String)
    (mailbox : Resource) (message : String) : Bool × HelperResult :=
  setConditionGated now statusUpdate mailbox "Ready" "Reconciled" message

/-- `MailboxReconciler.setDegraded` (mailbox_controller.go lines 233-240). -/
def MailboxReconciler.setDegraded (now : Nat) (statusUpdate : Resource → Option String)
    (mailbox : Resource) (reason message : String) : Bool × HelperResult :=
  setConditionGated now statusUpdate mailbox "Degraded" reason message

/-- `DomainAdminReconciler.setProgressing` (domainadmin_controller.go lines 229-236). -/
def DomainAdminReconciler.setProgressing (now : Nat)
    (statusUpdate : Resource → Option String) (domainadmin : Resource) (message : String) :
    Bool × HelperResult :=
  setConditionGated now statusUpdate domainadmin "Progressing" "Reconciling" message

/-- `DomainAdminReconciler.setReady` (domainadmin_controller.go lines 238-245). -/
def DomainAdminReconciler.setReady (now : Nat) (statusUpdate : Resource → Option String)
    (domainadmin : Resource) (message : String) : Bool × HelperResult :=
  setConditionGated now statusUpdate domainadmin "Ready" "Reconciled" message

/-- `DomainAdminReconciler.setDegraded` (domainadmin_controller.go lines 247-254). -/
def DomainAdminReconciler.setDegraded (now : Nat) (statusUpdate : Resource → Option String)
    (domainadmin : Resource) (message : String) : Bool × HelperResult :=
  setConditionGated now statusUpdate domainadmin "Degraded" "ReconcileFailed" message

/-- Modelled from the spec: the constants `ConditionProgressing`, `ConditionReady` and
`ConditionDegraded` of package `common`, which is not among the sources; section 6 names
the three condition types `Progressing`, `Ready` and `Degraded`. -/
def constants.ConditionProgressing : String := "Progressing"

/-- Modelled from the spec: see `constants.ConditionProgressing`. -/
def constants.ConditionReady : String := "Ready"

/-- Modelled from the spec: see `constants.ConditionProgressing`. -/
def constants.ConditionDegraded : String := "Degraded"

/-- `AliasReconciler.setProgressing` (alias_controller.go lines 201-208). -/
def AliasReconciler.setProgressing (now : Nat) (statusUpdate : Resource → Option String)
    (aliasObj : Resource) (message : String) : Bool × HelperResult :=
  setConditionGated now statusUpdate aliasObj constants.ConditionProgressing "Reconciling" message

/-- `AliasReconciler.setReady` (alias_controller.go lines 210-217). -/
def AliasReconciler.setReady (now : Nat) (statusUpdate : Resource → Option String)
    (aliasObj : Resource) (message : String) : Bool × HelperResult :=
  setConditionGated now statusUpdate aliasObj constants.ConditionReady "Reconciled" message

/-- `AliasReconciler.setDegraded` (alias_controller.go lines 219-226). -/
def AliasReconciler.setDegraded (now : Nat) (statusUpdate : Resource → Option String)
    (aliasObj : Resource) (message : String) : Bool × HelperResult :=
  setConditionGated now statusUpdate aliasObj constants.ConditionDegraded "ReconcileFailed" message

/-- The body shared by the three helpers of the domain controller (domain_controller.go
lines 293-309): the result of `SetConditionStatus` is discarded and the status is
persisted in every case. -/
def setConditionAlways (now : Nat) (statusUpdate : Resource → Option String) (obj : Resource)
    (conditionType reason message : String) : HelperResult :=
  let r := SetConditionStatusChanged now obj.status.conditions conditionType ConditionTrue
    reason message obj.generation
  let obj := { obj with status := { obj.status with conditions := r.1 } }
  let obj := { obj with status := { obj.status with phase := conditionType } }
  { object := obj, updates := [obj], err := statusUpdate obj }

/-- `DomainReconciler.setProgressing` (domain_controller.go lines 293-297). -/
def DomainReconciler.setProgressing (now : Nat) (statusUpdate : Resource → Option String)
    (domain : Resource) (message : String) : HelperResult :=
  setConditionAlways now statusUpdate domain "Progressing" "Reconciling" message

/-- `DomainReconciler.setReady` (domain_controller.go lines 299-303). -/
def DomainReconciler.setReady (now : Nat) (statusUpdate : Resource → Option String)
    (domain : Resource) (reason message : String) : HelperResult :=
  setConditionAlways now statusUpdate domain "Ready" reason message

/-- `DomainReconciler.setDegraded` (domain_controller.go lines 305-309). -/
def DomainReconciler.setDegraded (now : Nat) (statusUpdate : Resource → Option String)
    (domain : Resource) (reason message : String) : HelperResult :=
  setConditionAlways now statusUpdate domain "Degraded" reason message

/-! ## The response normalizer (`mailcow/custom.go`) -/

/-- A JSON document as `encoding/json` sees it after the syntax pass.  Number literals
are kept as text; object members are kept in document order, duplicates included. -/
inductive Json where
  | null : Json
  | bool (b : Bool) : Json
  | num (literal : String) : Json
  | str (s : String) : Json
  | arr (elems : List Json) : Json
  | obj (members : List (String × Json)) : Json

/-- Library behaviour that `custom.go` relies on and that is not modelled further.
`parse` is the syntax pass of `json.Unmarshal` (`none` for a syntax error), `foldName` is
the case folding under which `encoding/json` compares object keys with field names, and
`sprintV` is `fmt.Sprintf("%v", msg)` for a decoded `[]any`. -/
structure GoRuntime where
  parse : String → Option Json
  foldName : String → String
  sprintV : List Json → String

/-- Field lookup of `encoding/json` for an object key: an exact name match wins, otherwise
the first field whose folded name equals the folded key. -/
def lookupField (rt : GoRuntime) (fields : List String) (key : String) : Option String :=
  match fields.find? (fun f => f == key) with
  | some f => some f
  | none => fields.find? (fun f => rt.foldName f == rt.foldName key)

/-- Storing a JSON value into a Go `string` field: the new field value, and `false` when
`encoding/json` records an `UnmarshalTypeError` (the field then keeps its value). -/
def storeString (old : String) : Json → String × Bool
  | Json.str s => (s, true)
  | Json.null => (old, true)
  | _ => (old, false)

/-- Storing a JSON value into a Go `[]any` field. -/
def storeAnySlice (old : List Json) : Json → List Json × Bool
  | Json.arr elems => (elems, true)
  | Json.null => ([], true)
  | _ => (old, false)

/-- The Go struct `MailcowOKResponse` (custom.go lines 13-16). -/
structure MailcowOKResponse where
  type : String
  msg : String

/-- The Go struct `MailcowOKResponseMsgArray` (custom.go lines 18-21). -/
structure MailcowOKResponseMsgArray where
  type : String
  msg : List Json

/-- The Go struct `MailcowBadRequestResponse` (custom.go lines 23-26). -/
structure MailcowBadRequestResponse where
  msg : String
  type : String

/-- One object member decoded into a `MailcowOKResponse`; the flag stays `true` while no
type error has been recorded. -/
def MailcowOKResponse.storeMember (rt : GoRuntime) (acc : MailcowOKResponse × Bool)
    (member : String × Json) : MailcowOKResponse × Bool :=
  match lookupField rt ["type", "msg"] member.1 with
  | none => acc
  | some f =>
    if f = "type" then
      let d := storeString acc.1.type member.2
      ({ acc.1 with type := d.1 }, acc.2 && d.2)
    else
      let d := storeString acc.1.msg member.2
      ({ acc.1 with msg := d.1 }, acc.2 && d.2)

/-- Decoding of one JSON value into a zero `MailcowOKResponse`, as `json.Unmarshal` does
for an element of a `[]MailcowOKResponse`. -/
def MailcowOKResponse.decode (rt : GoRuntime) : Json → MailcowOKResponse × Bool
  | Json.obj members =>
    members.foldl (MailcowOKResponse.storeMember rt) ({ type := "", msg := "" }, true)
  | Json.null => ({ type := "", msg := "" }, true)
  | _ => ({ type := "", msg := "" }, false)

/-- One object member decoded into a `MailcowOKResponseMsgArray`. -/
def MailcowOKResponseMsgArray.storeMember (rt : GoRuntime)
    (acc : MailcowOKResponseMsgArray × Bool) (member : String × Json) :
    MailcowOKResponseMsgArray × Bool :=
  match lookupField rt ["type", "msg"] member.1 with
  | none => acc
  | some f =>
    if f = "type" then
      let d := storeString acc.1.type member.2
      ({ acc.1 with type := d.1 }, acc.2 && d.2)
    else
      let d := storeAnySlice acc.1.msg member.2
      ({ acc.1 with msg := d.1 }, acc.2 && d.2)

/-- Decoding of one JSON value into a zero `MailcowOKResponseMsgArray`. -/
def MailcowOKResponseMsgArray.decode (rt : GoRuntime) : Json → MailcowOKResponseMsgArray × Bool
  | Json.obj members =>
    members.foldl (MailcowOKResponseMsgArray.storeMember rt) ({ type := "", msg := [] }, true)
  | Json.null => ({ type := "", msg := [] }, true)
  | _ => ({ type := "", msg := [] }, false)

/-- One object member decoded into a `MailcowBadRequestResponse`. -/
def MailcowBadRequestResponse.storeMember (rt : GoRuntime)
    (acc : MailcowBadRequestResponse × Bool) (member : String × Json) :
    MailcowBadRequestResponse × Bool :=
  match lookupField rt ["msg", "type"] member.1 with
  | none => acc
  | some f =>
    if f = "msg" then
      let d := storeString acc.1.msg member.2
      ({ acc.1 with msg := d.1 }, acc.2 && d.2)
    else
      let d := storeString acc.1.type member.2
      ({ acc.1 with type := d.1 }, acc.2 && d.2)

/-- `json.Unmarshal(body, &badRequest)` (custom.go line 35): `none` when it returns an
error. -/
def unmarshalBadRequest (rt : GoRuntime) (body : String) : Option MailcowBadRequestResponse :=
  match rt.parse body with
  | some (Json.obj members) =>
    let r := members.foldl (MailcowBadRequestResponse.storeMember rt)
      ({ msg := "", type := "" }, true)
    if r.2 then some r.1 else none
  | some Json.null => some { msg := "", type := "" }
  | _ => none

/-- `json.Unmarshal(body, &responses)` (custom.go line 47): `none` when it returns an
error.  An array is decoded element by element, `null` leaves the nil slice, and any
other document is a type error. -/
def unmarshalResponses (rt : GoRuntime) (body : String) : Option (List MailcowOKResponse) :=
  match rt.parse body with
  | some (Json.arr elems) =>
    let rs := elems.map (MailcowOKResponse.decode rt)
    if rs.all (fun r => r.2) then some (rs.map (fun r => r.1)) else none
  | some Json.null => some []
  | _ => none

/-- `json.Unmarshal(body, &responseWithMessageArrays)` (custom.go line 56). -/
def unmarshalResponsesMsgArray (rt : GoRuntime) (body : String) :
    Option (List MailcowOKResponseMsgArray) :=
  match rt.parse body with
  | some (Json.arr elems) =>
    let rs := elems.map (MailcowOKResponseMsgArray.decode rt)
    if rs.all (fun r => r.2) then some (rs.map (fun r => r.1)) else none
  | some Json.null => some []
  | _ => none

/-- `http.StatusUnauthorized`. -/
def StatusUnauthorized : Nat := 401

/-- `http.StatusBadRequest`. -/
def StatusBadRequest : Nat := 400

/-- An `io.ReadCloser` as `Do` uses it: what `io.ReadAll` returns (the bytes read and the
error, if any) and what `Close` returns. -/
structure ReadCloser where
  data : String
  readErr : Option String
  closeErr : Option String
deriving DecidableEq, Repr

/-- The fields of `http.Response` that the normalizer reads or writes. -/
structure Response where
  statusCode : Nat
  body : ReadCloser
deriving DecidableEq, Repr

/-- The first danger-typed record of a decoded `[]MailcowOKResponse` (the loop of
custom.go lines 48-52). -/
def firstDanger (responses : List MailcowOKResponse) : Option MailcowOKResponse :=
  responses.find? (fun r => r.type == "danger")

/-- The first danger-typed record of a decoded `[]MailcowOKResponseMsgArray` (the loop of
custom.go lines 57-61). -/
def firstDangerMsgArray (responses : List MailcowOKResponseMsgArray) :
    Option MailcowOKResponseMsgArray :=
  responses.find? (fun r => r.type == "danger")

/-- `checkMailcowResponse` (custom.go lines 28-65); an error is its message, `none` is
`nil`. -/
def checkMailcowResponse (rt : GoRuntime) (response : Response) (body : String) :
    Option String :=
  if response.statusCode = StatusUnauthorized then
    some "mailcow api: unauthorized"
  else if response.statusCode = StatusBadRequest then
    match unmarshalBadRequest rt body with
    | none => some ("mailcow api: failed to parse response (" ++ body ++ ")")
    | some badRequest => some ("mailcow api: bad request (" ++ badRequest.msg ++ ")")
  else
    match (unmarshalResponses rt body).bind firstDanger with
    | some r => some ("mailcow api: " ++ r.msg)
    | none =>
      match (unmarshalResponsesMsgArray rt body).bind firstDangerMsgArray with
      | some r => some ("mailcow api: " ++ rt.sprintV r.msg)
      | none => none

/-- What `http.Client.Do` returns: a response and a nil error, or a non-nil error with a
response that may be nil. -/
inductive TransportResult where
  | ok (response : Response) : TransportResult
  | failed (response : Option Response) (err : String) : TransportResult

/-- An outbound request; the normalizer hands it to the client untouched. -/
structure Request where
  method : String
  url : String
  body : String

/-- The Go struct `MailcowRequestDoer` (custom.go lines 67-69). -/
structure MailcowRequestDoer where
  Client : Request → TransportResult

/-- `bytes.NewReader(body)` wrapped in `io.NopCloser`. -/
def nopCloser (body : String) : ReadCloser :=
  { data := body, readErr := none, closeErr := none }

/-- `MailcowRequestDoer.Do` (custom.go lines 71-87): the response and the error returned. -/
def MailcowRequestDoer.Do (rt : GoRuntime) (d : MailcowRequestDoer) (req : Request) :
    Option Response × Option String :=
  match d.Client req with
  | TransportResult.failed response err => (response, some err)
  | TransportResult.ok response =>
    match response.body.readErr with
    | some err => (none, some err)
    | none =>
      let body := response.body.data
      match response.body.closeErr with
      | some err => (none, some err)
      | none =>
        let err := checkMailcowResponse rt response body
        (some { response with body := nopCloser body }, err)

/-- The JSON record `{"type": t, "msg": m}` with a string message. -/
def stringRecord (t m : String) : Json :=
  Json.obj [("type", Json.str t), ("msg", Json.str m)]

/-- The body `[{"type":"danger","msg":"quota exceeded"}]`. -/
def dangerBody : String := "[\x7b\"type\":\"danger\",\"msg\":\"quota exceeded\"\x7d]"

/-- The body `{"domain_name":"example.com"}`, a single object. -/
def objectBody : String := "\x7b\"domain_name\":\"example.com\"\x7d"

/-- The body `{"msg":"domain invalid","type":"error"}`. -/
def badRequestBody : String := "\x7b\"msg\":\"domain invalid\",\"type\":\"error\"\x7d"

/-- A runtime for the worked instances below: it parses the three bodies above and
rejects every other text, folds names to upper case and renders only string elements. -/
def sampleRuntime : GoRuntime where
  parse := fun body =>
    if body = dangerBody then some (Json.arr [stringRecord "danger" "quota exceeded"])
    else if body = objectBody then
      some (Json.obj [("domain_name", Json.str "example.com")])
    else if body = badRequestBody then
      some (Json.obj [("msg", Json.str "domain invalid"), ("type", Json.str "error")])
    else none
  foldName := fun name => name.toUpper
  sprintV := fun msg =>
    "[" ++ " ".intercalate (msg.map (fun j => match j with | Json.str t => t | _ => "?")) ++ "]"

/-- A client whose transport answers every request with the given response. -/
def constantDoer (response : Response) : MailcowRequestDoer :=
  { Client := fun _ => TransportResult.ok response }

/-- A response as the transport delivers it: the status code and an unread body that
reads and closes without error. -/
def deliveredResponse (statusCode : Nat) (body : String) : Response :=
  { statusCode := statusCode, body := { data := body, readErr := none, closeErr := none } }

/-- The request `GET /api/v1/get/domain/example.com`. -/
def sampleRequest : Request :=
  { method := "GET", url := "/api/v1/get/domain/example.com", body := "" }

/-! ## Declared objects, payloads and collaborators of the kind reconcilers -/

/-- The value of the Go conversion `float32(n)` of an `int64`: `n` rounded to 24
significant bits, ties to even.  Every such value is an integer, so it is kept as one. -/
def float32 (n : Int) : Int :=
  let a := n.natAbs
  if a < 2 ^ 24 then n
  else
    let e := Nat.log2 a - 23
    let q := a / 2 ^ e
    let r := a % 2 ^ e
    let half := 2 ^ (e - 1)
    let q' := if r > half ∨ (r = half ∧ q % 2 = 1) then q + 1 else q
    (if n < 0 then -1 else 1) * ((q' * 2 ^ e : Nat) : Int)

/-- `helpers.Int64ToFloat32` (converters.go lines 3-9); a nil pointer is `none`. -/
def Int64ToFloat32 (n : Option Int) : Option Int :=
  match n with
  | none => none
  | some v => some (float32 v)

/-- `helpers.BooleanToInt` (converters.go lines 11-23). -/
def BooleanToInt (b : Option Bool) : Option Int :=
  match b with
  | none => none
  | some v => if v then some 1 else some 0

/-- The Go struct `corev1.SecretKeySelector`, as far as it is read. -/
structure SecretKeySelector where
  name : String
  key : String
deriving DecidableEq, Repr

/-- The Go struct `corev1.Secret`, as far as it is read: its name and its data map. -/
structure Secret where
  name : String
  data : List (String × String)
deriving DecidableEq, Repr

/-- The Go struct `MailcowSpec` (mailcow_types.go). -/
structure MailcowSpec where
  secret : SecretKeySelector
  endpoint : String
deriving DecidableEq, Repr

/-- The Go struct `Mailcow`, as far as `GetClient` reads it; `ns` is `Namespace`. -/
structure Mailcow where
  ns : String
  spec : MailcowSpec
deriving DecidableEq, Repr

/-- The Go struct `DomainSpec` (domain_types.go). -/
structure DomainSpec where
  mailcow : String
  domain : String
  description : String
  quota : Int
  maxQuota : Int
  defQuota : Int
  maxMailboxes : Int
  rateLimit : Option Int
  rateLimitFrame : String
  active : Option Bool
deriving DecidableEq, Repr

/-- The Go struct `DomainAdminSpec` (domainadmin_types.go). -/
structure DomainAdminSpec where
  mailcow : String
  username : String
  passwordSecret : SecretKeySelector
  active : Option Bool
  domains : List String
deriving DecidableEq, Repr

/-- The Go struct `MailboxSpec` (mailbox_types.go). -/
structure MailboxSpec where
  mailcow : String
  domain : String
  localPart : String
  name : String
  passwordSecret : SecretKeySelector
  active : Option Bool
  forcePasswordChange : Option Bool
  quota : Option Int
deriving DecidableEq, Repr

/-- The fields of `AliasSpec` that alias_controller.go reads (the type declaration is not
among the sources). -/
structure AliasSpec where
  mailcow : String
  address : String
  goTo : String
  active : Bool
deriving DecidableEq, Repr

/-- A declared object of some kind: the `ObjectMeta` fields that the reconcilers use
(`ns` is `Namespace`; `deletionTimestamp` is `none` for a nil pointer), its spec, and in
`resource` the generation and status. -/
structure Object (Spec : Type) where
  name : String
  ns : String
  uid : String
  deletionTimestamp : Option Nat
  finalizers : List String
  spec : Spec
  resource : Resource
deriving DecidableEq, Repr

/-- Library method `(*metav1.Time).IsZero`: true for a nil pointer and for the zero time. -/
def IsZero (t : Option Nat) : Bool :=
  match t with
  | none => true
  | some v => v == 0

/-- Library function `controllerutil.ContainsFinalizer`. -/
def ContainsFinalizer (finalizers : List String) (finalizer : String) : Bool :=
  finalizers.contains finalizer

/-- Library function `controllerutil.AddFinalizer`: appends the finalizer unless it is
already there. -/
def AddFinalizer (finalizers : List String) (finalizer : String) : List String :=
  if finalizers.contains finalizer then finalizers else finalizers ++ [finalizer]

/-- Library function `controllerutil.RemoveFinalizer`: drops every occurrence. -/
def RemoveFinalizer (finalizers : List String) (finalizer : String) : List String :=
  finalizers.filter (fun f => f != finalizer)

/-- The fields of `mailcow.CreateDomainJSONRequestBody` that the controller sets. -/
structure CreateDomainBody where
  domain : Option String
  description : Option String
  quota : Option Int
  defquota : Option Int
  maxquota : Option Int
  active : Option Bool
  mailboxes : Option Int
  rlValue : Option Int
  rlFrame : Option String
deriving DecidableEq, Repr

/-- The fields of `mailcow.EditDomainAttr` that the controller sets. -/
structure EditDomainAttr where
  description : Option String
  quota : Option Int
  defquota : Option Int
  maxquota : Option Int
  active : Option Bool
  mailboxes : Option Int
deriving DecidableEq, Repr

/-- The Go struct `mailcow.UpdateDomainJSONRequestBody`. -/
structure UpdateDomainBody where
  attr : EditDomainAttr
  items : List String
deriving DecidableEq, Repr

/-- The Go struct `mailcow.EditRatelimitDomainAttr`. -/
structure EditRatelimitDomainAttr where
  rlValue : Option Int
  rlFrame : Option String
deriving DecidableEq, Repr

/-- The Go struct `mailcow.EditDomainRatelimitsJSONRequestBody`. -/
structure EditDomainRatelimitsBody where
  attr : EditRatelimitDomainAttr
  items : List String
deriving DecidableEq, Repr

/-- The Go struct `mailcow.GenerateDKIMKeyJSONRequestBody`. -/
structure GenerateDKIMKeyBody where
  domains : Option String
  keySize : Option Int
  dkimSelector : Option String
deriving DecidableEq, Repr

/-- The fields of `mailcow.CreateMailboxJSONRequestBody` that the controller sets. -/
structure CreateMailboxBody where
  domain : Option String
  localPart : Option String
  name : Option String
  password : Option String
  password2 : Option String
  active : Option Bool
  forcePwUpdate : Option Bool
  quota : Option Int
deriving DecidableEq, Repr

/-- The fields of `mailcow.EditMailboxAttr` that mailbox_controller.go names, set or
commented out; a field that the controller does not set stays nil. -/
structure EditMailboxAttr where
  name : Option String
  password : Option String
  password2 : Option String
  active : Option Bool
  forcePwUpdate : Option Bool
  quota : Option Int
deriving DecidableEq, Repr

/-- The Go struct `mailcow.UpdateMailboxJSONRequestBody`. -/
structure UpdateMailboxBody where
  attr : EditMailboxAttr
  items : List String
deriving DecidableEq, Repr

/-- The fields of `mailcow.CreateAliasJSONRequestBody` that the controller sets. -/
structure CreateAliasBody where
  address : Option String
  goto : Option String
  active : Option Bool
deriving DecidableEq, Repr

/-- The fields of `mailcow.EditAliasAttr` that the controller sets, and the address, which
it never sets. -/
structure EditAliasAttr where
  address : Option String
  goto : Option String
  active : Option Bool
deriving DecidableEq, Repr

/-- The Go struct `mailcow.UpdateAliasJSONRequestBody`. -/
structure UpdateAliasBody where
  attr : EditAliasAttr
  items : List String
deriving DecidableEq, Repr

/-- The fields of `mailcow.CreateDomainAdminUserJSONRequestBody` that the controller sets. -/
structure CreateDomainAdminUserBody where
  username : Option String
  password : Option String
  password2 : Option String
  active : Option Int
  domains : Option (List String)
deriving DecidableEq, Repr

/-- The fields of `mailcow.EditDomainAdminAttr` that domainadmin_controller.go names, set
or commented out. -/
structure EditDomainAdminAttr where
  password : Option String
  active : Option Bool
  domains : Option (List String)
deriving DecidableEq, Repr

/-- The Go struct `mailcow.EditDomainAdminUserJSONRequestBody`. -/
structure EditDomainAdminUserBody where
  attr : EditDomainAdminAttr
  items : List String
deriving DecidableEq, Repr

/-- The Go struct `metav1.OwnerReference` as `metav1.NewControllerRef` fills it, without
the API version. -/
structure OwnerReference where
  kind : String
  name : String
  uid : String
  controller : Bool
  blockOwnerDeletion : Bool
deriving DecidableEq, Repr

/-- The Go struct `corev1.ConfigMap`, as far as `reconcileDKIM` reads or writes it.  The
data map is kept as the list of its entries in the order of assignment. -/
structure ConfigMap where
  name : String
  ns : String
  ownerReferences : List OwnerReference
  data : List (String × String)
deriving DecidableEq, Repr

/-- The parsed payload of a domain query, `GetDomainsResponse.JSON200`, as far as read. -/
structure DomainPayload where
  domainName : Option String
deriving DecidableEq, Repr

/-- The parsed payload of a mailbox query, `GetMailboxesResponse.JSON200`, as far as read. -/
structure MailboxPayload where
  username : Option String
deriving DecidableEq, Repr

/-- The parsed payload of an alias query; the controller reads none of its fields. -/
structure AliasPayload where
  address : Option String
deriving DecidableEq, Repr

/-- One element of the parsed payload of the domain-admin list query. -/
structure DomainAdminPayload where
  username : Option String
deriving DecidableEq, Repr

/-- The parsed payload of a DKIM query, `GetDKIMKeyResponse.JSON200`. -/
structure DKIMPayload where
  dkimSelector : Option String
  dkimTxt : Option String
  length : Option String
  pubkey : Option String
deriving DecidableEq, Repr

/-- What a generated `...WithResponse` query returns beside the error: the pointer
`JSON200`, nil when the generated parser stored no payload. -/
structure ParsedResponse (Payload : Type) where
  JSON200 : Option Payload
deriving DecidableEq, Repr

/-- What `client.GetDomainAdmins` returns beside the error: the status code, and what
`mailcow.ParseGetDomainAdminsResponse` makes of the response (`none` when it returns an
error, which the controller ignores). -/
structure DomainAdminsResponse where
  statusCode : Nat
  parsed : Option (ParsedResponse (List DomainAdminPayload))
deriving DecidableEq, Repr

/-- A call that a reconciliation pass issues to one of its collaborators, with its
argument. -/
inductive Call where
  | update (finalizers : List String) : Call
  | statusUpdate (resource : Resource) : Call
  | getMailcow (name ns : String) : Call
  | getSecret (name ns : String) : Call
  | newClient (endpoint apiKey : String) : Call
  | getDomains (id : String) : Call
  | deleteDomain (ids : List String) : Call
  | createDomain (body : CreateDomainBody) : Call
  | updateDomain (body : UpdateDomainBody) : Call
  | editDomainRatelimits (body : EditDomainRatelimitsBody) : Call
  | getDKIMKey (domain : String) : Call
  | generateDKIMKey (body : GenerateDKIMKeyBody) : Call
  | getConfigMap (name ns : String) : Call
  | createConfigMap (configMap : ConfigMap) : Call
  | updateConfigMap (configMap : ConfigMap) : Call
  | getMailboxes (id : String) : Call
  | deleteMailbox (ids : List String) : Call
  | createMailbox (body : CreateMailboxBody) : Call
  | updateMailbox (body : UpdateMailboxBody) : Call
  | getAliases (id : String) : Call
  | deleteAlias (ids : List String) : Call
  | createAlias (body : CreateAliasBody) : Call
  | updateAlias (body : UpdateAliasBody) : Call
  | getDomainAdmins : Call
  | deleteDomainAdmin (ids : List String) : Call
  | createDomainAdminUser (body : CreateDomainAdminUserBody) : Call
  | editDomainAdminUser (body : EditDomainAdminUserBody) : Call
deriving DecidableEq, Repr

/-- A backend call that creates a record. -/
def Call.isCreate : Call → Bool
  | Call.createDomain _ => true
  | Call.createMailbox _ => true
  | Call.createAlias _ => true
  | Call.createDomainAdminUser _ => true
  | _ => false

/-- A backend call that updates a record: the primary update or the rate-limit edit. -/
def Call.isUpdate : Call → Bool
  | Call.updateDomain _ => true
  | Call.editDomainRatelimits _ => true
  | Call.updateMailbox _ => true
  | Call.updateAlias _ => true
  | Call.editDomainAdminUser _ => true
  | _ => false

/-- A backend call that deletes a record. -/
def Call.isDelete : Call → Bool
  | Call.deleteDomain _ => true
  | Call.deleteMailbox _ => true
  | Call.deleteAlias _ => true
  | Call.deleteDomainAdmin _ => true
  | _ => false

/-- A backend call that changes backend state. -/
def Call.isMutation (c : Call) : Bool :=
  c.isCreate || c.isUpdate || c.isDelete ||
    match c with
    | Call.generateDKIMKey _ => true
    | _ => false

/-- A call to the backend, query or mutation. -/
def Call.isBackend (c : Call) : Bool :=
  c.isMutation ||
    match c with
    | Call.getDomains _ => true
    | Call.getDKIMKey _ => true
    | Call.getMailboxes _ => true
    | Call.getAliases _ => true
    | Call.getDomainAdmins => true
    | _ => false

/-- A write of the object's status. -/
def Call.isStatusUpdate : Call → Bool
  | Call.statusUpdate _ => true
  | _ => false

/-- The generated client `mailcow.ClientWithResponses`, which is not among the sources:
for each call the controllers make, what it returns.  A query returns the parsed response
or an error; a mutation returns its error, `none` for nil.  The DKIM query also takes the
number of generate calls issued before it in the pass. -/
structure Backend where
  GetDomainsWithResponse : String → Except String (ParsedResponse DomainPayload)
  DeleteDomainWithResponse : List String → Option String
  CreateDomainWithResponse : CreateDomainBody → Option String
  UpdateDomainWithResponse : UpdateDomainBody → Option String
  EditDomainRatelimits : EditDomainRatelimitsBody → Option String
  GetDKIMKeyWithResponse : Nat → String → Except String (ParsedResponse DKIMPayload)
  GenerateDKIMKeyWithResponse : GenerateDKIMKeyBody → Option String
  GetMailboxesWithResponse : String → Except String (ParsedResponse MailboxPayload)
  DeleteMailboxWithResponse : List String → Option String
  CreateMailboxWithResponse : CreateMailboxBody → Option String
  UpdateMailboxWithResponse : UpdateMailboxBody → Option String
  GetAliasesWithResponse : String → Except String (ParsedResponse AliasPayload)
  DeleteAliasWithResponse : List String → Option String
  CreateAliasWithResponse : CreateAliasBody → Option String
  UpdateAliasWithResponse : UpdateAliasBody → Option String
  GetDomainAdmins : Except String DomainAdminsResponse
  DeleteDomainAdminWithResponse : List String → Option String
  CreateDomainAdminUserWithResponse : CreateDomainAdminUserBody → Option String
  EditDomainAdminUserWithResponse : EditDomainAdminUserBody → Option String

/-- What `r.Get` returns for an object that may be missing: the object, an error for which
`errors.IsNotFound` holds, or another error. -/
inductive Lookup (α : Type) where
  | found (a : α) : Lookup α
  | notFound : Lookup α
  | failed (err : String) : Lookup α

/-- The collaborators of a reconciliation pass: the clock, the declarative store
(`r.Update`, `r.Status().Update`, `r.Get`, `r.Create`), the secret store, the client
constructor `mailcow.NewCustomClientWithResponses`, and the constant `Finalizer` of
package `common`, which is not among the sources.  `Update` is given the finalizers of the
object it persists. -/
structure Cluster where
  now : Nat
  Finalizer : String
  Update : List String → Option String
  StatusUpdate : Resource → Option String
  GetMailcow : String → String → Except String Mailcow
  GetSecret : String → String → Except String Secret
  NewCustomClientWithResponses : String → String → Except String Backend
  GetConfigMap : String → String → Lookup ConfigMap
  CreateConfigMap : ConfigMap → Option String
  UpdateConfigMap : ConfigMap → Option String

/-- What a Go function that returns `error` does: return nil, return an error, or fault
on a nil pointer. -/
inductive Ret where
  | nil : Ret
  | err (e : String) : Ret
  | panic : Ret
deriving DecidableEq, Repr

/-- `Mailcow.GetClient` (mailcow_types.go): the calls issued and the client or the
error. -/
def Mailcow.GetClient (env : Cluster) (res : Mailcow) : List Call × Except String Backend :=
  match env.GetSecret res.spec.secret.name res.ns with
  | Except.error err => ([Call.getSecret res.spec.secret.name res.ns], Except.error err)
  | Except.ok secret =>
    match secret.data.lookup res.spec.secret.key with
    | none =>
      ([Call.getSecret res.spec.secret.name res.ns],
        Except.error
          ("key `" ++ res.spec.secret.key ++ "` not found in secret `" ++ secret.name ++ "`"))
    | some value =>
      let apiKey := value
      let endpoint := res.spec.endpoint
      match env.NewCustomClientWithResponses endpoint apiKey with
      | Except.error err =>
        ([Call.getSecret res.spec.secret.name res.ns, Call.newClient endpoint apiKey],
          Except.error err)
      | Except.ok client =>
        ([Call.getSecret res.spec.secret.name res.ns, Call.newClient endpoint apiKey],
          Except.ok client)

/-- The body shared by `Mailbox.GetPassword` (mailbox_types.go) and
`DomainAdmin.GetPassword` (domainadmin_types.go). -/
def getPasswordFrom (env : Cluster) (selector : SecretKeySelector) (ns : String) :
    List Call × Except String String :=
  match env.GetSecret selector.name ns with
  | Except.error err => ([Call.getSecret selector.name ns], Except.error err)
  | Except.ok secret =>
    match secret.data.lookup selector.key with
    | none =>
      ([Call.getSecret selector.name ns],
        Except.error ("key `" ++ selector.key ++ "` not found in secret `" ++ secret.name ++ "`"))
    | some value => ([Call.getSecret selector.name ns], Except.ok value)

/-- `Mailbox.GetPassword` (mailbox_types.go). -/
def Mailbox.GetPassword (env : Cluster) (mailbox : Object MailboxSpec) :
    List Call × Except String String :=
  getPasswordFrom env mailbox.spec.passwordSecret mailbox.ns

/-- `DomainAdmin.GetPassword` (domainadmin_types.go). -/
def DomainAdmin.GetPassword (env : Cluster) (domainadmin : Object DomainAdminSpec) :
    List Call × Except String String :=
  getPasswordFrom env domainadmin.spec.passwordSecret domainadmin.ns

/-- The first two steps of every `ReconcileResource` (e.g. mailbox_controller.go lines
125-137): load the referenced Mailcow object and build the client. -/
def resolveClient (env : Cluster) (mailcowName ns : String) :
    List Call × Except String Backend :=
  match env.GetMailcow mailcowName ns with
  | Except.error err => ([Call.getMailcow mailcowName ns], Except.error err)
  | Except.ok res =>
    let g := res.GetClient env
    (Call.getMailcow mailcowName ns :: g.1, g.2)

/-- `MailboxReconciler.ReconcileResource` (mailbox_controller.go lines 121-205): the calls
issued, in order, and what the function returns. -/
def MailboxReconciler.ReconcileResource (env : Cluster) (mailbox : Object MailboxSpec) :
    List Call × Ret :=
  let c := resolveClient env mailbox.spec.mailcow mailbox.ns
  match c.2 with
  | Except.error err => (c.1, Ret.err err)
  | Except.ok client =>
    let email := mailbox.spec.localPart ++ "@" ++ mailbox.spec.domain
    let c1 := c.1 ++ [Call.getMailboxes email]
    match client.GetMailboxesWithResponse email with
    | Except.error err => (c1, Ret.err err)
    | Except.ok response =>
      if !IsZero mailbox.deletionTimestamp then
        match response.JSON200 with
        | none => (c1, Ret.panic)
        | some payload =>
          if payload.username.isSome then
            match client.DeleteMailboxWithResponse [email] with
            | some err => (c1 ++ [Call.deleteMailbox [email]], Ret.err err)
            | none => (c1 ++ [Call.deleteMailbox [email]], Ret.nil)
          else (c1, Ret.nil)
      else
        let p := Mailbox.GetPassword env mailbox
        let c2 := c1 ++ p.1
        match p.2 with
        | Except.error err => (c2, Ret.err err)
        | Except.ok password =>
          match response.JSON200 with
          | none => (c2, Ret.panic)
          | some payload =>
            if payload.username.isNone then
              let body : CreateMailboxBody :=
                { domain := some mailbox.spec.domain
                  localPart := some mailbox.spec.localPart
                  name := some mailbox.spec.name
                  password := some password
                  password2 := some password
                  active := mailbox.spec.active
                  forcePwUpdate := mailbox.spec.forcePasswordChange
                  quota := Int64ToFloat32 mailbox.spec.quota }
              match client.CreateMailboxWithResponse body with
              | some err => (c2 ++ [Call.createMailbox body], Ret.err err)
              | none => (c2 ++ [Call.createMailbox body], Ret.nil)
            else
              let body : UpdateMailboxBody :=
                { attr :=
                    { name := none
                      password := none
                      password2 := none
                      active := mailbox.spec.active
                      forcePwUpdate := none
                      quota := Int64ToFloat32 mailbox.spec.quota }
                  items := [email] }
              match client.UpdateMailboxWithResponse body with
              | some err => (c2 ++ [Call.updateMailbox body], Ret.err err)
              | none => (c2 ++ [Call.updateMailbox body], Ret.nil)

/-- `AliasReconciler.ReconcileResource` (alias_controller.go lines 121-191). -/
def AliasReconciler.ReconcileResource (env : Cluster) (aliasObj : Object AliasSpec) :
    List Call × Ret :=
  let c := resolveClient env aliasObj.spec.mailcow aliasObj.ns
  match c.2 with
  | Except.error err => (c.1, Ret.err err)
  | Except.ok client =>
    let c1 := c.1 ++ [Call.getAliases aliasObj.spec.address]
    match client.GetAliasesWithResponse aliasObj.spec.address with
    | Except.error err => (c1, Ret.err err)
    | Except.ok response =>
      let aliasExists : Bool := response.JSON200.isSome
      if !IsZero aliasObj.deletionTimestamp then
        if aliasExists then
          match client.DeleteAliasWithResponse [aliasObj.spec.address] with
          | some err => (c1 ++ [Call.deleteAlias [aliasObj.spec.address]], Ret.err err)
          | none => (c1 ++ [Call.deleteAlias [aliasObj.spec.address]], Ret.nil)
        else (c1, Ret.nil)
      else if !aliasExists then
        let body : CreateAliasBody :=
          { address := some aliasObj.spec.address
            goto := some aliasObj.spec.goTo
            active := some aliasObj.spec.active }
        match client.CreateAliasWithResponse body with
        | some err => (c1 ++ [Call.createAlias body], Ret.err err)
        | none => (c1 ++ [Call.createAlias body], Ret.nil)
      else
        let body : UpdateAliasBody :=
          { attr :=
              { address := none
                goto := some aliasObj.spec.goTo
                active := some aliasObj.spec.active }
            items := [aliasObj.spec.address] }
        match client.UpdateAliasWithResponse body with
        | some err => (c1 ++ [Call.updateAlias body], Ret.err err)
        | none => (c1 ++ [Call.updateAlias body], Ret.nil)

/-- The loop of domainadmin_controller.go lines 160-165 over the parsed list. -/
def domainAdminListed (admins : List DomainAdminPayload) (username : String) : Bool :=
  admins.any (fun da => da.username == some username)

/-- The existence check of domainadmin_controller.go lines 153-166 on the response of the
list query: `none` when the loop dereferences a nil `JSON200`; the error of
`ParseGetDomainAdminsResponse` is ignored and leaves `domainAdminExists` false. -/
def domainAdminExists (response : DomainAdminsResponse) (username : String) : Option Bool :=
  match response.parsed with
  | none => some false
  | some parsedResponse =>
    match parsedResponse.JSON200 with
    | none => none
    | some admins => some (domainAdminListed admins username)

/-- `DomainAdminReconciler.ReconcileResource` (domainadmin_controller.go lines 121-219).
On a status code other than 200 the function returns `err`, which is nil at that point. -/
def DomainAdminReconciler.ReconcileResource (env : Cluster)
    (domainadmin : Object DomainAdminSpec) : List Call × Ret :=
  let c := resolveClient env domainadmin.spec.mailcow domainadmin.ns
  match c.2 with
  | Except.error err => (c.1, Ret.err err)
  | Except.ok client =>
    let c1 := c.1 ++ [Call.getDomainAdmins]
    match client.GetDomainAdmins with
    | Except.error err => (c1, Ret.err err)
    | Except.ok response =>
      if response.statusCode ≠ 200 then (c1, Ret.nil)
      else
        match domainAdminExists response domainadmin.spec.username with
        | none => (c1, Ret.panic)
        | some domainAdminExists =>
          if !IsZero domainadmin.deletionTimestamp then
            if domainAdminExists then
              match client.DeleteDomainAdminWithResponse [domainadmin.spec.username] with
              | some err =>
                (c1 ++ [Call.deleteDomainAdmin [domainadmin.spec.username]], Ret.err err)
              | none => (c1 ++ [Call.deleteDomainAdmin [domainadmin.spec.username]], Ret.nil)
            else (c1, Ret.nil)
          else
            let p := DomainAdmin.GetPassword env domainadmin
            let c2 := c1 ++ p.1
            match p.2 with
            | Except.error err => (c2, Ret.err err)
            | Except.ok password =>
              if !domainAdminExists then
                let body : CreateDomainAdminUserBody :=
                  { username := some domainadmin.spec.username
                    password := some password
                    password2 := some password
                    active := BooleanToInt domainadmin.spec.active
                    domains := some domainadmin.spec.domains }
                match client.CreateDomainAdminUserWithResponse body with
                | some err => (c2 ++ [Call.createDomainAdminUser body], Ret.err err)
                | none => (c2 ++ [Call.createDomainAdminUser body], Ret.nil)
              else
                let body : EditDomainAdminUserBody :=
                  { attr :=
                      { password := none
                        active := domainadmin.spec.active
                        domains := some domainadmin.spec.domains }
                    items := [domainadmin.spec.username] }
                match client.EditDomainAdminUserWithResponse body with
                | some err => (c2 ++ [Call.editDomainAdminUser body], Ret.err err)
                | none => (c2 ++ [Call.editDomainAdminUser body], Ret.nil)

/-- Library function `metav1.NewControllerRef(domain, ...WithKind("Domain"))`. -/
def NewControllerRef (domain : Object DomainSpec) : OwnerReference :=
  { kind := "Domain"
    name := domain.name
    uid := domain.uid
    controller := true
    blockOwnerDeletion := true }

/-- The ConfigMap that `reconcileDKIM` builds from the DKIM data (domain_controller.go
lines 233-255). -/
def dkimConfigMap (domain : Object DomainSpec) (dkimData : DKIMPayload) : ConfigMap :=
  { name := "dkim-" ++ domain.name
    ns := domain.ns
    ownerReferences := [NewControllerRef domain]
    data :=
      (match dkimData.dkimSelector with
        | some v => [("selector", v)]
        | none => []) ++
      (match dkimData.dkimTxt with
        | some v => [("txt", v)]
        | none => []) ++
      (match dkimData.length with
        | some v => [("length", v)]
        | none => []) ++
      (match dkimData.pubkey with
        | some v => [("pubkey", v)]
        | none => []) }

/-- The last part of `reconcileDKIM` (domain_controller.go lines 229-282): publish the
DKIM data, if any, as a ConfigMap. -/
def publishDKIM (env : Cluster) (domain : Object DomainSpec) (dkimData : Option DKIMPayload) :
    List Call × Ret :=
  match dkimData with
  | none => ([], Ret.nil)
  | some data =>
    let configMap := dkimConfigMap domain data
    match env.GetConfigMap configMap.name configMap.ns with
    | Lookup.notFound =>
      match env.CreateConfigMap configMap with
      | some err =>
        ([Call.getConfigMap configMap.name configMap.ns, Call.createConfigMap configMap],
          Ret.err err)
      | none =>
        ([Call.getConfigMap configMap.name configMap.ns, Call.createConfigMap configMap],
          Ret.nil)
    | Lookup.failed err => ([Call.getConfigMap configMap.name configMap.ns], Ret.err err)
    | Lookup.found existingConfigMap =>
      let existingConfigMap := { existingConfigMap with data := configMap.data }
      match env.UpdateConfigMap existingConfigMap with
      | some err =>
        ([Call.getConfigMap configMap.name configMap.ns,
          Call.updateConfigMap existingConfigMap], Ret.err err)
      | none =>
        ([Call.getConfigMap configMap.name configMap.ns,
          Call.updateConfigMap existingConfigMap], Ret.nil)

/-- Whether `reconcileDKIM` generates a key: the test of domain_controller.go line 204. -/
def dkimMissing (dkimResponse : ParsedResponse DKIMPayload) : Bool :=
  match dkimResponse.JSON200 with
  | none => true
  | some data => data.dkimTxt.isNone

/-- `DomainReconciler.reconcileDKIM` (domain_controller.go lines 191-283). -/
def DomainReconciler.reconcileDKIM (env : Cluster) (client : Backend)
    (domain : Object DomainSpec) : List Call × Ret :=
  match client.GetDKIMKeyWithResponse 0 domain.spec.domain with
  | Except.error err => ([Call.getDKIMKey domain.spec.domain], Ret.err err)
  | Except.ok dkimResponse =>
    if dkimMissing dkimResponse then
      let body : GenerateDKIMKeyBody :=
        { domains := some domain.spec.domain
          keySize := some 2048
          dkimSelector := some "dkim" }
      match client.GenerateDKIMKeyWithResponse body with
      | some err =>
        ([Call.getDKIMKey domain.spec.domain, Call.generateDKIMKey body], Ret.err err)
      | none =>
        match client.GetDKIMKeyWithResponse 1 domain.spec.domain with
        | Except.error err =>
          ([Call.getDKIMKey domain.spec.domain, Call.generateDKIMKey body,
            Call.getDKIMKey domain.spec.domain], Ret.err err)
        | Except.ok dkimGetResponse =>
          let p := publishDKIM env domain dkimGetResponse.JSON200
          ([Call.getDKIMKey domain.spec.domain, Call.generateDKIMKey body,
            Call.getDKIMKey domain.spec.domain] ++ p.1, p.2)
    else
      let p := publishDKIM env domain dkimResponse.JSON200
      (Call.getDKIMKey domain.spec.domain :: p.1, p.2)

/-- The create or update step of `DomainReconciler.ReconcileResource` (domain_controller.go
lines 136-174): the calls issued and the value of `err` after it. -/
def DomainReconciler.createOrUpdate (client : Backend) (domain : Object DomainSpec)
    (payload : DomainPayload) : List Call × Option String :=
  if payload.domainName.isNone then
    let rlFrame := domain.spec.rateLimitFrame
    let body : CreateDomainBody :=
      { domain := some domain.spec.domain
        description := some domain.spec.description
        quota := Int64ToFloat32 (some domain.spec.quota)
        defquota := Int64ToFloat32 (some domain.spec.defQuota)
        maxquota := Int64ToFloat32 (some domain.spec.maxQuota)
        active := domain.spec.active
        mailboxes := Int64ToFloat32 (some domain.spec.maxMailboxes)
        rlValue := domain.spec.rateLimit
        rlFrame := some rlFrame }
    ([Call.createDomain body], client.CreateDomainWithResponse body)
  else
    let body : UpdateDomainBody :=
      { attr :=
          { description := some domain.spec.description
            quota := Int64ToFloat32 (some domain.spec.quota)
            defquota := Int64ToFloat32 (some domain.spec.defQuota)
            maxquota := Int64ToFloat32 (some domain.spec.maxQuota)
            active := domain.spec.active
            mailboxes := Int64ToFloat32 (some domain.spec.maxMailboxes) }
        items := [domain.spec.domain] }
    match client.UpdateDomainWithResponse body with
    | some err => ([Call.updateDomain body], some err)
    | none =>
      let rl : EditDomainRatelimitsBody :=
        { attr :=
            { rlValue := domain.spec.rateLimit
              rlFrame := some domain.spec.rateLimitFrame }
          items := [domain.spec.domain] }
      ([Call.updateDomain body, Call.editDomainRatelimits rl], client.EditDomainRatelimits rl)

/-- `DomainReconciler.ReconcileResource` (domain_controller.go lines 100-188). -/
def DomainReconciler.ReconcileResource (env : Cluster) (domain : Object DomainSpec) :
    List Call × Ret :=
  let c := resolveClient env domain.spec.mailcow domain.ns
  match c.2 with
  | Except.error err => (c.1, Ret.err err)
  | Except.ok client =>
    let c1 := c.1 ++ [Call.getDomains domain.spec.domain]
    match client.GetDomainsWithResponse domain.spec.domain with
    | Except.error err => (c1, Ret.err err)
    | Except.ok response =>
      match response.JSON200 with
      | none => (c1, Ret.panic)
      | some payload =>
        if !IsZero domain.deletionTimestamp then
          if payload.domainName.isSome then
            match client.DeleteDomainWithResponse [domain.spec.domain] with
            | some err => (c1 ++ [Call.deleteDomain [domain.spec.domain]], Ret.err err)
            | none => (c1 ++ [Call.deleteDomain [domain.spec.domain]], Ret.nil)
          else (c1, Ret.nil)
        else
          let u := DomainReconciler.createOrUpdate client domain payload
          match u.2 with
          | some err => (c1 ++ u.1, Ret.err err)
          | none =>
            let k := DomainReconciler.reconcileDKIM env client domain
            (c1 ++ u.1 ++ k.1, k.2)

/-- What a reconciliation pass leaves behind: the object in memory, the calls issued in
order, whether `ctrl.Result.Requeue` is set, and the error returned (or the fault). -/
structure PassResult (Spec : Type) where
  object : Object Spec
  calls : List Call
  requeue : Bool
  ret : Ret

/-- The part of `Reconcile` after the finalizer and Progressing steps in the mailbox,
domain-admin and alias controllers (e.g. mailbox_controller.go lines 91-118), given the
calls issued so far and the kind's `ReconcileResource`, `setDegraded` and `setReady`. -/
def finishGated {Spec : Type} (env : Cluster)
    (reconcileResource : Object Spec → List Call × Ret)
    (setDegraded : Resource → String → Bool × HelperResult)
    (setReady : Resource → Bool × HelperResult)
    (calls : List Call) (obj : Object Spec) : PassResult Spec :=
  let rr := reconcileResource obj
  match rr.2 with
  | Ret.panic => { object := obj, calls := calls ++ rr.1, requeue := false, ret := Ret.panic }
  | Ret.err err =>
    let d := setDegraded obj.resource err
    let obj := { obj with resource := d.2.object }
    let calls := calls ++ rr.1 ++ d.2.updates.map Call.statusUpdate
    match d.2.err with
    | some errStatus => { object := obj, calls := calls, requeue := false, ret := Ret.err errStatus }
    | none => { object := obj, calls := calls, requeue := false, ret := Ret.err err }
  | Ret.nil =>
    if !IsZero obj.deletionTimestamp && ContainsFinalizer obj.finalizers env.Finalizer then
      let obj := { obj with finalizers := RemoveFinalizer obj.finalizers env.Finalizer }
      let calls := calls ++ rr.1 ++ [Call.update obj.finalizers]
      match env.Update obj.finalizers with
      | some err => { object := obj, calls := calls, requeue := false, ret := Ret.err err }
      | none => { object := obj, calls := calls, requeue := false, ret := Ret.nil }
    else
      let r := setReady obj.resource
      let obj := { obj with resource := r.2.object }
      let calls := calls ++ rr.1 ++ r.2.updates.map Call.statusUpdate
      match r.2.err with
      | some err => { object := obj, calls := calls, requeue := false, ret := Ret.err err }
      | none => { object := obj, calls := calls, requeue := false, ret := Ret.nil }

/-- The body of `Reconcile` in the mailbox, domain-admin and alias controllers after the
object has been loaded (e.g. mailbox_controller.go lines 69-118). -/
def reconcileGated {Spec : Type} (env : Cluster)
    (reconcileResource : Object Spec → List Call × Ret)
    (setProgressing : Resource → Bool × HelperResult)
    (setDegraded : Resource → String → Bool × HelperResult)
    (setReady : Resource → Bool × HelperResult)
    (obj : Object Spec) : PassResult Spec :=
  if IsZero obj.deletionTimestamp then
    if !ContainsFinalizer obj.finalizers env.Finalizer then
      let obj := { obj with finalizers := AddFinalizer obj.finalizers env.Finalizer }
      match env.Update obj.finalizers with
      | some err =>
        { object := obj, calls := [Call.update obj.finalizers], requeue := false,
          ret := Ret.err err }
      | none =>
        { object := obj, calls := [Call.update obj.finalizers], requeue := true,
          ret := Ret.nil }
    else
      let p := setProgressing obj.resource
      let obj := { obj with resource := p.2.object }
      let calls := p.2.updates.map Call.statusUpdate
      match p.2.err with
      | some err => { object := obj, calls := calls, requeue := false, ret := Ret.err err }
      | none =>
        if p.1 then { object := obj, calls := calls, requeue := true, ret := Ret.nil }
        else finishGated env reconcileResource setDegraded setReady calls obj
  else finishGated env reconcileResource setDegraded setReady [] obj

/-- `MailboxReconciler.Reconcile` (mailbox_controller.go lines 56-119), after `r.Get` has
loaded the object. -/
def MailboxReconciler.Reconcile (env : Cluster) (mailbox : Object MailboxSpec) :
    PassResult MailboxSpec :=
  reconcileGated env (MailboxReconciler.ReconcileResource env)
    (fun r => MailboxReconciler.setProgressing env.now env.StatusUpdate r "Reconciling mailbox")
    (fun r e => MailboxReconciler.setDegraded env.now env.StatusUpdate r "ReconcileFailed" e)
    (fun r =>
      MailboxReconciler.setReady env.now env.StatusUpdate r "Mailbox successfully reconciled")
    mailbox

/-- `DomainAdminReconciler.Reconcile` (domainadmin_controller.go lines 56-119), after
`r.Get` has loaded the object. -/
def DomainAdminReconciler.Reconcile (env : Cluster) (domainadmin : Object DomainAdminSpec) :
    PassResult DomainAdminSpec :=
  reconcileGated env (DomainAdminReconciler.ReconcileResource env)
    (fun r =>
      DomainAdminReconciler.setProgressing env.now env.StatusUpdate r "Reconciling domainadmin")
    (fun r e => DomainAdminReconciler.setDegraded env.now env.StatusUpdate r e)
    (fun r =>
      DomainAdminReconciler.setReady env.now env.StatusUpdate r
        "DomainAdmin successfully reconciled")
    domainadmin

/-- `AliasReconciler.Reconcile` (alias_controller.go lines 55-119), after `r.Get` has
loaded the object. -/
def AliasReconciler.Reconcile (env : Cluster) (aliasObj : Object AliasSpec) :
    PassResult AliasSpec :=
  reconcileGated env (AliasReconciler.ReconcileResource env)
    (fun r => AliasReconciler.setProgressing env.now env.StatusUpdate r "Reconciling alias")
    (fun r e => AliasReconciler.setDegraded env.now env.StatusUpdate r e)
    (fun r => AliasReconciler.setReady env.now env.StatusUpdate r "Alias successfully reconciled")
    aliasObj

/-- `DomainReconciler.Reconcile` (domain_controller.go lines 58-98), after `r.Get` has
loaded the object.  It calls none of the status helpers. -/
def DomainReconciler.Reconcile (env : Cluster) (domain : Object DomainSpec) :
    PassResult DomainSpec :=
  if IsZero domain.deletionTimestamp && !ContainsFinalizer domain.finalizers env.Finalizer then
    let domain := { domain with finalizers := AddFinalizer domain.finalizers env.Finalizer }
    match env.Update domain.finalizers with
    | some err =>
      { object := domain, calls := [Call.update domain.finalizers], requeue := false,
        ret := Ret.err err }
    | none =>
      { object := domain, calls := [Call.update domain.finalizers], requeue := true,
        ret := Ret.nil }
  else
    let rr := DomainReconciler.ReconcileResource env domain
    match rr.2 with
    | Ret.panic => { object := domain, calls := rr.1, requeue := false, ret := Ret.panic }
    | Ret.err err => { object := domain, calls := rr.1, requeue := false, ret := Ret.err err }
    | Ret.nil =>
      if !IsZero domain.deletionTimestamp &&
          ContainsFinalizer domain.finalizers env.Finalizer then
        let domain :=
          { domain with finalizers := RemoveFinalizer domain.finalizers env.Finalizer }
        match env.Update domain.finalizers with
        | some err =>
          { object := domain, calls := rr.1 ++ [Call.update domain.finalizers],
            requeue := false, ret := Ret.err err }
        | none =>
          { object := domain, calls := rr.1 ++ [Call.update domain.finalizers],
            requeue := false, ret := Ret.nil }
      else { object := domain, calls := rr.1, requeue := false, ret := Ret.nil }

/-- A call that reads the declarative store or builds the client: none of these reaches
the backend or writes anything. -/
def Call.isLookup : Call → Bool
  | Call.getMailcow _ _ => true
  | Call.getSecret _ _ => true
  | Call.newClient _ _ => true
  | _ => false

/-- A call of the DKIM step: a DKIM query or generation, or a ConfigMap read or write. -/
def Call.isDKIM : Call → Bool
  | Call.getDKIMKey _ => true
  | Call.generateDKIMKey _ => true
  | Call.getConfigMap _ _ => true
  | Call.createConfigMap _ => true
  | Call.updateConfigMap _ => true
  | _ => false

/-- A read or write of a ConfigMap. -/
def Call.isConfigMap : Call → Bool
  | Call.getConfigMap _ _ => true
  | Call.createConfigMap _ => true
  | Call.updateConfigMap _ => true
  | _ => false

/-- What the Progressing step of a pass amounts to when it changes the condition: the
object is marked Progressing, the status is persisted by the only call of the pass, and
the pass returns a re-run request, or the error of the persist. -/
def progressingStep {Spec : Type} (env : Cluster) (obj : Object Spec) (message : String)
    (r : PassResult Spec) : Prop :=
  r.object =
      { obj with
        resource :=
          { generation := obj.resource.generation
            status :=
              { phase := "Progressing"
                conditions :=
                  SetConditionStatus env.now obj.resource.status.conditions "Progressing"
                    ConditionTrue "Reconciling" message obj.resource.generation } } } ∧
  r.calls =
      [Call.statusUpdate
        { generation := obj.resource.generation
          status :=
            { phase := "Progressing"
              conditions :=
                SetConditionStatus env.now obj.resource.status.conditions "Progressing"
                  ConditionTrue "Reconciling" message obj.resource.generation } }] ∧
  (env.StatusUpdate
      { generation := obj.resource.generation
        status :=
          { phase := "Progressing"
            conditions :=
              SetConditionStatus env.now obj.resource.status.conditions "Progressing"
                ConditionTrue "Reconciling" message obj.resource.generation } } = none →
    r.requeue = true ∧ r.ret = Ret.nil) ∧
  (∀ e,
    env.StatusUpdate
      { generation := obj.resource.generation
        status :=
          { phase := "Progressing"
            conditions :=
              SetConditionStatus env.now obj.resource.status.conditions "Progressing"
                ConditionTrue "Reconciling" message obj.resource.generation } } = some e →
    r.requeue = false ∧ r.ret = Ret.err e)

/-- What the first step of a pass amounts to on an object without deletion timestamp and
without the finalizer: the finalizer is appended, the object is persisted by the only call
of the pass, and the pass returns a re-run request, or the error of the persist. -/
def finalizerStep {Spec : Type} (env : Cluster) (obj : Object Spec) (r : PassResult Spec) :
    Prop :=
  r.object = { obj with finalizers := obj.finalizers ++ [env.Finalizer] } ∧
  r.calls = [Call.update (obj.finalizers ++ [env.Finalizer])] ∧
  (env.Update (obj.finalizers ++ [env.Finalizer]) = none →
    r.requeue = true ∧ r.ret = Ret.nil) ∧
  (∀ e, env.Update (obj.finalizers ++ [env.Finalizer]) = some e →
    r.requeue = false ∧ r.ret = Ret.err e)

/-- A backend in which every record asked for exists, every DKIM key has a TXT record and
every call succeeds. -/
def sampleBackend : Backend where
  GetDomainsWithResponse := fun id => Except.ok { JSON200 := some { domainName := some id } }
  DeleteDomainWithResponse := fun _ => none
  CreateDomainWithResponse := fun _ => none
  UpdateDomainWithResponse := fun _ => none
  EditDomainRatelimits := fun _ => none
  GetDKIMKeyWithResponse := fun _ _ =>
    Except.ok
      { JSON200 :=
          some { dkimSelector := some "dkim", dkimTxt := some "v=DKIM1;k=rsa;p=abc",
                 length := some "2048", pubkey := some "abc" } }
  GenerateDKIMKeyWithResponse := fun _ => none
  GetMailboxesWithResponse := fun id => Except.ok { JSON200 := some { username := some id } }
  DeleteMailboxWithResponse := fun _ => none
  CreateMailboxWithResponse := fun _ => none
  UpdateMailboxWithResponse := fun _ => none
  GetAliasesWithResponse := fun id => Except.ok { JSON200 := some { address := some id } }
  DeleteAliasWithResponse := fun _ => none
  CreateAliasWithResponse := fun _ => none
  UpdateAliasWithResponse := fun _ => none
  GetDomainAdmins :=
    Except.ok
      { statusCode := 200, parsed := some { JSON200 := some [{ username := some "admin" }] } }
  DeleteDomainAdminWithResponse := fun _ => none
  CreateDomainAdminUserWithResponse := fun _ => none
  EditDomainAdminUserWithResponse := fun _ => none

/-- A cluster around a given backend in which every lookup and every write succeeds and no
ConfigMap exists yet. -/
def sampleCluster (backend : Backend) : Cluster where
  now := 100
  Finalizer := "mailcow.onestein.nl/finalizer"
  Update := fun _ => none
  StatusUpdate := fun _ => none
  GetMailcow := fun _ ns =>
    Except.ok
      { ns := ns
        spec := { secret := { name := "mailcow-api", key := "api-key" },
                  endpoint := "https://mail.example.com" } }
  GetSecret := fun name _ =>
    Except.ok { name := name, data := [("api-key", "k3y"), ("password", "hunter2")] }
  NewCustomClientWithResponses := fun _ _ => Except.ok backend
  GetConfigMap := fun _ _ => Lookup.notFound
  CreateConfigMap := fun _ => none
  UpdateConfigMap := fun _ => none

/-- The Mailbox `user@example.com` with the given deletion timestamp, finalizers and
conditions. -/
def sampleMailbox (deletionTimestamp : Option Nat) (finalizers : List String)
    (conditions : List Condition) : Object MailboxSpec :=
  { name := "user", ns := "mail", uid := "uid-1", deletionTimestamp := deletionTimestamp
    finalizers := finalizers
    spec :=
      { mailcow := "mailcow", domain := "example.com", localPart := "user", name := "User"
        passwordSecret := { name := "user-password", key := "password" }
        active := some true, forcePasswordChange := none, quota := some 1024 }
    resource := { generation := 1, status := { phase := "", conditions := conditions } } }

/-- The Domain `example.com` with quota 1024 and the given deletion timestamp, finalizers
and conditions. -/
def sampleDomain (deletionTimestamp : Option Nat) (finalizers : List String)
    (conditions : List Condition) : Object DomainSpec :=
  { name := "example", ns := "mail", uid := "uid-2", deletionTimestamp := deletionTimestamp
    finalizers := finalizers
    spec :=
      { mailcow := "mailcow", domain := "example.com", description := "Example"
        quota := 1024, maxQuota := 512, defQuota := 256, maxMailboxes := 10
        rateLimit := some 100, rateLimitFrame := "hour", active := some true }
    resource := { generation := 1, status := { phase := "", conditions := conditions } } }

/-- The DomainAdmin `admin` with the given deletion timestamp, finalizers and conditions. -/
def sampleDomainAdmin (deletionTimestamp : Option Nat) (finalizers : List String)
    (conditions : List Condition) : Object DomainAdminSpec :=
  { name := "admin", ns := "mail", uid := "uid-3", deletionTimestamp := deletionTimestamp
    finalizers := finalizers
    spec :=
      { mailcow := "mailcow", username := "admin"
        passwordSecret := { name := "admin-password", key := "password" }
        active := some true, domains := ["example.com"] }
    resource := { generation := 1, status := { phase := "", conditions := conditions } } }

/-- The Alias `info@example.com` with the given deletion timestamp, finalizers and
conditions. -/
def sampleAlias (deletionTimestamp : Option Nat) (finalizers : List String)
    (conditions : List Condition) : Object AliasSpec :=
  { name := "info", ns := "mail", uid := "uid-4", deletionTimestamp := deletionTimestamp
    finalizers := finalizers
    spec :=
      { mailcow := "mailcow", address := "info@example.com", goTo := "user@example.com"
        active := true }
    resource := { generation := 1, status := { phase := "", conditions := conditions } } }

/-- The finalizer of `sampleCluster`. -/
def sampleFinalizer : String := "mailcow.onestein.nl/finalizer"

/-- A backend whose domain-admin list query answers with status 500 and no error. -/
def adminList500Backend : Backend :=
  { sampleBackend with GetDomainAdmins := Except.ok { statusCode := 500, parsed := none } }

/-- A backend in which every delete call fails. -/
def deleteFailsBackend : Backend :=
  { sampleBackend with
    DeleteDomainWithResponse := fun _ => some "mailcow api: delete failed"
    DeleteMailboxWithResponse := fun _ => some "mailcow api: delete failed" }

/-- A backend whose by-key queries answer with the empty object: a parsed payload whose
identity field is absent. -/
def emptyObjectBackend : Backend :=
  { sampleBackend with
    GetDomainsWithResponse := fun _ => Except.ok { JSON200 := some { domainName := none } }
    GetMailboxesWithResponse := fun _ => Except.ok { JSON200 := some { username := none } }
    GetAliasesWithResponse := fun _ => Except.ok { JSON200 := some { address := none } } }

/-- A cluster in which the referenced Mailcow object cannot be loaded. -/
def noConnectionCluster : Cluster :=
  { sampleCluster sampleBackend with GetMailcow := fun _ _ => Except.error "mailcow not found" }

/-- The Progressing condition that `setProgressing` leaves on `sampleMailbox`. -/
def progressingMailbox : Condition :=
  { type := "Progressing", status := "True", observedGeneration := 1, lastTransitionTime := 90
    reason := "Reconciling", message := "Reconciling mailbox" }

/-! ## Conditions across passes -/

/-- What a condition records apart from its type and its transition time: status, reason,
message and observed generation. -/
def conditionCore (c : Condition) : String × String × String × Int :=
  (c.status, c.reason, c.message, c.observedGeneration)

/-! ## Further sample inputs -/

/-- The body `[{"type":"success"},{"type":"danger"}]`: records with no `msg` member. -/
def noMsgBody : String := "[\x7b\"type\":\"success\"\x7d,\x7b\"type\":\"danger\"\x7d]"

/-- The body `[{"type":"danger","msg":"quota exceeded"},{"type":"success","msg":["mailbox_added","a@example.com"]}]`:
one record with a string message and one with an array message. -/
def mixedBody : String :=
  "[\x7b\"type\":\"danger\",\"msg\":\"quota exceeded\"\x7d," ++
    "\x7b\"type\":\"success\",\"msg\":[\"mailbox_added\",\"a@example.com\"]\x7d]"

/-- A runtime for the worked instances on the two record shapes: it parses `noMsgBody` and
`mixedBody` and rejects every other text. -/
def shapesRuntime : GoRuntime where
  parse := fun body =>
    if body = noMsgBody then
      some (Json.arr [Json.obj [("type", Json.str "success")],
        Json.obj [("type", Json.str "danger")]])
    else if body = mixedBody then
      some (Json.arr [stringRecord "danger" "quota exceeded",
        Json.obj [("type", Json.str "success"),
          ("msg", Json.arr [Json.str "mailbox_added", Json.str "a@example.com"])]])
    else none
  foldName := fun name => name.toUpper
  sprintV := fun msg =>
    "[" ++ " ".intercalate (msg.map (fun j => match j with | Json.str t => t | _ => "?")) ++ "]"

/-- A backend in which the dedicated rate-limit edit fails and every other call succeeds. -/
def ratelimitFailsBackend : Backend :=
  { sampleBackend with EditDomainRatelimits := fun _ => some "mailcow api: rate limit rejected" }

/-- Whether `status.phase` mirrors the True condition: the phase is one of the three
well-known types, and a well-known condition is True, looked up the way
`meta.IsStatusConditionTrue` does, exactly when its type is the phase. -/
def phaseMirrors (obj : Resource) : Bool :=
  otherTypes.contains obj.status.phase &&
    otherTypes.all
      (fun t => IsStatusConditionTrue obj.status.conditions t == decide (t = obj.status.phase))

/-- A backend whose queries answer with status 500 and no error: the by-key queries carry no
parsed payload (`JSON200` is nil), the list query carries the status code. -/
def status500Backend : Backend :=
  { sampleBackend with
    GetDomainsWithResponse := fun _ => Except.ok { JSON200 := none }
    GetMailboxesWithResponse := fun _ => Except.ok { JSON200 := none }
    GetAliasesWithResponse := fun _ => Except.ok { JSON200 := none }
    GetDomainAdmins := Except.ok { statusCode := 500, parsed := none } }

/-- A backend whose domain-admin list query answers with status 200 and a response that
parses without a `JSON200` payload. -/
def adminListUnparsedBackend : Backend :=
  { sampleBackend with
    GetDomainAdmins := Except.ok { statusCode := 200, parsed := some { JSON200 := none } } }

/-- A backend whose domain-admin list query fails with an error. -/
def adminListFailsBackend : Backend :=
  { sampleBackend with GetDomainAdmins := Except.error "mailcow api: unauthorized" }

/-- The Progressing condition that `setProgressing` leaves on `sampleDomainAdmin`. -/
def progressingDomainAdmin : Condition :=
  { type := "Progressing", status := "True", observedGeneration := 1, lastTransitionTime := 90
    reason := "Reconciling", message := "Reconciling domainadmin" }

/-- The Progressing condition that `setProgressing` leaves on `sampleAlias`. -/
def progressingAlias : Condition :=
  { type := "Progressing", status := "True", observedGeneration := 1, lastTransitionTime := 90
    reason := "Reconciling", message := "Reconciling alias" }

/-- A cluster around a given backend in which every status write fails. -/
def statusConflictCluster (backend : Backend) : Cluster :=
  { sampleCluster backend with StatusUpdate := fun _ => some "status conflict" }

/-- A backend on which the Domain has no record and no DKIM key yet: the by-key domain query
answers the empty object, the first DKIM fetch has no TXT record, and the fetch after the
generation has one. -/
def freshDomainBackend : Backend :=
  { sampleBackend with
    GetDomainsWithResponse := fun _ => Except.ok { JSON200 := some { domainName := none } }
    GetDKIMKeyWithResponse := fun n _ =>
      if n = 0 then
        Except.ok
          { JSON200 :=
              some { dkimSelector := none, dkimTxt := none, length := none, pubkey := none } }
      else
        Except.ok
          { JSON200 :=
              some { dkimSelector := some "dkim", dkimTxt := some "v=DKIM1;k=rsa;p=new",
                     length := some "2048", pubkey := some "new" } } }

/-- A cluster around a given backend in which the ConfigMap asked for exists, without owner
reference and with one entry `old`. -/
def unownedConfigMapCluster (backend : Backend) : Cluster :=
  { sampleCluster backend with
    GetConfigMap := fun name ns =>
      Lookup.found { name := name, ns := ns, ownerReferences := [], data := [("old", "x")] } }

/-- A backend whose domain-admin list holds one admin, `other`. -/
def otherAdminBackend : Backend :=
  { sampleBackend with
    GetDomainAdmins :=
      Except.ok
        { statusCode := 200, parsed := some { JSON200 := some [{ username := some "other" }] } } }

/-! ## Lemmas on the condition list -/

theorem find_type {l : List Condition} {t : String} {c : Condition}
    (h : FindStatusCondition l t = some c) : c.type = t := by
  induction l with
  | nil => simp [FindStatusCondition] at h
  | cons x xs ih =>
    unfold FindStatusCondition at h
    split_ifs at h with hx
    · cases h; exact hx
    · exact ih h

theorem find_append_none {l : List Condition} {t : String} (c : Condition)
    (h : FindStatusCondition l t = none) :
    FindStatusCondition (l ++ [c]) t = if c.type = t then some c else none := by
  induction l with
  | nil => simp [FindStatusCondition]
  | cons x xs ih =>
    unfold FindStatusCondition at h
    split_ifs at h with hx
    simp only [List.cons_append, FindStatusCondition, if_neg hx]
    exact ih h

theorem find_append_some {l : List Condition} {t : String} {e : Condition} (c : Condition)
    (h : FindStatusCondition l t = some e) :
    FindStatusCondition (l ++ [c]) t = some e := by
  induction l with
  | nil => simp [FindStatusCondition] at h
  | cons x xs ih =>
    unfold FindStatusCondition at h
    split_ifs at h with hx
    · simp only [List.cons_append, FindStatusCondition, if_pos hx]; exact h
    · simp only [List.cons_append, FindStatusCondition, if_neg hx]; exact ih h

theorem find_append_ne {l : List Condition} {t : String} (c : Condition) (hc : c.type ≠ t) :
    FindStatusCondition (l ++ [c]) t = FindStatusCondition l t := by
  cases h : FindStatusCondition l t with
  | none => rw [find_append_none c h, if_neg hc]
  | some e => exact find_append_some c h

theorem find_writeBack_same {l : List Condition} {t : String} {e : Condition} (c : Condition)
    (hc : c.type = t) (h : FindStatusCondition l t = some e) :
    FindStatusCondition (writeBack t c l) t = some c := by
  induction l with
  | nil => simp [FindStatusCondition] at h
  | cons x xs ih =>
    unfold FindStatusCondition at h
    split_ifs at h with hx
    · simp [writeBack, hx, FindStatusCondition, hc]
    · simp only [writeBack, if_neg hx, FindStatusCondition]; exact ih h

theorem find_writeBack_ne {l : List Condition} {t u : String} (c : Condition)
    (hc : c.type = t) (hu : u ≠ t) :
    FindStatusCondition (writeBack t c l) u = FindStatusCondition l u := by
  induction l with
  | nil => simp [writeBack]
  | cons x xs ih =>
    by_cases hx : x.type = t
    · have h1 : ¬ c.type = u := fun h => hu (h.symm.trans hc)
      have h2 : ¬ x.type = u := fun h => hu (h.symm.trans hx)
      have h3 : ¬ t = u := fun h => hu h.symm
      simp [writeBack, hx, FindStatusCondition, h1, h3]
    · simp only [writeBack, if_neg hx, FindStatusCondition, ih]

theorem writeBack_self {l : List Condition} {t : String} {e : Condition}
    (h : FindStatusCondition l t = some e) : writeBack t e l = l := by
  induction l with
  | nil => rfl
  | cons x xs ih =>
    unfold FindStatusCondition at h
    split_ifs at h with hx
    · cases h; simp [writeBack, hx]
    · simp only [writeBack, if_neg hx, ih h]

theorem map_type_writeBack (l : List Condition) {t : String} {c : Condition}
    (hc : c.type = t) : (writeBack t c l).map Condition.type = l.map Condition.type := by
  induction l with
  | nil => rfl
  | cons x xs ih =>
    by_cases hx : x.type = t
    · simp [writeBack, hx, hc]
    · simp [writeBack, hx, ih]

theorem updateExisting_fst (now : Nat) (e n : Condition) :
    (updateExisting now e n).1 =
      { type := e.type
        status := n.status
        observedGeneration := n.observedGeneration
        lastTransitionTime :=
          if e.status = n.status then e.lastTransitionTime
          else if n.lastTransitionTime = 0 then now else n.lastTransitionTime
        reason := n.reason
        message := n.message } := by
  obtain ⟨t, s, g, l, r, m⟩ := e
  obtain ⟨t', s', g', l', r', m'⟩ := n
  by_cases h1 : s = s' <;> by_cases h2 : r = r' <;> by_cases h3 : m = m' <;>
    by_cases h4 : g = g' <;> by_cases h5 : l' = 0 <;> simp [updateExisting, h1, h2, h3, h4, h5]

theorem updateExisting_snd (now : Nat) (e n : Condition) :
    (updateExisting now e n).2 = false ↔
      e.status = n.status ∧ e.reason = n.reason ∧ e.message = n.message ∧
        e.observedGeneration = n.observedGeneration := by
  obtain ⟨t, s, g, l, r, m⟩ := e
  obtain ⟨t', s', g', l', r', m'⟩ := n
  by_cases h1 : s = s' <;> by_cases h2 : r = r' <;> by_cases h3 : m = m' <;>
    by_cases h4 : g = g' <;> simp [updateExisting, h1, h2, h3, h4]

theorem updateExisting_same (now : Nat) {e n : Condition} (h1 : e.status = n.status)
    (h2 : e.reason = n.reason) (h3 : e.message = n.message)
    (h4 : e.observedGeneration = n.observedGeneration) :
    updateExisting now e n = (e, false) := by
  simp [updateExisting, h1, h2, h3, h4]

theorem find_eq_none_iff (l : List Condition) (t : String) :
    FindStatusCondition l t = none ↔ t ∉ l.map Condition.type := by
  induction l with
  | nil => simp [FindStatusCondition]
  | cons x xs ih =>
    by_cases hx : x.type = t
    · simp [FindStatusCondition, hx]
    · have hx' : ¬ t = x.type := fun h => hx h.symm
      simp [FindStatusCondition, hx, hx', ih]

/-! ## Lemmas on `SetStatusCondition` -/

theorem find_set_same (now : Nat) (l : List Condition) (n : Condition) :
    ∃ c, FindStatusCondition (SetStatusCondition now l n).1 n.type = some c ∧
      c.status = n.status ∧ c.reason = n.reason ∧ c.message = n.message ∧
      c.observedGeneration = n.observedGeneration := by
  unfold SetStatusCondition
  cases h : FindStatusCondition l n.type with
  | none =>
    simp only
    rw [find_append_none _ h]
    split_ifs <;> simp_all
  | some e =>
    simp only
    refine ⟨(updateExisting now e n).1, ?_, ?_⟩
    · apply find_writeBack_same _ _ h
      rw [updateExisting_fst]; exact (find_type h : e.type = n.type)
    · rw [updateExisting_fst]; simp

theorem find_set_ne (now : Nat) (l : List Condition) (n : Condition) {u : String}
    (hu : u ≠ n.type) :
    FindStatusCondition (SetStatusCondition now l n).1 u = FindStatusCondition l u := by
  unfold SetStatusCondition
  cases h : FindStatusCondition l n.type with
  | none =>
    simp only
    apply find_append_ne
    split_ifs <;> exact fun h => hu h.symm
  | some e =>
    simp only
    apply find_writeBack_ne _ _ hu
    rw [updateExisting_fst]; exact (find_type h : e.type = n.type)

theorem set_same (now : Nat) {l : List Condition} {n e : Condition}
    (h : FindStatusCondition l n.type = some e) (h1 : e.status = n.status)
    (h2 : e.reason = n.reason) (h3 : e.message = n.message)
    (h4 : e.observedGeneration = n.observedGeneration) :
    SetStatusCondition now l n = (l, false) := by
  unfold SetStatusCondition
  rw [h]
  simp only [updateExisting_same now h1 h2 h3 h4, writeBack_self h]

theorem map_type_set (now : Nat) (l : List Condition) (n : Condition) :
    (SetStatusCondition now l n).1.map Condition.type =
      if n.type ∈ l.map Condition.type then l.map Condition.type
      else l.map Condition.type ++ [n.type] := by
  unfold SetStatusCondition
  cases h : FindStatusCondition l n.type with
  | none =>
    have hn := (find_eq_none_iff l n.type).1 h
    simp only [if_neg hn, List.map_append, List.map_cons, List.map_nil]
    split_ifs <;> rfl
  | some e =>
    have hn : n.type ∈ l.map Condition.type := by
      by_contra hc
      rw [(find_eq_none_iff l n.type).2 hc] at h
      cases h
    simp only [if_pos hn]
    apply map_type_writeBack
    rw [updateExisting_fst]; exact (find_type h : e.type = n.type)

/-! ## Lemmas on the loop of `SetConditionStatus` -/

theorem find_resetOther_ne (now : Nat) (T : String) (g : Int) (l : List Condition)
    {t u : String} (hu : u ≠ t) :
    FindStatusCondition (resetOther now T g l t) u = FindStatusCondition l u := by
  unfold resetOther
  split_ifs
  · rfl
  · cases h : FindStatusCondition l t with
    | none => rfl
    | some c => exact find_set_ne now l _ hu

theorem find_resetOther_target (now : Nat) (T : String) (g : Int) (l : List Condition)
    (t : String) :
    FindStatusCondition (resetOther now T g l t) T = FindStatusCondition l T := by
  by_cases h : t = T
  · simp [resetOther, h]
  · exact find_resetOther_ne now T g l (fun e => h e.symm)

theorem find_resetOther_same (now : Nat) {T : String} (g : Int) {l : List Condition}
    {t : String} {c : Condition} (ht : t ≠ T) (h : FindStatusCondition l t = some c) :
    ∃ d, FindStatusCondition (resetOther now T g l t) t = some d ∧
      d.status = ConditionFalse ∧ d.reason = c.reason ∧ d.message = c.message ∧
      d.observedGeneration = g := by
  unfold resetOther
  rw [if_neg ht, h]
  exact find_set_same now l
    { type := t, status := ConditionFalse, reason := c.reason, message := c.message,
      observedGeneration := g, lastTransitionTime := 0 }

theorem resetOther_absent (now : Nat) (T : String) (g : Int) {l : List Condition}
    {t : String} (h : FindStatusCondition l t = none) : resetOther now T g l t = l := by
  unfold resetOther
  rw [h]
  split_ifs <;> rfl

theorem resetOther_settled (now : Nat) (T : String) {g : Int} {l : List Condition}
    {t : String} {c : Condition} (h : FindStatusCondition l t = some c)
    (hs : c.status = ConditionFalse) (hg : c.observedGeneration = g) :
    resetOther now T g l t = l := by
  unfold resetOther
  rw [h]
  split_ifs
  · rfl
  · have := set_same now (l := l) (e := c)
      (n := { type := t, status := ConditionFalse, reason := c.reason, message := c.message,
              observedGeneration := g, lastTransitionTime := 0 }) h hs rfl rfl hg
    simp only [this]

theorem map_type_resetOther (now : Nat) (T : String) (g : Int) (l : List Condition)
    (t : String) :
    (resetOther now T g l t).map Condition.type = l.map Condition.type := by
  unfold resetOther
  split_ifs
  · rfl
  · cases h : FindStatusCondition l t with
    | none => rfl
    | some c =>
      simp only
      rw [map_type_set]
      have hn : t ∈ l.map Condition.type := by
        by_contra hc
        rw [(find_eq_none_iff l t).2 hc] at h
        cases h
      simp [hn]

theorem find_foldl_not_mem (now : Nat) (T : String) (g : Int) {u : String} (ts : List String)
    (l : List Condition) (hu : u ∉ ts) :
    FindStatusCondition (ts.foldl (resetOther now T g) l) u = FindStatusCondition l u := by
  induction ts generalizing l with
  | nil => rfl
  | cons a rest ih =>
    simp only [List.mem_cons, not_or] at hu
    rw [List.foldl_cons, ih _ hu.2, find_resetOther_ne now T g l hu.1]

theorem find_foldl_target (now : Nat) (T : String) (g : Int) (ts : List String)
    (l : List Condition) :
    FindStatusCondition (ts.foldl (resetOther now T g) l) T = FindStatusCondition l T := by
  induction ts generalizing l with
  | nil => rfl
  | cons a rest ih => rw [List.foldl_cons, ih, find_resetOther_target]

theorem find_foldl_mem (now : Nat) {T : String} (g : Int) {t : String} {c : Condition}
    (ts : List String) (l : List Condition) (hnd : ts.Nodup) (hm : t ∈ ts) (ht : t ≠ T)
    (h : FindStatusCondition l t = some c) :
    ∃ d, FindStatusCondition (ts.foldl (resetOther now T g) l) t = some d ∧
      d.status = ConditionFalse ∧ d.reason = c.reason ∧ d.message = c.message ∧
      d.observedGeneration = g := by
  induction ts generalizing l with
  | nil => cases hm
  | cons a rest ih =>
    rw [List.nodup_cons] at hnd
    rw [List.foldl_cons]
    by_cases hta : t = a
    · subst hta
      rw [find_foldl_not_mem now T g rest _ hnd.1]
      exact find_resetOther_same now g ht h
    · have hm' : t ∈ rest := by
        rcases List.mem_cons.1 hm with h1 | h1
        · exact absurd h1 hta
        · exact h1
      apply ih _ hnd.2 hm'
      rw [find_resetOther_ne now T g l hta]
      exact h

theorem map_type_foldl (now : Nat) (T : String) (g : Int) (ts : List String)
    (l : List Condition) :
    (ts.foldl (resetOther now T g) l).map Condition.type = l.map Condition.type := by
  induction ts generalizing l with
  | nil => rfl
  | cons a rest ih => rw [List.foldl_cons, ih, map_type_resetOther]

theorem foldl_fixed (now : Nat) (T : String) (g : Int) (ts : List String)
    (l : List Condition) (h : ∀ t ∈ ts, resetOther now T g l t = l) :
    ts.foldl (resetOther now T g) l = l := by
  induction ts with
  | nil => rfl
  | cons a rest ih =>
    rw [List.foldl_cons, h a (List.mem_cons_self a rest)]
    exact ih (fun t ht => h t (List.mem_cons_of_mem a ht))

theorem otherTypes_nodup : otherTypes.Nodup := by decide

/-! ## What `SetConditionStatus` leaves in the list -/

theorem find_target (now : Nat) (l : List Condition) (T s r m : String) (g : Int) :
    ∃ c, FindStatusCondition (SetConditionStatus now l T s r m g) T = some c ∧
      c.status = s ∧ c.reason = r ∧ c.message = m ∧ c.observedGeneration = g := by
  unfold SetConditionStatus
  simp only [find_foldl_target]
  exact find_set_same now l
    { type := T, status := s, reason := r, message := m, observedGeneration := g,
      lastTransitionTime := 0 }

theorem find_other_some (now : Nat) (l : List Condition) (T s r m : String) (g : Int)
    {t : String} {c : Condition} (hm : t ∈ otherTypes) (ht : t ≠ T)
    (h : FindStatusCondition l t = some c) :
    ∃ d, FindStatusCondition (SetConditionStatus now l T s r m g) t = some d ∧
      d.status = ConditionFalse ∧ d.reason = c.reason ∧ d.message = c.message ∧
      d.observedGeneration = g := by
  unfold SetConditionStatus
  apply find_foldl_mem now g otherTypes _ otherTypes_nodup hm ht
  rw [find_set_ne now l _ (show t ≠ _ from ht)]
  exact h

theorem map_type_SetConditionStatus (now : Nat) (l : List Condition) (T s r m : String)
    (g : Int) :
    (SetConditionStatus now l T s r m g).map Condition.type =
      if T ∈ l.map Condition.type then l.map Condition.type
      else l.map Condition.type ++ [T] := by
  unfold SetConditionStatus
  simp only [map_type_foldl, map_type_set]

theorem find_other_none (now : Nat) (l : List Condition) (T s r m : String) (g : Int)
    {t : String} (ht : t ≠ T) (h : FindStatusCondition l t = none) :
    FindStatusCondition (SetConditionStatus now l T s r m g) t = none := by
  rw [find_eq_none_iff] at h ⊢
  rw [map_type_SetConditionStatus]
  split_ifs
  · exact h
  · simp [h, ht]

theorem SetConditionStatus_settled (now now' : Nat) (l : List Condition) (T s r m : String)
    (g : Int) :
    SetConditionStatus now' (SetConditionStatus now l T s r m g) T s r m g =
      SetConditionStatus now l T s r m g := by
  obtain ⟨c, hc, h1, h2, h3, h4⟩ := find_target now l T s r m g
  have hset := set_same now' (l := SetConditionStatus now l T s r m g) (e := c)
    (n := { type := T, status := s, reason := r, message := m, observedGeneration := g,
            lastTransitionTime := 0 }) hc h1 h2 h3 h4
  have hfix : ∀ t ∈ otherTypes,
      resetOther now' T g (SetConditionStatus now l T s r m g) t =
        SetConditionStatus now l T s r m g := by
    intro t hm
    by_cases ht : t = T
    · simp [resetOther, ht]
    · cases hl : FindStatusCondition l t with
      | none => exact resetOther_absent now' T g (find_other_none now l T s r m g ht hl)
      | some c0 =>
        obtain ⟨d, hd, hs, _, _, hg⟩ := find_other_some now l T s r m g hm ht hl
        exact resetOther_settled now' T hd hs hg
  generalize SetConditionStatus now l T s r m g = L at hset hfix ⊢
  unfold SetConditionStatus
  simp only [hset]
  exact foldl_fixed now' T g otherTypes L hfix

theorem find_of_typeCount_le_one {l : List Condition} {T : String} {c : Condition}
    (h : typeCount l T ≤ 1) (hc : c ∈ l) (ht : c.type = T) :
    FindStatusCondition l T = some c := by
  induction l with
  | nil => cases hc
  | cons x xs ih =>
    by_cases hx : x.type = T
    · have h0 : (xs.map Condition.type).count T = 0 := by
        simp only [typeCount, List.map_cons, hx, List.count_cons_self] at h
        omega
      rcases List.mem_cons.1 hc with h1 | h1
      · subst h1; simp [FindStatusCondition, hx]
      · exfalso
        have : T ∈ xs.map Condition.type := List.mem_map.2 ⟨c, h1, ht⟩
        exact (List.count_eq_zero.1 h0) this
    · have h' : typeCount xs T ≤ 1 := by
        simp only [typeCount, List.map_cons] at h ⊢
        rw [List.count_cons_of_ne (fun e => hx e.symm)] at h
        exact h
      rcases List.mem_cons.1 hc with h1 | h1
      · subst h1; exact absurd ht hx
      · simp only [FindStatusCondition, if_neg hx]; exact ih h' h1

theorem isTrue_SetConditionStatus (now : Nat) (l : List Condition) (T r m : String) (g : Int)
    {t : String} (hm : t ∈ otherTypes) :
    IsStatusConditionTrue (SetConditionStatus now l T ConditionTrue r m g) t = decide (t = T) := by
  unfold IsStatusConditionTrue
  by_cases ht : t = T
  · subst ht
    obtain ⟨c, hc, hs, _⟩ := find_target now l t ConditionTrue r m g
    simp [hc, hs]
  · cases hl : FindStatusCondition l t with
    | none => simp [find_other_none now l T ConditionTrue r m g ht hl, ht]
    | some c0 =>
      obtain ⟨d, hd, hs, _⟩ := find_other_some now l T ConditionTrue r m g hm ht hl
      rw [hd]
      simp [hs, ht, ConditionFalse, ConditionTrue]

theorem conditionChanged_self (c : Option Condition) : conditionChanged c c = false := by
  cases c <;> simp [conditionChanged]

/-! ## Lemmas on the decodings -/

theorem decode_stringRecord (rt : GoRuntime) (t m : String) :
    MailcowOKResponse.decode rt (stringRecord t m) = ({ type := t, msg := m }, true) := by
  simp [MailcowOKResponse.decode, stringRecord, MailcowOKResponse.storeMember, lookupField,
    storeString]

theorem firstDanger_eq_none_iff (rs : List MailcowOKResponse) :
    firstDanger rs = none ↔ ∀ r ∈ rs, r.type ≠ "danger" := by
  simp [firstDanger, List.find?_eq_none]

theorem firstDangerMsgArray_eq_none_iff (rs : List MailcowOKResponseMsgArray) :
    firstDangerMsgArray rs = none ↔ ∀ r ∈ rs, r.type ≠ "danger" := by
  simp [firstDangerMsgArray, List.find?_eq_none]

theorem firstDanger_some {rs : List MailcowOKResponse} {r : MailcowOKResponse}
    (h : firstDanger rs = some r) : r ∈ rs ∧ r.type = "danger" := by
  unfold firstDanger at h
  exact ⟨List.mem_of_find?_eq_some h, by simpa using List.find?_some h⟩

theorem firstDangerMsgArray_some {rs : List MailcowOKResponseMsgArray}
    {r : MailcowOKResponseMsgArray} (h : firstDangerMsgArray rs = some r) :
    r ∈ rs ∧ r.type = "danger" := by
  unfold firstDangerMsgArray at h
  exact ⟨List.mem_of_find?_eq_some h, by simpa using List.find?_some h⟩

theorem unmarshalResponses_records (rt : GoRuntime) (body : String)
    (records : List (String × String))
    (h : rt.parse body = some (Json.arr (records.map (fun p => stringRecord p.1 p.2)))) :
    unmarshalResponses rt body =
      some (records.map (fun p => ({ type := p.1, msg := p.2 } : MailcowOKResponse))) := by
  unfold unmarshalResponses
  rw [h]
  simp [List.map_map, Function.comp_def, decode_stringRecord]

theorem firstDanger_records (pre post : List (String × String)) (m : String)
    (hpre : ∀ p ∈ pre, p.1 ≠ "danger") :
    firstDanger ((pre ++ ("danger", m) :: post).map
        (fun p => ({ type := p.1, msg := p.2 } : MailcowOKResponse))) =
      some { type := "danger", msg := m } := by
  induction pre with
  | nil => simp [firstDanger]
  | cons x xs ih =>
    have hx : x.1 ≠ "danger" := hpre x (List.mem_cons_self x xs)
    have := ih (fun p hp => hpre p (List.mem_cons_of_mem x hp))
    have hx' : (x.1 == "danger") = false := by simpa using hx
    simp only [firstDanger, List.cons_append, List.map_cons, List.find?_cons, hx'] at this ⊢
    exact this

/-! ## Lemmas on the reconciliation passes -/

theorem addFinalizer_absent {fs : List String} {f : String}
    (h : ContainsFinalizer fs f = false) : AddFinalizer fs f = fs ++ [f] := by
  unfold ContainsFinalizer at h
  unfold AddFinalizer
  rw [h]
  rfl

theorem reconcileGated_finalizerStep {Spec : Type} (env : Cluster)
    (rr : Object Spec → List Call × Ret) (sp : Resource → Bool × HelperResult)
    (sd : Resource → String → Bool × HelperResult) (sr : Resource → Bool × HelperResult)
    (obj : Object Spec) (hz : IsZero obj.deletionTimestamp = true)
    (hf : ContainsFinalizer obj.finalizers env.Finalizer = false) :
    finalizerStep env obj (reconcileGated env rr sp sd sr obj) := by
  unfold reconcileGated finalizerStep
  simp only [hz, hf, if_true, Bool.not_false, addFinalizer_absent hf]
  cases h : env.Update (obj.finalizers ++ [env.Finalizer]) <;> simp

theorem domain_finalizerStep (env : Cluster) (domain : Object DomainSpec)
    (hz : IsZero domain.deletionTimestamp = true)
    (hf : ContainsFinalizer domain.finalizers env.Finalizer = false) :
    finalizerStep env domain (DomainReconciler.Reconcile env domain) := by
  unfold DomainReconciler.Reconcile finalizerStep
  simp only [hz, hf, Bool.not_false, Bool.and_self, if_true, addFinalizer_absent hf]
  cases h : env.Update (domain.finalizers ++ [env.Finalizer]) <;> simp

theorem removeFinalizer_absent {fs : List String} {f : String}
    (h : ContainsFinalizer fs f = false) : RemoveFinalizer fs f = fs := by
  unfold ContainsFinalizer at h
  unfold RemoveFinalizer
  rw [List.filter_eq_self]
  intro a ha
  have : a ≠ f := by
    intro e
    subst e
    simp [ha] at h
  simpa using this

theorem getClient_lookup (env : Cluster) (res : Mailcow) :
    ∀ x ∈ (res.GetClient env).1, x.isLookup = true := by
  unfold Mailcow.GetClient
  intro x hx
  cases h1 : env.GetSecret res.spec.secret.name res.ns with
  | error e => simp [h1] at hx; subst hx; rfl
  | ok secret =>
    cases h2 : secret.data.lookup res.spec.secret.key with
    | none => simp [h1, h2] at hx; subst hx; rfl
    | some value =>
      cases h3 : env.NewCustomClientWithResponses res.spec.endpoint value with
      | error e => simp [h1, h2, h3] at hx; rcases hx with hx | hx <;> subst hx <;> rfl
      | ok client => simp [h1, h2, h3] at hx; rcases hx with hx | hx <;> subst hx <;> rfl

theorem resolveClient_lookup (env : Cluster) (n ns : String) :
    ∀ x ∈ (resolveClient env n ns).1, x.isLookup = true := by
  unfold resolveClient
  intro x hx
  cases h1 : env.GetMailcow n ns with
  | error e => simp [h1] at hx; subst hx; rfl
  | ok res =>
    simp only [h1, List.mem_cons] at hx
    rcases hx with hx | hx
    · subst hx; rfl
    · exact getClient_lookup env res x hx

theorem getPasswordFrom_lookup (env : Cluster) (sel : SecretKeySelector) (ns : String) :
    ∀ x ∈ (getPasswordFrom env sel ns).1, x.isLookup = true := by
  unfold getPasswordFrom
  intro x hx
  cases h1 : env.GetSecret sel.name ns with
  | error e => simp [h1] at hx; subst hx; rfl
  | ok secret =>
    cases h2 : secret.data.lookup sel.key with
    | none => simp [h1, h2] at hx; subst hx; rfl
    | some value => simp [h1, h2] at hx; subst hx; rfl

theorem filter_lookup {l : List Call} (p : Call → Bool)
    (hp : ∀ x, x.isLookup = true → p x = false) (hl : ∀ x ∈ l, x.isLookup = true) :
    l.filter p = [] := by
  rw [List.filter_eq_nil_iff]
  intro x hx
  simp [hp x (hl x hx)]

theorem filter_statusUpdate (l : List Resource) (p : Call → Bool)
    (hp : ∀ r, p (Call.statusUpdate r) = false) :
    (l.map Call.statusUpdate).filter p = [] := by
  rw [List.filter_eq_nil_iff]
  intro x hx
  obtain ⟨r, _, rfl⟩ := List.mem_map.1 hx
  simp [hp r]

theorem lookup_not_create (x : Call) (h : x.isLookup = true) : x.isCreate = false := by
  cases x <;> simp_all [Call.isLookup, Call.isCreate]

theorem lookup_not_update (x : Call) (h : x.isLookup = true) : x.isUpdate = false := by
  cases x <;> simp_all [Call.isLookup, Call.isUpdate]

theorem lookup_not_delete (x : Call) (h : x.isLookup = true) : x.isDelete = false := by
  cases x <;> simp_all [Call.isLookup, Call.isDelete]

theorem lookup_not_mutation (x : Call) (h : x.isLookup = true) : x.isMutation = false := by
  cases x <;> simp_all [Call.isLookup, Call.isMutation, Call.isCreate, Call.isUpdate,
    Call.isDelete]

theorem lookup_not_backend (x : Call) (h : x.isLookup = true) : x.isBackend = false := by
  cases x <;> simp_all [Call.isLookup, Call.isBackend, Call.isMutation, Call.isCreate,
    Call.isUpdate, Call.isDelete]

theorem mailbox_rr_deleting (env : Cluster) (mailbox : Object MailboxSpec) (c : List Call)
    (client : Backend) (response : ParsedResponse MailboxPayload) (payload : MailboxPayload)
    (hz : IsZero mailbox.deletionTimestamp = false)
    (hres : resolveClient env mailbox.spec.mailcow mailbox.ns = (c, Except.ok client))
    (hq : client.GetMailboxesWithResponse
        (mailbox.spec.localPart ++ "@" ++ mailbox.spec.domain) = Except.ok response)
    (hj : response.JSON200 = some payload) :
    MailboxReconciler.ReconcileResource env mailbox =
      if payload.username.isSome then
        (c ++ [Call.getMailboxes (mailbox.spec.localPart ++ "@" ++ mailbox.spec.domain),
               Call.deleteMailbox [mailbox.spec.localPart ++ "@" ++ mailbox.spec.domain]],
          match client.DeleteMailboxWithResponse
              [mailbox.spec.localPart ++ "@" ++ mailbox.spec.domain] with
          | some err => Ret.err err
          | none => Ret.nil)
      else
        (c ++ [Call.getMailboxes (mailbox.spec.localPart ++ "@" ++ mailbox.spec.domain)],
          Ret.nil) := by
  simp only [MailboxReconciler.ReconcileResource, hres, hq, hj, hz]
  cases payload.username.isSome <;>
    cases client.DeleteMailboxWithResponse
      [mailbox.spec.localPart ++ "@" ++ mailbox.spec.domain] <;> simp

theorem mailbox_rr_live (env : Cluster) (mailbox : Object MailboxSpec) (c pc : List Call)
    (client : Backend) (response : ParsedResponse MailboxPayload) (payload : MailboxPayload)
    (password : String)
    (hz : IsZero mailbox.deletionTimestamp = true)
    (hres : resolveClient env mailbox.spec.mailcow mailbox.ns = (c, Except.ok client))
    (hq : client.GetMailboxesWithResponse
        (mailbox.spec.localPart ++ "@" ++ mailbox.spec.domain) = Except.ok response)
    (hp : Mailbox.GetPassword env mailbox = (pc, Except.ok password))
    (hj : response.JSON200 = some payload) :
    MailboxReconciler.ReconcileResource env mailbox =
      if payload.username.isNone then
        (c ++ [Call.getMailboxes (mailbox.spec.localPart ++ "@" ++ mailbox.spec.domain)] ++ pc ++
            [Call.createMailbox
              { domain := some mailbox.spec.domain
                localPart := some mailbox.spec.localPart
                name := some mailbox.spec.name
                password := some password
                password2 := some password
                active := mailbox.spec.active
                forcePwUpdate := mailbox.spec.forcePasswordChange
                quota := Int64ToFloat32 mailbox.spec.quota }],
          match client.CreateMailboxWithResponse
              { domain := some mailbox.spec.domain
                localPart := some mailbox.spec.localPart
                name := some mailbox.spec.name
                password := some password
                password2 := some password
                active := mailbox.spec.active
                forcePwUpdate := mailbox.spec.forcePasswordChange
                quota := Int64ToFloat32 mailbox.spec.quota } with
          | some err => Ret.err err
          | none => Ret.nil)
      else
        (c ++ [Call.getMailboxes (mailbox.spec.localPart ++ "@" ++ mailbox.spec.domain)] ++ pc ++
            [Call.updateMailbox
              { attr :=
                  { name := none, password := none, password2 := none
                    active := mailbox.spec.active, forcePwUpdate := none
                    quota := Int64ToFloat32 mailbox.spec.quota }
                items := [mailbox.spec.localPart ++ "@" ++ mailbox.spec.domain] }],
          match client.UpdateMailboxWithResponse
              { attr :=
                  { name := none, password := none, password2 := none
                    active := mailbox.spec.active, forcePwUpdate := none
                    quota := Int64ToFloat32 mailbox.spec.quota }
                items := [mailbox.spec.localPart ++ "@" ++ mailbox.spec.domain] } with
          | some err => Ret.err err
          | none => Ret.nil) := by
  simp only [MailboxReconciler.ReconcileResource, hres, hq, hj, hz, hp]
  cases payload.username.isNone
  · simp only [Bool.not_true, Bool.false_eq_true, if_false]
    split <;> simp_all
  · simp only [Bool.not_true, Bool.false_eq_true, if_false, if_true]
    split <;> simp_all

theorem alias_rr_deleting (env : Cluster) (aliasObj : Object AliasSpec) (c : List Call)
    (client : Backend) (response : ParsedResponse AliasPayload)
    (hz : IsZero aliasObj.deletionTimestamp = false)
    (hres : resolveClient env aliasObj.spec.mailcow aliasObj.ns = (c, Except.ok client))
    (hq : client.GetAliasesWithResponse aliasObj.spec.address = Except.ok response) :
    AliasReconciler.ReconcileResource env aliasObj =
      if response.JSON200.isSome then
        (c ++ [Call.getAliases aliasObj.spec.address,
               Call.deleteAlias [aliasObj.spec.address]],
          match client.DeleteAliasWithResponse [aliasObj.spec.address] with
          | some err => Ret.err err
          | none => Ret.nil)
      else (c ++ [Call.getAliases aliasObj.spec.address], Ret.nil) := by
  simp only [AliasReconciler.ReconcileResource, hres, hq, hz]
  cases response.JSON200.isSome <;>
    cases client.DeleteAliasWithResponse [aliasObj.spec.address] <;> simp

theorem alias_rr_live (env : Cluster) (aliasObj : Object AliasSpec) (c : List Call)
    (client : Backend) (response : ParsedResponse AliasPayload)
    (hz : IsZero aliasObj.deletionTimestamp = true)
    (hres : resolveClient env aliasObj.spec.mailcow aliasObj.ns = (c, Except.ok client))
    (hq : client.GetAliasesWithResponse aliasObj.spec.address = Except.ok response) :
    AliasReconciler.ReconcileResource env aliasObj =
      if response.JSON200.isSome then
        (c ++ [Call.getAliases aliasObj.spec.address,
            Call.updateAlias
              { attr :=
                  { address := none, goto := some aliasObj.spec.goTo
                    active := some aliasObj.spec.active }
                items := [aliasObj.spec.address] }],
          match client.UpdateAliasWithResponse
              { attr :=
                  { address := none, goto := some aliasObj.spec.goTo
                    active := some aliasObj.spec.active }
                items := [aliasObj.spec.address] } with
          | some err => Ret.err err
          | none => Ret.nil)
      else
        (c ++ [Call.getAliases aliasObj.spec.address,
            Call.createAlias
              { address := some aliasObj.spec.address, goto := some aliasObj.spec.goTo
                active := some aliasObj.spec.active }],
          match client.CreateAliasWithResponse
              { address := some aliasObj.spec.address, goto := some aliasObj.spec.goTo
                active := some aliasObj.spec.active } with
          | some err => Ret.err err
          | none => Ret.nil) := by
  simp only [AliasReconciler.ReconcileResource, hres, hq, hz]
  cases response.JSON200.isSome
  · simp only [Bool.not_true, Bool.not_false, Bool.false_eq_true, if_false, if_true]
    split <;> simp_all
  · simp only [Bool.not_true, Bool.false_eq_true, if_false, if_true]
    split <;> simp_all

theorem domainadmin_rr_deleting (env : Cluster) (domainadmin : Object DomainAdminSpec)
    (c : List Call) (client : Backend) (response : DomainAdminsResponse) (found : Bool)
    (hz : IsZero domainadmin.deletionTimestamp = false)
    (hres : resolveClient env domainadmin.spec.mailcow domainadmin.ns = (c, Except.ok client))
    (hq : client.GetDomainAdmins = Except.ok response)
    (hs : response.statusCode = 200)
    (hx : domainAdminExists response domainadmin.spec.username = some found) :
    DomainAdminReconciler.ReconcileResource env domainadmin =
      if found then
        (c ++ [Call.getDomainAdmins, Call.deleteDomainAdmin [domainadmin.spec.username]],
          match client.DeleteDomainAdminWithResponse [domainadmin.spec.username] with
          | some err => Ret.err err
          | none => Ret.nil)
      else (c ++ [Call.getDomainAdmins], Ret.nil) := by
  simp only [DomainAdminReconciler.ReconcileResource, hres, hq, hz, hs, hx, ne_eq,
    not_true_eq_false, if_false]
  cases found <;>
    cases client.DeleteDomainAdminWithResponse [domainadmin.spec.username] <;> simp

theorem domainadmin_rr_live (env : Cluster) (domainadmin : Object DomainAdminSpec)
    (c pc : List Call) (client : Backend) (response : DomainAdminsResponse) (found : Bool)
    (password : String)
    (hz : IsZero domainadmin.deletionTimestamp = true)
    (hres : resolveClient env domainadmin.spec.mailcow domainadmin.ns = (c, Except.ok client))
    (hq : client.GetDomainAdmins = Except.ok response)
    (hs : response.statusCode = 200)
    (hx : domainAdminExists response domainadmin.spec.username = some found)
    (hp : DomainAdmin.GetPassword env domainadmin = (pc, Except.ok password)) :
    DomainAdminReconciler.ReconcileResource env domainadmin =
      if found then
        (c ++ [Call.getDomainAdmins] ++ pc ++
            [Call.editDomainAdminUser
              { attr :=
                  { password := none, active := domainadmin.spec.active
                    domains := some domainadmin.spec.domains }
                items := [domainadmin.spec.username] }],
          match client.EditDomainAdminUserWithResponse
              { attr :=
                  { password := none, active := domainadmin.spec.active
                    domains := some domainadmin.spec.domains }
                items := [domainadmin.spec.username] } with
          | some err => Ret.err err
          | none => Ret.nil)
      else
        (c ++ [Call.getDomainAdmins] ++ pc ++
            [Call.createDomainAdminUser
              { username := some domainadmin.spec.username
                password := some password
                password2 := some password
                active := BooleanToInt domainadmin.spec.active
                domains := some domainadmin.spec.domains }],
          match client.CreateDomainAdminUserWithResponse
              { username := some domainadmin.spec.username
                password := some password
                password2 := some password
                active := BooleanToInt domainadmin.spec.active
                domains := some domainadmin.spec.domains } with
          | some err => Ret.err err
          | none => Ret.nil) := by
  simp only [DomainAdminReconciler.ReconcileResource, hres, hq, hz, hs, hx, hp, ne_eq,
    not_true_eq_false, if_false]
  cases found
  · simp only [Bool.not_true, Bool.not_false, Bool.false_eq_true, if_false, if_true]
    split <;> simp_all
  · simp only [Bool.not_true, Bool.false_eq_true, if_false, if_true]
    split <;> simp_all

theorem domain_rr_deleting (env : Cluster) (domain : Object DomainSpec) (c : List Call)
    (client : Backend) (response : ParsedResponse DomainPayload) (payload : DomainPayload)
    (hz : IsZero domain.deletionTimestamp = false)
    (hres : resolveClient env domain.spec.mailcow domain.ns = (c, Except.ok client))
    (hq : client.GetDomainsWithResponse domain.spec.domain = Except.ok response)
    (hj : response.JSON200 = some payload) :
    DomainReconciler.ReconcileResource env domain =
      if payload.domainName.isSome then
        (c ++ [Call.getDomains domain.spec.domain, Call.deleteDomain [domain.spec.domain]],
          match client.DeleteDomainWithResponse [domain.spec.domain] with
          | some err => Ret.err err
          | none => Ret.nil)
      else (c ++ [Call.getDomains domain.spec.domain], Ret.nil) := by
  simp only [DomainReconciler.ReconcileResource, hres, hq, hj, hz]
  cases payload.domainName.isSome <;>
    cases client.DeleteDomainWithResponse [domain.spec.domain] <;> simp

theorem domain_rr_live (env : Cluster) (domain : Object DomainSpec) (c : List Call)
    (client : Backend) (response : ParsedResponse DomainPayload) (payload : DomainPayload)
    (hz : IsZero domain.deletionTimestamp = true)
    (hres : resolveClient env domain.spec.mailcow domain.ns = (c, Except.ok client))
    (hq : client.GetDomainsWithResponse domain.spec.domain = Except.ok response)
    (hj : response.JSON200 = some payload) :
    DomainReconciler.ReconcileResource env domain =
      match (DomainReconciler.createOrUpdate client domain payload).2 with
      | some err =>
        (c ++ [Call.getDomains domain.spec.domain] ++
          (DomainReconciler.createOrUpdate client domain payload).1, Ret.err err)
      | none =>
        (c ++ [Call.getDomains domain.spec.domain] ++
          (DomainReconciler.createOrUpdate client domain payload).1 ++
          (DomainReconciler.reconcileDKIM env client domain).1,
          (DomainReconciler.reconcileDKIM env client domain).2) := by
  simp only [DomainReconciler.ReconcileResource, hres, hq, hj, hz]
  rfl

theorem publishDKIM_isDKIM (env : Cluster) (domain : Object DomainSpec)
    (data : Option DKIMPayload) : ∀ x ∈ (publishDKIM env domain data).1, x.isDKIM = true := by
  intro x hx
  unfold publishDKIM at hx
  cases data with
  | none => simp at hx
  | some d =>
    simp only at hx
    cases h1 : env.GetConfigMap (dkimConfigMap domain d).name (dkimConfigMap domain d).ns with
    | notFound =>
      rw [h1] at hx
      cases h2 : env.CreateConfigMap (dkimConfigMap domain d) <;>
        simp [h2] at hx <;> rcases hx with hx | hx <;> subst hx <;> rfl
    | failed e =>
      rw [h1] at hx
      simp at hx
      subst hx
      rfl
    | found existing =>
      rw [h1] at hx
      cases h2 : env.UpdateConfigMap { existing with data := (dkimConfigMap domain d).data } <;>
        simp [h2] at hx <;> rcases hx with hx | hx <;> subst hx <;> rfl

theorem dkim_not_create (x : Call) (h : x.isDKIM = true) : x.isCreate = false := by
  cases x <;> simp_all [Call.isDKIM, Call.isCreate]

theorem dkim_not_update (x : Call) (h : x.isDKIM = true) : x.isUpdate = false := by
  cases x <;> simp_all [Call.isDKIM, Call.isUpdate]

theorem dkim_not_delete (x : Call) (h : x.isDKIM = true) : x.isDelete = false := by
  cases x <;> simp_all [Call.isDKIM, Call.isDelete]

theorem removeFinalizer_gone (fs : List String) (f : String) :
    ContainsFinalizer (RemoveFinalizer fs f) f = false := by
  unfold ContainsFinalizer RemoveFinalizer
  simp

theorem isCreate_statusUpdate (r : Resource) : (Call.statusUpdate r).isCreate = false := rfl

theorem isUpdate_statusUpdate (r : Resource) : (Call.statusUpdate r).isUpdate = false := rfl

theorem isDelete_statusUpdate (r : Resource) : (Call.statusUpdate r).isDelete = false := rfl

theorem reconcileGated_deleting {Spec : Type} (env : Cluster)
    (rr : Object Spec → List Call × Ret) (sp : Resource → Bool × HelperResult)
    (sd : Resource → String → Bool × HelperResult) (sr : Resource → Bool × HelperResult)
    (obj : Object Spec) (hz : IsZero obj.deletionTimestamp = false) :
    reconcileGated env rr sp sd sr obj = finishGated env rr sd sr [] obj := by
  unfold reconcileGated
  simp [hz]

theorem finishGated_calls {Spec : Type} (env : Cluster)
    (rr : Object Spec → List Call × Ret)
    (sd : Resource → String → Bool × HelperResult) (sr : Resource → Bool × HelperResult)
    (calls : List Call) (obj : Object Spec) :
    (finishGated env rr sd sr calls obj).calls =
      calls ++ (rr obj).1 ++
        match (rr obj).2 with
        | Ret.panic => []
        | Ret.err e => (sd obj.resource e).2.updates.map Call.statusUpdate
        | Ret.nil =>
          if !IsZero obj.deletionTimestamp && ContainsFinalizer obj.finalizers env.Finalizer then
            [Call.update (RemoveFinalizer obj.finalizers env.Finalizer)]
          else (sr obj.resource).2.updates.map Call.statusUpdate := by
  unfold finishGated
  generalize rr obj = q
  obtain ⟨cs, ret⟩ := q
  cases ret with
  | panic => simp
  | err e => simp only; split <;> simp
  | nil =>
    simp only
    split
    · split <;> simp_all
    · split <;> simp_all

theorem finishGated_finalizers {Spec : Type} (env : Cluster)
    (rr : Object Spec → List Call × Ret)
    (sd : Resource → String → Bool × HelperResult) (sr : Resource → Bool × HelperResult)
    (calls : List Call) (obj : Object Spec) :
    (finishGated env rr sd sr calls obj).object.finalizers =
      if (rr obj).2 = Ret.nil ∧ IsZero obj.deletionTimestamp = false ∧
          ContainsFinalizer obj.finalizers env.Finalizer = true then
        RemoveFinalizer obj.finalizers env.Finalizer
      else obj.finalizers := by
  unfold finishGated
  generalize rr obj = q
  obtain ⟨cs, ret⟩ := q
  cases ret with
  | panic => simp
  | err e => simp only; split <;> simp
  | nil =>
    cases hz : IsZero obj.deletionTimestamp <;>
      cases hf : ContainsFinalizer obj.finalizers env.Finalizer <;>
      simp <;> split <;> rfl

theorem finishGated_ret {Spec : Type} (env : Cluster)
    (rr : Object Spec → List Call × Ret)
    (sd : Resource → String → Bool × HelperResult) (sr : Resource → Bool × HelperResult)
    (calls : List Call) (obj : Object Spec) :
    (finishGated env rr sd sr calls obj).ret =
      match (rr obj).2 with
      | Ret.panic => Ret.panic
      | Ret.err e =>
        match (sd obj.resource e).2.err with
        | some errStatus => Ret.err errStatus
        | none => Ret.err e
      | Ret.nil =>
        if !IsZero obj.deletionTimestamp && ContainsFinalizer obj.finalizers env.Finalizer then
          match env.Update (RemoveFinalizer obj.finalizers env.Finalizer) with
          | some err => Ret.err err
          | none => Ret.nil
        else
          match (sr obj.resource).2.err with
          | some err => Ret.err err
          | none => Ret.nil := by
  unfold finishGated
  generalize rr obj = q
  obtain ⟨cs, ret⟩ := q
  cases ret with
  | panic => simp
  | err e => simp only; split <;> simp_all
  | nil =>
    simp only
    split
    · split <;> simp_all
    · split <;> simp_all

theorem finishGated_resource {Spec : Type} (env : Cluster)
    (rr : Object Spec → List Call × Ret)
    (sd : Resource → String → Bool × HelperResult) (sr : Resource → Bool × HelperResult)
    (calls : List Call) (obj : Object Spec) :
    (finishGated env rr sd sr calls obj).object.resource =
      match (rr obj).2 with
      | Ret.panic => obj.resource
      | Ret.err e => (sd obj.resource e).2.object
      | Ret.nil =>
        if !IsZero obj.deletionTimestamp && ContainsFinalizer obj.finalizers env.Finalizer then
          obj.resource
        else (sr obj.resource).2.object := by
  unfold finishGated
  generalize rr obj = q
  obtain ⟨cs, ret⟩ := q
  cases ret with
  | panic => simp
  | err e => simp only; split <;> rfl
  | nil =>
    simp only
    split
    · split <;> simp_all
    · split <;> simp_all

theorem finishGated_requeue {Spec : Type} (env : Cluster)
    (rr : Object Spec → List Call × Ret)
    (sd : Resource → String → Bool × HelperResult) (sr : Resource → Bool × HelperResult)
    (calls : List Call) (obj : Object Spec) :
    (finishGated env rr sd sr calls obj).requeue = false := by
  unfold finishGated
  generalize rr obj = q
  obtain ⟨cs, ret⟩ := q
  cases ret with
  | panic => simp
  | err e => simp only; split <;> rfl
  | nil =>
    simp only
    split
    · split <;> rfl
    · split <;> rfl

theorem filter_dkim {l : List Call} (p : Call → Bool)
    (hp : ∀ x, x.isDKIM = true → p x = false) (hl : ∀ x ∈ l, x.isDKIM = true) :
    l.filter p = [] := by
  rw [List.filter_eq_nil_iff]
  intro x hx
  simp [hp x (hl x hx)]

theorem reconcileDKIM_isDKIM (env : Cluster) (client : Backend) (domain : Object DomainSpec) :
    ∀ x ∈ (DomainReconciler.reconcileDKIM env client domain).1, x.isDKIM = true := by
  intro x hx
  unfold DomainReconciler.reconcileDKIM at hx
  cases h1 : client.GetDKIMKeyWithResponse 0 domain.spec.domain with
  | error e =>
    simp [h1] at hx
    subst hx
    rfl
  | ok r1 =>
    rw [h1] at hx
    cases h2 : dkimMissing r1 with
    | false =>
      simp only [h2, Bool.false_eq_true, if_false, List.mem_cons] at hx
      rcases hx with hx | hx
      · subst hx; rfl
      · exact publishDKIM_isDKIM env domain _ x hx
    | true =>
      simp only [h2, if_true] at hx
      cases h3 : client.GenerateDKIMKeyWithResponse
          { domains := some domain.spec.domain, keySize := some 2048,
            dkimSelector := some "dkim" } with
      | some e =>
        simp [h3] at hx
        rcases hx with hx | hx <;> subst hx <;> rfl
      | none =>
        rw [h3] at hx
        cases h4 : client.GetDKIMKeyWithResponse 1 domain.spec.domain with
        | error e =>
          simp [h4] at hx
          rcases hx with hx | hx | hx <;> subst hx <;> rfl
        | ok r2 =>
          simp only [h4, List.mem_append, List.mem_cons, List.mem_singleton,
            List.not_mem_nil, or_false] at hx
          rcases hx with (hx | hx | hx) | hx
          · subst hx; rfl
          · subst hx; rfl
          · subst hx; rfl
          · exact publishDKIM_isDKIM env domain _ x hx

theorem createOrUpdate_absent (client : Backend) (domain : Object DomainSpec)
    (payload : DomainPayload) (h : payload.domainName.isNone = true) :
    DomainReconciler.createOrUpdate client domain payload =
      ([Call.createDomain
          { domain := some domain.spec.domain
            description := some domain.spec.description
            quota := some (float32 domain.spec.quota)
            defquota := some (float32 domain.spec.defQuota)
            maxquota := some (float32 domain.spec.maxQuota)
            active := domain.spec.active
            mailboxes := some (float32 domain.spec.maxMailboxes)
            rlValue := domain.spec.rateLimit
            rlFrame := some domain.spec.rateLimitFrame }],
        client.CreateDomainWithResponse
          { domain := some domain.spec.domain
            description := some domain.spec.description
            quota := some (float32 domain.spec.quota)
            defquota := some (float32 domain.spec.defQuota)
            maxquota := some (float32 domain.spec.maxQuota)
            active := domain.spec.active
            mailboxes := some (float32 domain.spec.maxMailboxes)
            rlValue := domain.spec.rateLimit
            rlFrame := some domain.spec.rateLimitFrame }) := by
  simp [DomainReconciler.createOrUpdate, h, Int64ToFloat32]

theorem createOrUpdate_present (client : Backend) (domain : Object DomainSpec)
    (payload : DomainPayload) (h : payload.domainName.isNone = false) :
    DomainReconciler.createOrUpdate client domain payload =
      (Call.updateDomain
          { attr :=
              { description := some domain.spec.description
                quota := some (float32 domain.spec.quota)
                defquota := some (float32 domain.spec.defQuota)
                maxquota := some (float32 domain.spec.maxQuota)
                active := domain.spec.active
                mailboxes := some (float32 domain.spec.maxMailboxes) }
            items := [domain.spec.domain] } ::
        (match client.UpdateDomainWithResponse
            { attr :=
                { description := some domain.spec.description
                  quota := some (float32 domain.spec.quota)
                  defquota := some (float32 domain.spec.defQuota)
                  maxquota := some (float32 domain.spec.maxQuota)
                  active := domain.spec.active
                  mailboxes := some (float32 domain.spec.maxMailboxes) }
              items := [domain.spec.domain] } with
          | some _ => []
          | none =>
            [Call.editDomainRatelimits
              { attr :=
                  { rlValue := domain.spec.rateLimit
                    rlFrame := some domain.spec.rateLimitFrame }
                items := [domain.spec.domain] }]),
        match client.UpdateDomainWithResponse
            { attr :=
                { description := some domain.spec.description
                  quota := some (float32 domain.spec.quota)
                  defquota := some (float32 domain.spec.defQuota)
                  maxquota := some (float32 domain.spec.maxQuota)
                  active := domain.spec.active
                  mailboxes := some (float32 domain.spec.maxMailboxes) }
              items := [domain.spec.domain] } with
        | some err => some err
        | none =>
          client.EditDomainRatelimits
            { attr :=
                { rlValue := domain.spec.rateLimit
                  rlFrame := some domain.spec.rateLimitFrame }
              items := [domain.spec.domain] }) := by
  simp only [DomainReconciler.createOrUpdate, h, Bool.false_eq_true, if_false, Int64ToFloat32]
  split <;> simp_all

theorem domain_rr_live_calls (env : Cluster) (domain : Object DomainSpec) (c : List Call)
    (client : Backend) (response : ParsedResponse DomainPayload) (payload : DomainPayload)
    (hz : IsZero domain.deletionTimestamp = true)
    (hres : resolveClient env domain.spec.mailcow domain.ns = (c, Except.ok client))
    (hq : client.GetDomainsWithResponse domain.spec.domain = Except.ok response)
    (hj : response.JSON200 = some payload) :
    (DomainReconciler.ReconcileResource env domain).1 =
      c ++ [Call.getDomains domain.spec.domain] ++
        (DomainReconciler.createOrUpdate client domain payload).1 ++
        (match (DomainReconciler.createOrUpdate client domain payload).2 with
          | some _ => []
          | none => (DomainReconciler.reconcileDKIM env client domain).1) := by
  rw [domain_rr_live env domain c client response payload hz hres hq hj]
  split <;> simp_all

theorem filter_nil_of {l : List Call} (q p : Call → Bool)
    (hp : ∀ x, q x = true → p x = false) (hl : ∀ x ∈ l, q x = true) :
    l.filter p = [] := by
  rw [List.filter_eq_nil_iff]
  intro x hx
  simp [hp x (hl x hx)]

theorem publishDKIM_isConfigMap (env : Cluster) (domain : Object DomainSpec)
    (data : Option DKIMPayload) :
    ∀ x ∈ (publishDKIM env domain data).1, x.isConfigMap = true := by
  intro x hx
  unfold publishDKIM at hx
  cases data with
  | none => simp at hx
  | some d =>
    simp only at hx
    cases h1 : env.GetConfigMap (dkimConfigMap domain d).name (dkimConfigMap domain d).ns with
    | notFound =>
      rw [h1] at hx
      cases h2 : env.CreateConfigMap (dkimConfigMap domain d) <;>
        simp [h2] at hx <;> rcases hx with hx | hx <;> subst hx <;> rfl
    | failed e =>
      rw [h1] at hx
      simp at hx
      subst hx
      rfl
    | found existing =>
      rw [h1] at hx
      cases h2 : env.UpdateConfigMap { existing with data := (dkimConfigMap domain d).data } <;>
        simp [h2] at hx <;> rcases hx with hx | hx <;> subst hx <;> rfl

theorem configMap_not_backend (x : Call) (h : x.isConfigMap = true) : x.isBackend = false := by
  cases x <;> simp_all [Call.isConfigMap, Call.isBackend, Call.isMutation, Call.isCreate,
    Call.isUpdate, Call.isDelete]

theorem configMap_not_mutation (x : Call) (h : x.isConfigMap = true) :
    x.isMutation = false := by
  cases x <;> simp_all [Call.isConfigMap, Call.isMutation, Call.isCreate, Call.isUpdate,
    Call.isDelete]

theorem float32_exact (n : Int) (h : n.natAbs < 2 ^ 24) : float32 n = n := by
  unfold float32
  simp only [if_pos h]

theorem reconcileDKIM_present (env : Cluster) (client : Backend) (domain : Object DomainSpec)
    (r1 : ParsedResponse DKIMPayload)
    (h1 : client.GetDKIMKeyWithResponse 0 domain.spec.domain = Except.ok r1)
    (hm : dkimMissing r1 = false) :
    DomainReconciler.reconcileDKIM env client domain =
      (Call.getDKIMKey domain.spec.domain :: (publishDKIM env domain r1.JSON200).1,
        (publishDKIM env domain r1.JSON200).2) := by
  simp [DomainReconciler.reconcileDKIM, h1, hm]

theorem reconcileDKIM_generated (env : Cluster) (client : Backend) (domain : Object DomainSpec)
    (r1 r2 : ParsedResponse DKIMPayload)
    (h1 : client.GetDKIMKeyWithResponse 0 domain.spec.domain = Except.ok r1)
    (hm : dkimMissing r1 = true)
    (hg : client.GenerateDKIMKeyWithResponse
      { domains := some domain.spec.domain, keySize := some 2048,
        dkimSelector := some "dkim" } = none)
    (h2 : client.GetDKIMKeyWithResponse 1 domain.spec.domain = Except.ok r2) :
    DomainReconciler.reconcileDKIM env client domain =
      ([Call.getDKIMKey domain.spec.domain,
          Call.generateDKIMKey
            { domains := some domain.spec.domain, keySize := some 2048,
              dkimSelector := some "dkim" },
          Call.getDKIMKey domain.spec.domain] ++ (publishDKIM env domain r2.JSON200).1,
        (publishDKIM env domain r2.JSON200).2) := by
  simp [DomainReconciler.reconcileDKIM, h1, hm, hg, h2]

theorem changed_of_not_true (now : Nat) (conds : List Condition) (T r m : String) (g : Int)
    (h : IsStatusConditionTrue conds T = false) :
    (SetConditionStatusChanged now conds T ConditionTrue r m g).2 = true := by
  unfold SetConditionStatusChanged
  obtain ⟨c, hc, hs, _⟩ := find_target now conds T ConditionTrue r m g
  simp only [hc]
  unfold IsStatusConditionTrue at h
  cases hb : FindStatusCondition conds T with
  | none => rfl
  | some b =>
    rw [hb] at h
    simp only [beq_eq_false_iff_ne, ne_eq] at h
    simp [conditionChanged, hs, h]

theorem reconcileGated_progressingStep {Spec : Type} (env : Cluster)
    (rr : Object Spec → List Call × Ret)
    (sd : Resource → String → Bool × HelperResult) (sr : Resource → Bool × HelperResult)
    (message : String) (obj : Object Spec) (hz : IsZero obj.deletionTimestamp = true)
    (hf : ContainsFinalizer obj.finalizers env.Finalizer = true)
    (hnt : IsStatusConditionTrue obj.resource.status.conditions "Progressing" = false) :
    progressingStep env obj message
      (reconcileGated env rr
        (fun res =>
          setConditionGated env.now env.StatusUpdate res "Progressing" "Reconciling" message)
        sd sr obj) := by
  have hch := changed_of_not_true env.now obj.resource.status.conditions "Progressing"
    "Reconciling" message obj.resource.generation hnt
  unfold reconcileGated progressingStep
  simp only [hz, hf, if_true, Bool.not_true, Bool.false_eq_true, if_false, setConditionGated,
    hch]
  simp only [SetConditionStatusChanged]
  cases h : env.StatusUpdate
      { generation := obj.resource.generation
        status :=
          { phase := "Progressing"
            conditions :=
              SetConditionStatus env.now obj.resource.status.conditions "Progressing"
                ConditionTrue "Reconciling" message obj.resource.generation } } <;>
    simp [h]

theorem ready_not_progressing (now : Nat) (c0 : List Condition) (r m : String) (g : Int) :
    IsStatusConditionTrue (SetConditionStatus now c0 "Ready" ConditionTrue r m g)
        "Progressing" = false ∧
      IsStatusConditionTrue (SetConditionStatus now c0 "Ready" ConditionTrue r m g)
        "Ready" = true := by
  constructor
  · rw [isTrue_SetConditionStatus now c0 "Ready" r m g (by decide)]
    decide
  · rw [isTrue_SetConditionStatus now c0 "Ready" r m g (by decide)]
    decide

theorem progressing_not_ready (now : Nat) (c0 : List Condition) (r m : String) (g : Int) :
    IsStatusConditionTrue (SetConditionStatus now c0 "Progressing" ConditionTrue r m g)
        "Ready" = false := by
  rw [isTrue_SetConditionStatus now c0 "Progressing" r m g (by decide)]
  decide

theorem domain_reconcile_live (env : Cluster) (domain : Object DomainSpec)
    (hz : IsZero domain.deletionTimestamp = true)
    (hf : ContainsFinalizer domain.finalizers env.Finalizer = true) :
    (DomainReconciler.Reconcile env domain).object = domain ∧
      (DomainReconciler.Reconcile env domain).calls =
        (DomainReconciler.ReconcileResource env domain).1 := by
  unfold DomainReconciler.Reconcile
  simp only [hz, hf, Bool.not_true, Bool.and_false, Bool.false_eq_true, if_false,
    Bool.false_and]
  generalize DomainReconciler.ReconcileResource env domain = q
  obtain ⟨cs, ret⟩ := q
  cases ret <;> simp

/-! ## Lemmas on the frame of `SetConditionStatus` -/

theorem getElem_writeBack_ne {t : String} (c : Condition) {l : List Condition} {i : Nat}
    {x : Condition} (h : l[i]? = some x) (hx : x.type ≠ t) :
    (writeBack t c l)[i]? = some x := by
  induction l generalizing i with
  | nil => simp at h
  | cons y ys ih =>
    cases i with
    | zero =>
      simp only [List.getElem?_cons_zero, Option.some.injEq] at h
      subst h
      simp [writeBack, hx]
    | succ j =>
      simp only [List.getElem?_cons_succ] at h
      by_cases hy : y.type = t
      · simp [writeBack, hy, h]
      · simp only [writeBack, if_neg hy, List.getElem?_cons_succ]
        exact ih h

theorem getElem_set_ne (now : Nat) (l : List Condition) (n : Condition) {i : Nat}
    {x : Condition} (h : l[i]? = some x) (hx : x.type ≠ n.type) :
    (SetStatusCondition now l n).1[i]? = some x := by
  unfold SetStatusCondition
  cases hf : FindStatusCondition l n.type with
  | none =>
    simp only
    have hi : i < l.length := by
      by_contra hc
      rw [List.getElem?_eq_none (not_lt.1 hc)] at h
      cases h
    rw [List.getElem?_append_left hi]
    exact h
  | some e =>
    simp only
    exact getElem_writeBack_ne _ h hx

theorem getElem_resetOther_ne (now : Nat) (T : String) (g : Int) (l : List Condition)
    {t : String} {i : Nat} {x : Condition} (h : l[i]? = some x) (hx : x.type ≠ t) :
    (resetOther now T g l t)[i]? = some x := by
  unfold resetOther
  split_ifs
  · exact h
  · cases hf : FindStatusCondition l t with
    | none => exact h
    | some c => exact getElem_set_ne now l _ h hx

theorem getElem_foldl_not_mem (now : Nat) (T : String) (g : Int) (ts : List String)
    (l : List Condition) {i : Nat} {x : Condition} (h : l[i]? = some x)
    (hx : x.type ∉ ts) :
    (ts.foldl (resetOther now T g) l)[i]? = some x := by
  induction ts generalizing l with
  | nil => exact h
  | cons a rest ih =>
    simp only [List.mem_cons, not_or] at hx
    rw [List.foldl_cons]
    exact ih _ (getElem_resetOther_ne now T g l h hx.1) hx.2

theorem getElem_SetConditionStatus (now : Nat) (l : List Condition) (T s r m : String)
    (g : Int) {i : Nat} {x : Condition} (h : l[i]? = some x) (hT : x.type ≠ T)
    (hx : x.type ∉ otherTypes) :
    (SetConditionStatus now l T s r m g)[i]? = some x := by
  unfold SetConditionStatus
  exact getElem_foldl_not_mem now T g otherTypes _ (getElem_set_ne now l _ h hT) hx

/-! ## Lemmas on the two record shapes -/

theorem storeMember_type_eq (rt : GoRuntime) (a : MailcowOKResponse × Bool)
    (b : MailcowOKResponseMsgArray × Bool) (member : String × Json)
    (h : a.1.type = b.1.type) :
    (MailcowOKResponse.storeMember rt a member).1.type =
      (MailcowOKResponseMsgArray.storeMember rt b member).1.type := by
  unfold MailcowOKResponse.storeMember MailcowOKResponseMsgArray.storeMember
  cases lookupField rt ["type", "msg"] member.1 with
  | none => exact h
  | some f =>
    by_cases hf : f = "type"
    · simp only [if_pos hf, h]
    · simp only [if_neg hf, h]

theorem foldl_storeMember_type_eq (rt : GoRuntime) (members : List (String × Json))
    (a : MailcowOKResponse × Bool) (b : MailcowOKResponseMsgArray × Bool)
    (h : a.1.type = b.1.type) :
    (members.foldl (MailcowOKResponse.storeMember rt) a).1.type =
      (members.foldl (MailcowOKResponseMsgArray.storeMember rt) b).1.type := by
  induction members generalizing a b with
  | nil => exact h
  | cons x xs ih =>
    simp only [List.foldl_cons]
    exact ih _ _ (storeMember_type_eq rt a b x h)

theorem decode_type_eq (rt : GoRuntime) (j : Json) :
    (MailcowOKResponse.decode rt j).1.type = (MailcowOKResponseMsgArray.decode rt j).1.type := by
  cases j with
  | obj members =>
    simp only [MailcowOKResponse.decode, MailcowOKResponseMsgArray.decode]
    exact foldl_storeMember_type_eq rt members _ _ rfl
  | _ => rfl

theorem unmarshalResponses_arr {rt : GoRuntime} {body : String}
    {rs : List MailcowOKResponse} (h : unmarshalResponses rt body = some rs) :
    (rt.parse body = some Json.null ∧ rs = []) ∨
      ∃ elems, rt.parse body = some (Json.arr elems) ∧
        rs = elems.map (fun j => (MailcowOKResponse.decode rt j).1) := by
  unfold unmarshalResponses at h
  cases hp : rt.parse body with
  | none => rw [hp] at h; cases h
  | some j =>
    rw [hp] at h
    cases j with
    | null => simp only [Option.some.injEq] at h; exact Or.inl ⟨rfl, h.symm⟩
    | arr elems =>
      right
      refine ⟨elems, rfl, ?_⟩
      simp only at h
      split_ifs at h
      simp only [Option.some.injEq, List.map_map] at h
      rw [← h]; rfl
    | bool b => cases h
    | num n => cases h
    | str s => cases h
    | obj members => cases h

theorem unmarshalResponsesMsgArray_arr {rt : GoRuntime} {body : String}
    {rs : List MailcowOKResponseMsgArray} (h : unmarshalResponsesMsgArray rt body = some rs) :
    (rt.parse body = some Json.null ∧ rs = []) ∨
      ∃ elems, rt.parse body = some (Json.arr elems) ∧
        rs = elems.map (fun j => (MailcowOKResponseMsgArray.decode rt j).1) := by
  unfold unmarshalResponsesMsgArray at h
  cases hp : rt.parse body with
  | none => rw [hp] at h; cases h
  | some j =>
    rw [hp] at h
    cases j with
    | null => simp only [Option.some.injEq] at h; exact Or.inl ⟨rfl, h.symm⟩
    | arr elems =>
      right
      refine ⟨elems, rfl, ?_⟩
      simp only at h
      split_ifs at h
      simp only [Option.some.injEq, List.map_map] at h
      rw [← h]; rfl
    | bool b => cases h
    | num n => cases h
    | str s => cases h
    | obj members => cases h

theorem both_decodings_types {rt : GoRuntime} {body : String} {rs : List MailcowOKResponse}
    {rs' : List MailcowOKResponseMsgArray} (h : unmarshalResponses rt body = some rs)
    (h' : unmarshalResponsesMsgArray rt body = some rs') :
    rs.map (fun r => r.type) = rs'.map (fun r => r.type) := by
  rcases unmarshalResponses_arr h with ⟨hp, hrs⟩ | ⟨elems, hp, hrs⟩ <;>
    rcases unmarshalResponsesMsgArray_arr h' with ⟨hp', hrs'⟩ | ⟨elems', hp', hrs'⟩
  · rw [hrs, hrs']; rfl
  · rw [hp] at hp'; cases hp'
  · rw [hp] at hp'; cases hp'
  · rw [hp] at hp'
    simp only [Option.some.injEq, Json.arr.injEq] at hp'
    subst hp'
    rw [hrs, hrs']
    simp only [List.map_map]
    apply List.map_congr_left
    intro j _
    exact decode_type_eq rt j

theorem firstDanger_split {rs : List MailcowOKResponse} {r : MailcowOKResponse}
    (h : firstDanger rs = some r) :
    ∃ pre post, rs = pre ++ r :: post ∧ ∀ x ∈ pre, x.type ≠ "danger" := by
  unfold firstDanger at h
  obtain ⟨_, pre, post, hsplit, hpre⟩ := List.find?_eq_some.1 h
  exact ⟨pre, post, hsplit, fun x hx => by simpa using hpre x hx⟩

theorem firstDangerMsgArray_split {rs : List MailcowOKResponseMsgArray}
    {r : MailcowOKResponseMsgArray} (h : firstDangerMsgArray rs = some r) :
    ∃ pre post, rs = pre ++ r :: post ∧ ∀ x ∈ pre, x.type ≠ "danger" := by
  unfold firstDangerMsgArray at h
  obtain ⟨_, pre, post, hsplit, hpre⟩ := List.find?_eq_some.1 h
  exact ⟨pre, post, hsplit, fun x hx => by simpa using hpre x hx⟩

theorem firstDangerMsgArray_none_of_types {rs : List MailcowOKResponse}
    {rs' : List MailcowOKResponseMsgArray}
    (h : rs.map (fun r => r.type) = rs'.map (fun r => r.type))
    (hn : firstDanger rs = none) : firstDangerMsgArray rs' = none := by
  rw [firstDangerMsgArray_eq_none_iff]
  rw [firstDanger_eq_none_iff] at hn
  intro r hr ht
  have hm : r.type ∈ rs'.map (fun r => r.type) := List.mem_map.2 ⟨r, hr, rfl⟩
  rw [← h] at hm
  obtain ⟨x, hx, hxt⟩ := List.mem_map.1 hm
  exact hn x hx (hxt.trans ht)

theorem lookupField_msg (rt : GoRuntime) : lookupField rt ["type", "msg"] "msg" = some "msg" := by
  simp [lookupField, List.find?]

theorem storeMember_failed (rt : GoRuntime) (a : MailcowOKResponse × Bool)
    (member : String × Json) (h : a.2 = false) :
    (MailcowOKResponse.storeMember rt a member).2 = false := by
  unfold MailcowOKResponse.storeMember
  cases lookupField rt ["type", "msg"] member.1 with
  | none => exact h
  | some f => by_cases hf : f = "type" <;> simp [hf, h]

theorem foldl_storeMember_failed (rt : GoRuntime) (members : List (String × Json))
    (a : MailcowOKResponse × Bool) (h : a.2 = false) :
    (members.foldl (MailcowOKResponse.storeMember rt) a).2 = false := by
  induction members generalizing a with
  | nil => exact h
  | cons x xs ih => exact ih _ (storeMember_failed rt a x h)

theorem foldl_storeMember_arrayMsg (rt : GoRuntime) (members : List (String × Json))
    (a : MailcowOKResponse × Bool) (xs : List Json) (h : ("msg", Json.arr xs) ∈ members) :
    (members.foldl (MailcowOKResponse.storeMember rt) a).2 = false := by
  induction members generalizing a with
  | nil => cases h
  | cons x rest ih =>
    rw [List.foldl_cons]
    rcases List.mem_cons.1 h with hx | hx
    · apply foldl_storeMember_failed
      subst hx
      simp [MailcowOKResponse.storeMember, lookupField_msg, storeString]
    · exact ih _ hx

theorem storeMemberMsgArray_failed (rt : GoRuntime) (a : MailcowOKResponseMsgArray × Bool)
    (member : String × Json) (h : a.2 = false) :
    (MailcowOKResponseMsgArray.storeMember rt a member).2 = false := by
  unfold MailcowOKResponseMsgArray.storeMember
  cases lookupField rt ["type", "msg"] member.1 with
  | none => exact h
  | some f => by_cases hf : f = "type" <;> simp [hf, h]

theorem foldl_storeMemberMsgArray_failed (rt : GoRuntime) (members : List (String × Json))
    (a : MailcowOKResponseMsgArray × Bool) (h : a.2 = false) :
    (members.foldl (MailcowOKResponseMsgArray.storeMember rt) a).2 = false := by
  induction members generalizing a with
  | nil => exact h
  | cons x xs ih => exact ih _ (storeMemberMsgArray_failed rt a x h)

theorem foldl_storeMemberMsgArray_stringMsg (rt : GoRuntime) (members : List (String × Json))
    (a : MailcowOKResponseMsgArray × Bool) (s : String) (h : ("msg", Json.str s) ∈ members) :
    (members.foldl (MailcowOKResponseMsgArray.storeMember rt) a).2 = false := by
  induction members generalizing a with
  | nil => cases h
  | cons x rest ih =>
    rw [List.foldl_cons]
    rcases List.mem_cons.1 h with hx | hx
    · apply foldl_storeMemberMsgArray_failed
      subst hx
      simp [MailcowOKResponseMsgArray.storeMember, lookupField_msg, storeAnySlice]
    · exact ih _ hx

theorem unmarshalResponses_arrayMsg (rt : GoRuntime) (body : String) (elems : List Json)
    (members : List (String × Json)) (xs : List Json)
    (hbody : rt.parse body = some (Json.arr elems)) (hm : Json.obj members ∈ elems)
    (h : ("msg", Json.arr xs) ∈ members) : unmarshalResponses rt body = none := by
  unfold unmarshalResponses
  rw [hbody]
  simp only
  rw [if_neg]
  intro hall
  rw [List.all_eq_true] at hall
  have := hall _ (List.mem_map.2 ⟨_, hm, rfl⟩)
  simp only [MailcowOKResponse.decode] at this
  rw [foldl_storeMember_arrayMsg rt members _ xs h] at this
  cases this

theorem unmarshalResponsesMsgArray_stringMsg (rt : GoRuntime) (body : String)
    (elems : List Json) (members : List (String × Json)) (s : String)
    (hbody : rt.parse body = some (Json.arr elems)) (hm : Json.obj members ∈ elems)
    (h : ("msg", Json.str s) ∈ members) : unmarshalResponsesMsgArray rt body = none := by
  unfold unmarshalResponsesMsgArray
  rw [hbody]
  simp only
  rw [if_neg]
  intro hall
  rw [List.all_eq_true] at hall
  have := hall _ (List.mem_map.2 ⟨_, hm, rfl⟩)
  simp only [MailcowOKResponseMsgArray.decode] at this
  rw [foldl_storeMemberMsgArray_stringMsg rt members _ s h] at this
  cases this

/-! ## Lemmas on the domain update ordering -/

theorem lookup_not_dkim (x : Call) (h : x.isLookup = true) : x.isDKIM = false := by
  cases x <;> simp_all [Call.isLookup, Call.isDKIM]

theorem dkim_not_ratelimit (x : Call) (h : x.isDKIM = true) (rl : EditDomainRatelimitsBody) :
    x ≠ Call.editDomainRatelimits rl := by
  intro e
  subst e
  simp [Call.isDKIM] at h

theorem lookup_not_ratelimit (x : Call) (h : x.isLookup = true)
    (rl : EditDomainRatelimitsBody) : x ≠ Call.editDomainRatelimits rl := by
  intro e
  subst e
  simp [Call.isLookup] at h

theorem reconcileDKIM_head (env : Cluster) (client : Backend) (domain : Object DomainSpec) :
    (DomainReconciler.reconcileDKIM env client domain).1.head? =
      some (Call.getDKIMKey domain.spec.domain) := by
  unfold DomainReconciler.reconcileDKIM
  cases client.GetDKIMKeyWithResponse 0 domain.spec.domain with
  | error e => rfl
  | ok r1 =>
    simp only
    split_ifs
    · cases client.GenerateDKIMKeyWithResponse _ with
      | some e => rfl
      | none =>
        simp only
        cases client.GetDKIMKeyWithResponse 1 domain.spec.domain <;> rfl
    · rfl

theorem filter_dkim_self {l : List Call} (hl : ∀ x ∈ l, x.isDKIM = true) :
    l.filter Call.isDKIM = l :=
  List.filter_eq_self.2 hl

/-! ## Lemmas on the phase -/

theorem phaseMirrors_iff (obj : Resource) :
    phaseMirrors obj = true ↔
      obj.status.phase ∈ otherTypes ∧
        ∀ t ∈ otherTypes,
          IsStatusConditionTrue obj.status.conditions t = decide (t = obj.status.phase) := by
  simp [phaseMirrors, List.all_eq_true]

theorem true_of_unchanged (now : Nat) (l : List Condition) (T r m : String) (g : Int)
    (h : (SetConditionStatusChanged now l T ConditionTrue r m g).2 = false) :
    IsStatusConditionTrue l T = true := by
  unfold SetConditionStatusChanged at h
  obtain ⟨c, hc, hs, _⟩ := find_target now l T ConditionTrue r m g
  simp only [hc] at h
  unfold IsStatusConditionTrue
  cases hb : FindStatusCondition l T with
  | none => rw [hb] at h; simp [conditionChanged] at h
  | some b =>
    rw [hb] at h
    simp only [conditionChanged, Bool.or_eq_false_iff, bne_eq_false_iff_eq] at h
    simp [h.1.1, hs]

theorem setConditionGated_mirrors (now : Nat) (statusUpdate : Resource → Option String)
    (obj : Resource) (T r m : String) (hT : T ∈ otherTypes) (h : phaseMirrors obj = true) :
    phaseMirrors (setConditionGated now statusUpdate obj T r m).2.object = true := by
  rw [phaseMirrors_iff] at h ⊢
  unfold setConditionGated
  cases hch : (SetConditionStatusChanged now obj.status.conditions T ConditionTrue r m
      obj.generation).2 with
  | true =>
    simp only [hch, Bool.not_true, Bool.false_eq_true, if_false]
    exact ⟨hT, fun t ht => isTrue_SetConditionStatus now _ T r m _ ht⟩
  | false =>
    simp only [hch, Bool.not_false, if_true]
    have htrue := true_of_unchanged now _ T r m _ hch
    have hphase : T = obj.status.phase := by
      have := h.2 T hT
      rw [htrue] at this
      simpa using this.symm
    refine ⟨h.1, fun t ht => ?_⟩
    rw [← hphase]
    exact isTrue_SetConditionStatus now _ T r m _ ht

theorem setConditionGated_unchanged (now : Nat) (statusUpdate : Resource → Option String)
    (obj : Resource) (T r m : String)
    (h : (setConditionGated now statusUpdate obj T r m).1 = false) :
    (setConditionGated now statusUpdate obj T r m).2.updates = [] ∧
      (setConditionGated now statusUpdate obj T r m).2.object.status.phase =
        obj.status.phase := by
  unfold setConditionGated at h ⊢
  cases hch : (SetConditionStatusChanged now obj.status.conditions T ConditionTrue r m
      obj.generation).2 with
  | true => simp [hch] at h
  | false => simp [hch]

theorem setConditionAlways_mirrors (now : Nat) (statusUpdate : Resource → Option String)
    (obj : Resource) (T r m : String) (hT : T ∈ otherTypes) :
    phaseMirrors (setConditionAlways now statusUpdate obj T r m).object = true := by
  rw [phaseMirrors_iff]
  unfold setConditionAlways
  exact ⟨hT, fun t ht => isTrue_SetConditionStatus now _ T r m _ ht⟩

/-! ## Lemmas on the DKIM fetch -/

theorem dkimMissing_of_txt {r1 : ParsedResponse DKIMPayload} {d : DKIMPayload} {txt : String}
    (h : r1.JSON200 = some d) (ht : d.dkimTxt = some txt) : dkimMissing r1 = false := by
  simp [dkimMissing, h, ht]

theorem dkimMissing_of_no_txt {r1 : ParsedResponse DKIMPayload}
    (h : r1.JSON200 = none ∨ ∃ d, r1.JSON200 = some d ∧ d.dkimTxt = none) :
    dkimMissing r1 = true := by
  rcases h with h | ⟨d, h, ht⟩
  · simp [dkimMissing, h]
  · simp [dkimMissing, h, ht]

theorem reconcileDKIM_generate_failed (env : Cluster) (client : Backend)
    (domain : Object DomainSpec) (r1 : ParsedResponse DKIMPayload) (e : String)
    (h1 : client.GetDKIMKeyWithResponse 0 domain.spec.domain = Except.ok r1)
    (hm : dkimMissing r1 = true)
    (hg : client.GenerateDKIMKeyWithResponse
      { domains := some domain.spec.domain, keySize := some 2048,
        dkimSelector := some "dkim" } = some e) :
    DomainReconciler.reconcileDKIM env client domain =
      ([Call.getDKIMKey domain.spec.domain,
          Call.generateDKIMKey
            { domains := some domain.spec.domain, keySize := some 2048,
              dkimSelector := some "dkim" }], Ret.err e) := by
  simp [DomainReconciler.reconcileDKIM, h1, hm, hg]

theorem reconcileDKIM_refetch_failed (env : Cluster) (client : Backend)
    (domain : Object DomainSpec) (r1 : ParsedResponse DKIMPayload) (e : String)
    (h1 : client.GetDKIMKeyWithResponse 0 domain.spec.domain = Except.ok r1)
    (hm : dkimMissing r1 = true)
    (hg : client.GenerateDKIMKeyWithResponse
      { domains := some domain.spec.domain, keySize := some 2048,
        dkimSelector := some "dkim" } = none)
    (h2 : client.GetDKIMKeyWithResponse 1 domain.spec.domain = Except.error e) :
    DomainReconciler.reconcileDKIM env client domain =
      ([Call.getDKIMKey domain.spec.domain,
          Call.generateDKIMKey
            { domains := some domain.spec.domain, keySize := some 2048,
              dkimSelector := some "dkim" },
          Call.getDKIMKey domain.spec.domain], Ret.err e) := by
  simp [DomainReconciler.reconcileDKIM, h1, hm, hg, h2]

/-! ## Lemmas on three passes in a row -/

theorem find_frame (now : Nat) (l : List Condition) (T s r m : String) (g : Int) {t : String}
    (hT : t ≠ T) (ht : t ∉ otherTypes) :
    FindStatusCondition (SetConditionStatus now l T s r m g) t = FindStatusCondition l t := by
  unfold SetConditionStatus
  rw [find_foldl_not_mem now T g otherTypes _ ht]
  exact find_set_ne now l _ hT

theorem core_SetConditionStatus (now : Nat) (l : List Condition) (T r m : String) (g : Int)
    (t : String) :
    (FindStatusCondition (SetConditionStatus now l T ConditionTrue r m g) t).map conditionCore =
      if t = T then some (ConditionTrue, r, m, g)
      else if t ∈ otherTypes then
        ((FindStatusCondition l t).map conditionCore).map
          (fun k => (ConditionFalse, k.2.1, k.2.2.1, g))
      else (FindStatusCondition l t).map conditionCore := by
  by_cases hT : t = T
  · subst hT
    obtain ⟨c, hc, h1, h2, h3, h4⟩ := find_target now l t ConditionTrue r m g
    simp [hc, conditionCore, h1, h2, h3, h4]
  · rw [if_neg hT]
    by_cases hm : t ∈ otherTypes
    · rw [if_pos hm]
      cases hl : FindStatusCondition l t with
      | none => simp [find_other_none now l T ConditionTrue r m g hT hl]
      | some c =>
        obtain ⟨d, hd, h1, h2, h3, h4⟩ := find_other_some now l T ConditionTrue r m g hm hT hl
        simp [hd, conditionCore, h1, h2, h3, h4]
    · rw [if_neg hm, find_frame now l T ConditionTrue r m g hT hm]

theorem core_after_cycle (n1 n2 n3 : Nat) (conds0 : List Condition) (msgP msgR : String)
    (g : Int) (t : String) :
    (FindStatusCondition
        (SetConditionStatus n3
          (SetConditionStatus n2
            (SetConditionStatus n1
              (SetConditionStatus n1 conds0 "Progressing" ConditionTrue "Reconciling" msgP g)
              "Ready" ConditionTrue "Reconciled" msgR g)
            "Progressing" ConditionTrue "Reconciling" msgP g)
          "Ready" ConditionTrue "Reconciled" msgR g) t).map conditionCore =
      (FindStatusCondition
        (SetConditionStatus n1
          (SetConditionStatus n1 conds0 "Progressing" ConditionTrue "Reconciling" msgP g)
          "Ready" ConditionTrue "Reconciled" msgR g) t).map conditionCore := by
  simp only [core_SetConditionStatus]
  by_cases h1 : t = "Ready"
  · simp [h1]
  · by_cases h2 : t = "Progressing"
    · subst h2
      simp [otherTypes]
    · by_cases h3 : t = "Degraded"
      · subst h3
        simp [otherTypes, Option.map_map, Function.comp_def]
      · have : t ∉ otherTypes := by simp [otherTypes, h1, h2, h3]
        simp [h1, h2, this]

theorem gated_conditions (now : Nat) (su : Resource → Option String) (res : Resource)
    (T r m : String) :
    (setConditionGated now su res T r m).2.object.status.conditions =
        SetConditionStatus now res.status.conditions T ConditionTrue r m res.generation ∧
      (setConditionGated now su res T r m).2.object.generation = res.generation ∧
      (setConditionGated now su res T r m).1 =
        (SetConditionStatusChanged now res.status.conditions T ConditionTrue r m
          res.generation).2 := by
  unfold setConditionGated
  cases hch : (SetConditionStatusChanged now res.status.conditions T ConditionTrue r m
      res.generation).2 with
  | true =>
    simp only [hch, Bool.not_true, Bool.false_eq_true, if_false]
    refine ⟨?_, ?_, ?_⟩ <;> trivial
  | false =>
    simp only [hch, Bool.not_false, if_true]
    refine ⟨?_, ?_, ?_⟩ <;> trivial

theorem gated_err (now : Nat) (su : Resource → Option String) (res : Resource)
    (T r m : String) (hsu : ∀ x, su x = none) :
    (setConditionGated now su res T r m).2.err = none := by
  unfold setConditionGated
  cases hch : (SetConditionStatusChanged now res.status.conditions T ConditionTrue r m
      res.generation).2 with
  | true =>
    simp only [hch, Bool.not_true, Bool.false_eq_true, if_false]
    exact hsu _
  | false =>
    simp only [hch, Bool.not_false, if_true]

theorem gated_updates_statusUpdate (now : Nat) (su : Resource → Option String) (res : Resource)
    (T r m : String) (p : Call → Bool) (hp : ∀ x, p (Call.statusUpdate x) = false) :
    ((setConditionGated now su res T r m).2.updates.map Call.statusUpdate).filter p = [] :=
  filter_statusUpdate _ p hp

theorem unchanged_of_settled (now now' : Nat) (l : List Condition) (T s r m : String)
    (g : Int) :
    (SetConditionStatusChanged now' (SetConditionStatus now l T s r m g) T s r m g).2 =
      false := by
  simp only [SetConditionStatusChanged, SetConditionStatus_settled, conditionChanged_self]

theorem reconcileGated_ended {Spec : Type} (env : Cluster)
    (rr : Object Spec → List Call × Ret) (sp : Resource → Bool × HelperResult)
    (sd : Resource → String → Bool × HelperResult) (sr : Resource → Bool × HelperResult)
    (obj : Object Spec) (hz : IsZero obj.deletionTimestamp = true)
    (hret : (reconcileGated env rr sp sd sr obj).ret = Ret.nil)
    (hreq : (reconcileGated env rr sp sd sr obj).requeue = false) :
    ContainsFinalizer obj.finalizers env.Finalizer = true ∧ (sp obj.resource).1 = false ∧
      (sp obj.resource).2.err = none := by
  unfold reconcileGated at hret hreq
  simp only [hz, if_true] at hret hreq
  cases hf : ContainsFinalizer obj.finalizers env.Finalizer with
  | false =>
    simp only [hf, Bool.not_false, if_true] at hret hreq
    cases hu : env.Update (AddFinalizer obj.finalizers env.Finalizer) <;>
      simp [hu] at hret hreq
  | true =>
    simp only [hf, Bool.not_true, Bool.false_eq_true, if_false] at hret hreq
    cases he : (sp obj.resource).2.err with
    | some e => simp [he] at hret
    | none =>
      simp only [he] at hret hreq
      cases h1 : (sp obj.resource).1 with
      | true => simp [h1] at hreq
      | false => exact ⟨rfl, rfl, rfl⟩

theorem reconcileGated_unchanged {Spec : Type} (env : Cluster)
    (rr : Object Spec → List Call × Ret) (sp : Resource → Bool × HelperResult)
    (sd : Resource → String → Bool × HelperResult) (sr : Resource → Bool × HelperResult)
    (obj : Object Spec) (hz : IsZero obj.deletionTimestamp = true)
    (hf : ContainsFinalizer obj.finalizers env.Finalizer = true)
    (h1 : (sp obj.resource).1 = false) (he : (sp obj.resource).2.err = none) :
    reconcileGated env rr sp sd sr obj =
      finishGated env rr sd sr ((sp obj.resource).2.updates.map Call.statusUpdate)
        { obj with resource := (sp obj.resource).2.object } := by
  unfold reconcileGated
  simp [hz, hf, h1, he]

theorem finishGated_live_nil {Spec : Type} (env : Cluster)
    (rr : Object Spec → List Call × Ret)
    (sd : Resource → String → Bool × HelperResult) (sr : Resource → Bool × HelperResult)
    (calls : List Call) (obj : Object Spec) (hz : IsZero obj.deletionTimestamp = true)
    (hrr : (rr obj).2 = Ret.nil) (he : (sr obj.resource).2.err = none) :
    finishGated env rr sd sr calls obj =
      { object := { obj with resource := (sr obj.resource).2.object }
        calls := calls ++ (rr obj).1 ++ (sr obj.resource).2.updates.map Call.statusUpdate
        requeue := false
        ret := Ret.nil } := by
  unfold finishGated
  simp [hrr, hz, he]

theorem finishGated_nil_inv {Spec : Type} (env : Cluster)
    (rr : Object Spec → List Call × Ret)
    (sd : Resource → String → Bool × HelperResult) (sr : Resource → Bool × HelperResult)
    (calls : List Call) (obj : Object Spec)
    (hret : (finishGated env rr sd sr calls obj).ret = Ret.nil) : (rr obj).2 = Ret.nil := by
  rw [finishGated_ret] at hret
  cases h : (rr obj).2 with
  | nil => rfl
  | panic => rw [h] at hret; cases hret
  | err e =>
    rw [h] at hret
    simp only at hret
    cases h2 : (sd obj.resource e).2.err <;> rw [h2] at hret <;> cases hret

theorem gated_ready_inv {Spec : Type} (e : Cluster) (rr0 : Object Spec → List Call × Ret)
    (sp : Resource → Bool × HelperResult)
    (sd0 : Resource → String → Bool × HelperResult) (sr : Resource → Bool × HelperResult)
    (obj : Object Spec)
    (hres0 : ∀ (o : Object Spec) (res : Resource), rr0 { o with resource := res } = rr0 o)
    (hz : IsZero obj.deletionTimestamp = true)
    (hret : (reconcileGated e rr0 sp sd0 sr obj).ret = Ret.nil)
    (hreq : (reconcileGated e rr0 sp sd0 sr obj).requeue = false) :
    ContainsFinalizer obj.finalizers e.Finalizer = true ∧ (sp obj.resource).1 = false ∧
      (rr0 obj).2 = Ret.nil := by
  obtain ⟨hf, h1, he⟩ := reconcileGated_ended e rr0 sp sd0 sr obj hz hret hreq
  refine ⟨hf, h1, ?_⟩
  rw [reconcileGated_unchanged e rr0 sp sd0 sr obj hz hf h1 he] at hret
  have := finishGated_nil_inv e rr0 sd0 sr _ _ hret
  rw [hres0] at this
  exact this

theorem gated_ready_pass {Spec : Type} (e : Cluster) (rr0 : Object Spec → List Call × Ret)
    (sd0 : Resource → String → Bool × HelperResult) (msgP msgR : String) (obj : Object Spec)
    (hres0 : ∀ (o : Object Spec) (res : Resource), rr0 { o with resource := res } = rr0 o)
    (hz : IsZero obj.deletionTimestamp = true)
    (hf : ContainsFinalizer obj.finalizers e.Finalizer = true)
    (hA : (setConditionGated e.now e.StatusUpdate obj.resource "Progressing" "Reconciling"
      msgP).1 = false)
    (hrr : (rr0 obj).2 = Ret.nil) (hsu : ∀ x, e.StatusUpdate x = none) :
    reconcileGated e rr0
        (fun res => setConditionGated e.now e.StatusUpdate res "Progressing" "Reconciling" msgP)
        sd0 (fun res => setConditionGated e.now e.StatusUpdate res "Ready" "Reconciled" msgR)
        obj =
      { object :=
          { obj with
            resource :=
              (setConditionGated e.now e.StatusUpdate
                (setConditionGated e.now e.StatusUpdate obj.resource "Progressing"
                  "Reconciling" msgP).2.object "Ready" "Reconciled" msgR).2.object }
        calls :=
          (rr0 obj).1 ++
            (setConditionGated e.now e.StatusUpdate
              (setConditionGated e.now e.StatusUpdate obj.resource "Progressing"
                "Reconciling" msgP).2.object "Ready" "Reconciled"
              msgR).2.updates.map Call.statusUpdate
        requeue := false
        ret := Ret.nil } := by
  rw [reconcileGated_unchanged e rr0 _ sd0 _ obj hz hf hA
    (gated_err e.now e.StatusUpdate obj.resource _ _ _ hsu)]
  rw [finishGated_live_nil e rr0 sd0
    (fun res => setConditionGated e.now e.StatusUpdate res "Ready" "Reconciled" msgR) _
    { obj with
      resource :=
        (setConditionGated e.now e.StatusUpdate obj.resource "Progressing" "Reconciling"
          msgP).2.object }
    hz (by rw [hres0]; exact hrr) (gated_err e.now e.StatusUpdate _ _ _ _ hsu)]
  rw [hres0, (setConditionGated_unchanged e.now e.StatusUpdate obj.resource _ _ _ hA).1]
  simp

theorem gated_three_passes {Spec : Type} (env : Cluster) (n2 n3 : Nat)
    (rr : Cluster → Object Spec → List Call × Ret)
    (sd : Cluster → Resource → String → Bool × HelperResult) (msgP msgR : String)
    (recon : Cluster → Object Spec → PassResult Spec)
    (hrecon : ∀ (e : Cluster) (o : Object Spec), recon e o =
      reconcileGated e (rr e)
        (fun res => setConditionGated e.now e.StatusUpdate res "Progressing" "Reconciling" msgP)
        (sd e) (fun res => setConditionGated e.now e.StatusUpdate res "Ready" "Reconciled" msgR)
        o)
    (hres : ∀ (e : Cluster) (o : Object Spec) (res : Resource),
      rr e { o with resource := res } = rr e o)
    (hnow : ∀ (n : Nat) (o : Object Spec), rr { env with now := n } o = rr env o)
    (obj : Object Spec) (hz : IsZero obj.deletionTimestamp = true)
    (hsu : ∀ x, env.StatusUpdate x = none)
    (hret : (recon env obj).ret = Ret.nil) (hreq : (recon env obj).requeue = false) :
    (IsStatusConditionTrue (recon env obj).object.resource.status.conditions "Ready" = true ∧
      (recon { env with now := n2 } (recon env obj).object).calls.filter Call.isBackend = [] ∧
      (recon { env with now := n2 } (recon env obj).object).requeue = true ∧
      (recon { env with now := n2 } (recon env obj).object).ret = Ret.nil ∧
      IsStatusConditionTrue
        (recon { env with now := n2 } (recon env obj).object).object.resource.status.conditions
        "Ready" = false ∧
      (recon { env with now := n3 }
        (recon { env with now := n2 } (recon env obj).object).object).calls.filter
          Call.isBackend = (recon env obj).calls.filter Call.isBackend ∧
      (recon { env with now := n3 }
        (recon { env with now := n2 } (recon env obj).object).object).requeue = false ∧
      (recon { env with now := n3 }
        (recon { env with now := n2 } (recon env obj).object).object).ret = Ret.nil ∧
      IsStatusConditionTrue
        (recon { env with now := n3 }
          (recon { env with now := n2 }
            (recon env obj).object).object).object.resource.status.conditions "Ready" = true ∧
      ∀ t,
        (FindStatusCondition
          (recon { env with now := n3 }
            (recon { env with now := n2 }
              (recon env obj).object).object).object.resource.status.conditions t).map
            conditionCore =
          (FindStatusCondition (recon env obj).object.resource.status.conditions t).map
            conditionCore) ∧
      (∀ p : Call → Bool, (∀ x, p (Call.statusUpdate x) = false) →
        (recon { env with now := n3 }
          (recon { env with now := n2 } (recon env obj).object).object).calls.filter p =
          (rr env obj).1.filter p) ∧
      (rr env obj).2 = Ret.nil ∧ ContainsFinalizer obj.finalizers env.Finalizer = true := by
  rw [hrecon env obj] at hret hreq
  obtain ⟨hf, hA, hrr⟩ := gated_ready_inv env (rr env) _ (sd env) _ obj (hres env) hz hret hreq
  have hP1 := gated_ready_pass env (rr env) (sd env) msgP msgR obj (hres env) hz hf hA hrr hsu
  rw [← hrecon env obj] at hP1
  obtain ⟨hcA, hgA, -⟩ := gated_conditions env.now env.StatusUpdate obj.resource
    "Progressing" "Reconciling" msgP
  obtain ⟨hcB, hgB, hchB⟩ := gated_conditions env.now env.StatusUpdate
    (setConditionGated env.now env.StatusUpdate obj.resource "Progressing" "Reconciling"
      msgP).2.object "Ready" "Reconciled" msgR
  rw [hcA, hgA] at hcB
  rw [hgA] at hgB
  -- the first pass
  generalize hR1 : (setConditionGated env.now env.StatusUpdate
    (setConditionGated env.now env.StatusUpdate obj.resource "Progressing" "Reconciling"
      msgP).2.object "Ready" "Reconciled" msgR).2 = B at hP1 hcB hgB
  generalize recon env obj = P1 at hP1
  subst hP1
  have hnt := (ready_not_progressing env.now
    (SetConditionStatus env.now obj.resource.status.conditions "Progressing" ConditionTrue
      "Reconciling" msgP obj.resource.generation) "Reconciled" msgR obj.resource.generation)
  rw [← hcB] at hnt
  -- the second pass
  have hstep := reconcileGated_progressingStep { env with now := n2 }
    (rr { env with now := n2 }) (sd { env with now := n2 })
    (fun res => setConditionGated n2 env.StatusUpdate res "Ready" "Reconciled" msgR) msgP
    { obj with resource := B.object } hz hf hnt.1
  have hP2 := hrecon { env with now := n2 } { obj with resource := B.object }
  obtain ⟨ho2, hc2, hok2, -⟩ := hstep
  obtain ⟨hq2, hr2⟩ := hok2 (hsu _)
  rw [← hP2] at ho2 hc2 hq2 hr2
  clear hP2 hok2
  show (IsStatusConditionTrue B.object.status.conditions "Ready" = true ∧
      (recon { env with now := n2 } { obj with resource := B.object }).calls.filter
        Call.isBackend = [] ∧
      (recon { env with now := n2 } { obj with resource := B.object }).requeue = true ∧
      (recon { env with now := n2 } { obj with resource := B.object }).ret = Ret.nil ∧
      IsStatusConditionTrue
        (recon { env with now := n2 }
          { obj with resource := B.object }).object.resource.status.conditions "Ready" = false ∧
      (recon { env with now := n3 }
        (recon { env with now := n2 } { obj with resource := B.object }).object).calls.filter
          Call.isBackend =
        ((rr env obj).1 ++ B.updates.map Call.statusUpdate).filter Call.isBackend ∧
      (recon { env with now := n3 }
        (recon { env with now := n2 } { obj with resource := B.object }).object).requeue =
          false ∧
      (recon { env with now := n3 }
        (recon { env with now := n2 } { obj with resource := B.object }).object).ret =
          Ret.nil ∧
      IsStatusConditionTrue
        (recon { env with now := n3 }
          (recon { env with now := n2 }
            { obj with resource := B.object }).object).object.resource.status.conditions
        "Ready" = true ∧
      ∀ t,
        (FindStatusCondition
          (recon { env with now := n3 }
            (recon { env with now := n2 }
              { obj with resource := B.object }).object).object.resource.status.conditions
          t).map conditionCore =
          (FindStatusCondition B.object.status.conditions t).map conditionCore) ∧
    (∀ p : Call → Bool, (∀ x, p (Call.statusUpdate x) = false) →
      (recon { env with now := n3 }
        (recon { env with now := n2 } { obj with resource := B.object }).object).calls.filter p =
        (rr env obj).1.filter p) ∧ _
  generalize recon { env with now := n2 } { obj with resource := B.object } = P2
    at ho2 hc2 hq2 hr2 ⊢
  obtain ⟨O2, C2, Q2, R2⟩ := P2
  dsimp only at ho2 hc2 hq2 hr2 ⊢
  subst ho2 hc2 hq2 hr2
  -- the third pass
  obtain ⟨hc3, hg3, hch3⟩ := gated_conditions n3 env.StatusUpdate
    { generation := B.object.generation
      status :=
        { phase := "Progressing"
          conditions :=
            SetConditionStatus n2 B.object.status.conditions "Progressing" ConditionTrue
              "Reconciling" msgP B.object.generation } }
    "Progressing" "Reconciling" msgP
  dsimp only at hc3 hg3 hch3
  rw [unchanged_of_settled] at hch3
  rw [SetConditionStatus_settled] at hc3
  have hrr3 : (rr { env with now := n3 }
      { obj with
        resource :=
          { generation := B.object.generation
            status :=
              { phase := "Progressing"
                conditions :=
                  SetConditionStatus n2 B.object.status.conditions "Progressing" ConditionTrue
                    "Reconciling" msgP B.object.generation } } }).2 = Ret.nil := by
    rw [hnow, hres]
    exact hrr
  have hP3 := gated_ready_pass { env with now := n3 } (rr { env with now := n3 })
    (sd { env with now := n3 }) msgP msgR
    { obj with
      resource :=
        { generation := B.object.generation
          status :=
            { phase := "Progressing"
              conditions :=
                SetConditionStatus n2 B.object.status.conditions "Progressing" ConditionTrue
                  "Reconciling" msgP B.object.generation } } }
    (hres { env with now := n3 }) hz hf hch3 hrr3 hsu
  rw [← hrecon { env with now := n3 }] at hP3
  rw [hP3]
  clear hP3
  obtain ⟨hc4, -, -⟩ := gated_conditions n3 env.StatusUpdate
    (setConditionGated n3 env.StatusUpdate
      { generation := B.object.generation
        status :=
          { phase := "Progressing"
            conditions :=
              SetConditionStatus n2 B.object.status.conditions "Progressing" ConditionTrue
                "Reconciling" msgP B.object.generation } }
      "Progressing" "Reconciling" msgP).2.object "Ready" "Reconciled" msgR
  rw [hc3, hg3] at hc4
  have hrr3' : rr { env with now := n3 }
      { obj with
        resource :=
          { generation := B.object.generation
            status :=
              { phase := "Progressing"
                conditions :=
                  SetConditionStatus n2 B.object.status.conditions "Progressing" ConditionTrue
                    "Reconciling" msgP B.object.generation } } } = rr env obj := by
    rw [hnow, hres]
  generalize (setConditionGated n3 env.StatusUpdate
    (setConditionGated n3 env.StatusUpdate
      { generation := B.object.generation
        status :=
          { phase := "Progressing"
            conditions :=
              SetConditionStatus n2 B.object.status.conditions "Progressing" ConditionTrue
                "Reconciling" msgP B.object.generation } }
      "Progressing" "Reconciling" msgP).2.object "Ready" "Reconciled" msgR).2 = B3 at hc4 ⊢
  have hfilter : ∀ p : Call → Bool, (∀ x, p (Call.statusUpdate x) = false) →
      ∀ (l : List Call) (u : List Resource),
        (l ++ u.map Call.statusUpdate).filter p = l.filter p := by
    intro p hp l u
    rw [List.filter_append, filter_statusUpdate u p hp, List.append_nil]
  have hsb : ∀ x, Call.isBackend (Call.statusUpdate x) = false := fun _ => rfl
  dsimp only
  rw [hrr3']
  refine ⟨⟨hnt.2, rfl, rfl, rfl, progressing_not_ready _ _ _ _ _, ?_, rfl, rfl, ?_, ?_⟩,
    fun p hp => hfilter p hp _ _, hrr, hf⟩
  · rw [hfilter _ hsb, hfilter _ hsb]
  · rw [hc4]
    exact (ready_not_progressing _ _ _ _ _).2
  · intro t
    rw [hc4, hcB, hgB]
    exact core_after_cycle env.now n2 n3 obj.resource.status.conditions msgP msgR
      obj.resource.generation t

theorem domainAdminExists_listed {response : DomainAdminsResponse}
    {parsed : ParsedResponse (List DomainAdminPayload)} {admins : List DomainAdminPayload}
    {username : String} (hp : response.parsed = some parsed) (hj : parsed.JSON200 = some admins)
    (h : ∃ da ∈ admins, da.username = some username) :
    domainAdminExists response username = some true := by
  obtain ⟨da, hda, hu⟩ := h
  simp only [domainAdminExists, hp, hj, domainAdminListed, Option.some.injEq, List.any_eq_true]
  exact ⟨da, hda, by simp [hu]⟩

theorem domain_reconcile_ended (env : Cluster) (domain : Object DomainSpec)
    (hz : IsZero domain.deletionTimestamp = true)
    (hret : (DomainReconciler.Reconcile env domain).ret = Ret.nil)
    (hreq : (DomainReconciler.Reconcile env domain).requeue = false) :
    ContainsFinalizer domain.finalizers env.Finalizer = true ∧
      (DomainReconciler.ReconcileResource env domain).2 = Ret.nil := by
  unfold DomainReconciler.Reconcile at hret hreq
  cases hf : ContainsFinalizer domain.finalizers env.Finalizer with
  | false =>
    simp only [hz, hf, Bool.not_false, Bool.and_self, if_true] at hret hreq
    cases hu : env.Update (AddFinalizer domain.finalizers env.Finalizer) <;>
      simp [hu] at hret hreq
  | true =>
    refine ⟨rfl, ?_⟩
    simp only [hz, hf, Bool.not_true, Bool.and_false, Bool.false_eq_true, if_false,
      Bool.false_and] at hret
    cases h : (DomainReconciler.ReconcileResource env domain).2 with
    | nil => rfl
    | panic => simp [h] at hret
    | err e => simp [h] at hret

/-! ## The claims on the condition tracker -/

/-- C1 (as stated, refuted): with status `False` on an empty list and target `Ready`, none
of the three well-known conditions is True after the call, so "exactly one is True for
every status" fails. -/
theorem C1_counterexample :
    ¬ (∀ (now : Nat) (l : List Condition) (T s r m : String) (g : Int), T ∈ otherTypes →
        wellKnownTrue (SetConditionStatus now l T s r m g) = 1) := by
  intro h
  have h0 := h 0 [] "Ready" ConditionFalse "r" "m" 1 (by decide)
  revert h0
  decide

/-- C1 (amended): for every condition list, every target type among Ready, Progressing and
Degraded and every reason, message and generation, a call of `SetConditionStatus` with
status `True` leaves exactly one of the three well-known conditions True, namely the
target. -/
theorem C1_mutual_exclusivity (now : Nat) (l : List Condition) (T r m : String) (g : Int)
    (hT : T ∈ otherTypes) :
    wellKnownTrue (SetConditionStatus now l T ConditionTrue r m g) = 1 ∧
      ∀ t ∈ otherTypes,
        (IsStatusConditionTrue (SetConditionStatus now l T ConditionTrue r m g) t = true ↔
          t = T) := by
  constructor
  · unfold wellKnownTrue
    rw [List.filter_congr (fun t ht => isTrue_SetConditionStatus now l T r m g ht)]
    simp only [otherTypes, List.mem_cons, List.mem_singleton, List.not_mem_nil, or_false] at hT
    rcases hT with h | h | h <;> subst h <;> decide
  · intro t ht
    rw [isTrue_SetConditionStatus now l T r m g ht]
    simp

/-- Instance of C1 (amended): an empty list and target `Degraded`. -/
theorem C1_mutual_exclusivity_witness :
    wellKnownTrue (SetConditionStatus 7 [] "Degraded" ConditionTrue "ReconcileFailed" "boom" 3)
      = 1 :=
  (C1_mutual_exclusivity 7 [] "Degraded" "ReconcileFailed" "boom" 3 (by decide)).1

/-- C2 (failing input): a list that holds two conditions of type `Ready`, both True, and a
call with target `Degraded`.  The loop looks each other type up once and resets the
condition it finds, the first of that type: after the call the first `Ready` condition is
False with its reason and message preserved, the second is still True, untouched. -/
theorem C2_second_of_type_stays_true :
    SetConditionStatus 7
        [{ type := "Ready", status := "True", observedGeneration := 2,
           lastTransitionTime := 5, reason := "a", message := "b" },
         { type := "Ready", status := "True", observedGeneration := 2,
           lastTransitionTime := 5, reason := "c", message := "d" }]
        "Degraded" ConditionTrue "ReconcileFailed" "boom" 3 =
      [{ type := "Ready", status := "False", observedGeneration := 3,
         lastTransitionTime := 7, reason := "a", message := "b" },
       { type := "Ready", status := "True", observedGeneration := 2,
         lastTransitionTime := 5, reason := "c", message := "d" },
       { type := "Degraded", status := "True", observedGeneration := 3,
         lastTransitionTime := 7, reason := "ReconcileFailed", message := "boom" }] := by
  decide

/-- C3 (as stated, refuted): on a list that already holds two conditions of type `Ready`,
the result holds two conditions of type `Ready`, not exactly one. -/
theorem C3_counterexample :
    typeCount
      (SetConditionStatus 7
        [{ type := "Ready", status := "True", observedGeneration := 2,
           lastTransitionTime := 5, reason := "a", message := "b" },
         { type := "Ready", status := "True", observedGeneration := 2,
           lastTransitionTime := 5, reason := "c", message := "d" }]
        "Ready" ConditionTrue "Reconciled" "fine" 3) "Ready" = 2 := by
  decide

/-- C3 (amended): for every condition list that holds at most one condition of type `T`,
the list after `SetConditionStatus` holds exactly one condition of type `T`, and that
condition has the given status, reason, message and generation, whether or not one
existed before. -/
theorem C3_target_set (now : Nat) (l : List Condition) (T s r m : String) (g : Int)
    (h : typeCount l T ≤ 1) :
    typeCount (SetConditionStatus now l T s r m g) T = 1 ∧
      ∀ c ∈ SetConditionStatus now l T s r m g, c.type = T →
        c.status = s ∧ c.reason = r ∧ c.message = m ∧ c.observedGeneration = g := by
  have hcount : typeCount (SetConditionStatus now l T s r m g) T = 1 := by
    unfold typeCount at h ⊢
    rw [map_type_SetConditionStatus]
    split_ifs with hmem
    · have := List.count_pos_iff.2 hmem
      omega
    · rw [List.count_append, List.count_eq_zero.2 hmem]
      simp
  refine ⟨hcount, ?_⟩
  intro c hc ht
  obtain ⟨c0, hc0, hf⟩ := find_target now l T s r m g
  have := find_of_typeCount_le_one (le_of_eq hcount) hc ht
  rw [hc0] at this
  cases this
  exact hf

/-- Instance of C3 (amended): the empty list, where no condition of the type exists. -/
theorem C3_target_set_witness :
    typeCount (SetConditionStatus 7 [] "Ready" ConditionTrue "Reconciled" "fine" 3) "Ready"
      = 1 :=
  (C3_target_set 7 [] "Ready" ConditionTrue "Reconciled" "fine" 3 (by decide)).1

/-- C4 (failing input): `MailboxReconciler.setProgressing` (mailbox_controller.go line 216)
binds `changed` to the result of `helpers.SetConditionStatus`, called with five arguments.
The function of `helpers/status.go` takes six, the status among them, and its whole effect
is the condition list: on the Mailbox conditions `[Progressing True Reconciling
"Reconciling mailbox"]` the list stays as it is, on the empty list the condition is
appended, and in neither case does the function have a boolean result. -/
theorem C4_list_is_the_whole_result :
    SetConditionStatus 100 [progressingMailbox] "Progressing" ConditionTrue "Reconciling"
        "Reconciling mailbox" 1 = [progressingMailbox] ∧
      SetConditionStatus 100 [] "Progressing" ConditionTrue "Reconciling"
        "Reconciling mailbox" 1 =
        [{ type := "Progressing", status := "True", observedGeneration := 1,
           lastTransitionTime := 100, reason := "Reconciling",
           message := "Reconciling mailbox" }] := by
  decide

/-- C5: applying `SetConditionStatus` a second time with the same arguments returns the
list of the first application unchanged, every field of every condition included, and the
second application reports `changed = false`. -/
theorem C5_idempotent (now now' : Nat) (l : List Condition) (T s r m : String) (g : Int) :
    SetConditionStatus now' (SetConditionStatus now l T s r m g) T s r m g =
        SetConditionStatus now l T s r m g ∧
      SetConditionStatusChanged now' (SetConditionStatusChanged now l T s r m g).1 T s r m g =
        ((SetConditionStatusChanged now l T s r m g).1, false) := by
  refine ⟨SetConditionStatus_settled now now' l T s r m g, ?_⟩
  simp only [SetConditionStatusChanged, SetConditionStatus_settled, conditionChanged_self]

/-! ## The claims on the response normalizer -/

/-- C6 (as stated, refuted): for the status-200 response with body
`[{"type":"danger","msg":"quota exceeded"}]` the normalized call fails, but the error
message is `mailcow api: quota exceeded`, not `quota exceeded`. -/
theorem C6_counterexample :
    (MailcowRequestDoer.Do sampleRuntime (constantDoer (deliveredResponse 200 dangerBody))
        sampleRequest).2 = some "mailcow api: quota exceeded" ∧
      (MailcowRequestDoer.Do sampleRuntime (constantDoer (deliveredResponse 200 dangerBody))
        sampleRequest).2 ≠ some "quota exceeded" := by
  decide

/-- C6 (amended): for every message `m`, a status-200 response whose body is a JSON
sequence of `{type, msg}` records with string messages, the first danger-typed one being
`{type:"danger", msg:m}`, makes the normalized call fail with the message `mailcow api: `
followed by `m`. -/
theorem C6_danger_200 (rt : GoRuntime) (d : MailcowRequestDoer) (req : Request)
    (response : Response) (m : String) (pre post : List (String × String))
    (hdo : d.Client req = TransportResult.ok response)
    (hstatus : response.statusCode = 200)
    (hread : response.body.readErr = none) (hclose : response.body.closeErr = none)
    (hbody : rt.parse response.body.data =
      some (Json.arr ((pre ++ ("danger", m) :: post).map (fun p => stringRecord p.1 p.2))))
    (hpre : ∀ p ∈ pre, p.1 ≠ "danger") :
    (MailcowRequestDoer.Do rt d req).2 = some ("mailcow api: " ++ m) := by
  have h1 := unmarshalResponses_records rt response.body.data _ hbody
  have h2 := firstDanger_records pre post m hpre
  have hc : checkMailcowResponse rt response response.body.data =
      some ("mailcow api: " ++ m) := by
    have h401 : ¬ response.statusCode = StatusUnauthorized := by rw [hstatus]; decide
    have h400 : ¬ response.statusCode = StatusBadRequest := by rw [hstatus]; decide
    simp only [checkMailcowResponse, if_neg h401, if_neg h400, h1, Option.some_bind, h2]
  simp only [MailcowRequestDoer.Do, hdo, hread, hclose, hc]

/-- Instance of C6 (amended): `m = "quota exceeded"` gives `mailcow api: quota exceeded`. -/
theorem C6_danger_200_witness :
    (MailcowRequestDoer.Do sampleRuntime (constantDoer (deliveredResponse 200 dangerBody))
        sampleRequest).2 = some ("mailcow api: " ++ "quota exceeded") :=
  C6_danger_200 sampleRuntime (constantDoer (deliveredResponse 200 dangerBody)) sampleRequest
    (deliveredResponse 200 dangerBody) "quota exceeded" [] [] rfl rfl rfl rfl
    (by simp [sampleRuntime, deliveredResponse]) (by simp)

/-- C7: with status 401 `checkMailcowResponse` fails with the unauthorized error whatever
the body is; with status 400 it fails in every case, with `bad request (msg)` carrying the
decoded `msg` when the body decodes as `{msg, type}`, and with the parse failure carrying
the raw body when it does not. -/
theorem C7_unauthorized_bad_request (rt : GoRuntime) (response : Response) (body : String) :
    (response.statusCode = StatusUnauthorized →
        checkMailcowResponse rt response body = some "mailcow api: unauthorized") ∧
    (response.statusCode = StatusBadRequest →
        checkMailcowResponse rt response body ≠ none ∧
        (∀ r, unmarshalBadRequest rt body = some r →
          checkMailcowResponse rt response body =
            some ("mailcow api: bad request (" ++ r.msg ++ ")")) ∧
        (unmarshalBadRequest rt body = none →
          checkMailcowResponse rt response body =
            some ("mailcow api: failed to parse response (" ++ body ++ ")")) ∧
        (∀ m t, rt.parse body = some (Json.obj [("msg", Json.str m), ("type", Json.str t)]) →
          checkMailcowResponse rt response body =
            some ("mailcow api: bad request (" ++ m ++ ")"))) := by
  refine ⟨fun h => by simp [checkMailcowResponse, h], fun h => ?_⟩
  have h401 : ¬ response.statusCode = StatusUnauthorized := by
    rw [h]; decide
  refine ⟨?_, ?_, ?_, ?_⟩
  · simp only [checkMailcowResponse, if_neg h401, if_pos h]
    cases unmarshalBadRequest rt body <;> simp
  · intro r hr
    simp only [checkMailcowResponse, if_neg h401, if_pos h, hr]
  · intro hr
    simp only [checkMailcowResponse, if_neg h401, if_pos h, hr]
  · intro m t hp
    have hr : unmarshalBadRequest rt body = some { msg := m, type := t } := by
      simp [unmarshalBadRequest, hp, MailcowBadRequestResponse.storeMember, lookupField,
        storeString]
    simp only [checkMailcowResponse, if_neg h401, if_pos h, hr]

/-- Instance of C7: a 401 response with a danger-typed body. -/
theorem C7_unauthorized_bad_request_witness :
    checkMailcowResponse sampleRuntime (deliveredResponse 401 dangerBody) dangerBody =
      some "mailcow api: unauthorized" :=
  (C7_unauthorized_bad_request sampleRuntime (deliveredResponse 401 dangerBody) dangerBody).1
    rfl

/-- C8 (as stated, refuted): with status 401 and the body
`[{"type":"danger","msg":"quota exceeded"}]` the string decoding succeeds and yields a
danger-typed record, yet the error is the unauthorized one, not that record's message. -/
theorem C8_counterexample :
    ((unmarshalResponses sampleRuntime dangerBody).bind firstDanger).map
        (fun r => r.msg) = some "quota exceeded" ∧
      checkMailcowResponse sampleRuntime (deliveredResponse 401 dangerBody) dangerBody =
        some "mailcow api: unauthorized" := by
  decide

/-- C8 (amended): for every HTTP status other than 401 and 400, when the string-message
decoding succeeds and holds a danger-typed record, `checkMailcowResponse` fails with
`mailcow api: ` followed by the message of the first such record; when only the
array-message decoding does, it fails with `mailcow api: ` followed by the rendering of
the message of its first danger-typed record. -/
theorem C8_danger_any_status (rt : GoRuntime) (response : Response) (body : String)
    (h401 : response.statusCode ≠ StatusUnauthorized)
    (h400 : response.statusCode ≠ StatusBadRequest) :
    (∀ rs, unmarshalResponses rt body = some rs → (∃ r ∈ rs, r.type = "danger") →
        ∃ r, firstDanger rs = some r ∧ r ∈ rs ∧ r.type = "danger" ∧
          checkMailcowResponse rt response body = some ("mailcow api: " ++ r.msg)) ∧
    (∀ rs, unmarshalResponsesMsgArray rt body = some rs → (∃ r ∈ rs, r.type = "danger") →
        checkMailcowResponse rt response body ≠ none ∧
        ((unmarshalResponses rt body).bind firstDanger = none →
          ∃ r, firstDangerMsgArray rs = some r ∧ r ∈ rs ∧ r.type = "danger" ∧
            checkMailcowResponse rt response body =
              some ("mailcow api: " ++ rt.sprintV r.msg))) := by
  constructor
  · intro rs hrs hex
    cases hf : firstDanger rs with
    | none =>
      obtain ⟨r, hr, ht⟩ := hex
      exact absurd ht ((firstDanger_eq_none_iff rs).1 hf r hr)
    | some r =>
      obtain ⟨hm, ht⟩ := firstDanger_some hf
      refine ⟨r, rfl, hm, ht, ?_⟩
      simp only [checkMailcowResponse, if_neg h401, if_neg h400, hrs, Option.some_bind, hf]
  · intro rs hrs hex
    cases hf : firstDangerMsgArray rs with
    | none =>
      obtain ⟨r, hr, ht⟩ := hex
      exact absurd ht ((firstDangerMsgArray_eq_none_iff rs).1 hf r hr)
    | some r =>
      obtain ⟨hm, ht⟩ := firstDangerMsgArray_some hf
      constructor
      · simp only [checkMailcowResponse, if_neg h401, if_neg h400, hrs, Option.some_bind, hf]
        cases (unmarshalResponses rt body).bind firstDanger <;> simp
      · intro hnone
        refine ⟨r, rfl, hm, ht, ?_⟩
        simp only [checkMailcowResponse, if_neg h401, if_neg h400, hrs, Option.some_bind, hf,
          hnone]

/-- Instance of C8 (amended): status 500 and the body
`[{"type":"danger","msg":"quota exceeded"}]`. -/
theorem C8_danger_any_status_witness :
    ∃ r, firstDanger [{ type := "danger", msg := "quota exceeded" }] = some r ∧
      r ∈ [({ type := "danger", msg := "quota exceeded" } : MailcowOKResponse)] ∧
      r.type = "danger" ∧
      checkMailcowResponse sampleRuntime (deliveredResponse 500 dangerBody) dangerBody =
        some ("mailcow api: " ++ r.msg) :=
  (C8_danger_any_status sampleRuntime (deliveredResponse 500 dangerBody) dangerBody
    (by decide) (by decide)).1 [{ type := "danger", msg := "quota exceeded" }]
    (unmarshalResponses_records sampleRuntime dangerBody [("danger", "quota exceeded")] rfl)
    ⟨_, List.mem_singleton.2 rfl, rfl⟩

/-- C9: for a status that is neither 401 nor 400, `checkMailcowResponse` returns success
exactly when no successful decoding holds a danger-typed record; in particular it returns
success when neither decoding succeeds, as for a body that is a single JSON object. -/
theorem C9_success_iff_no_danger (rt : GoRuntime) (response : Response) (body : String)
    (h401 : response.statusCode ≠ StatusUnauthorized)
    (h400 : response.statusCode ≠ StatusBadRequest) :
    (checkMailcowResponse rt response body = none ↔
        (∀ rs, unmarshalResponses rt body = some rs → ∀ r ∈ rs, r.type ≠ "danger") ∧
        (∀ rs, unmarshalResponsesMsgArray rt body = some rs → ∀ r ∈ rs, r.type ≠ "danger")) ∧
    (unmarshalResponses rt body = none → unmarshalResponsesMsgArray rt body = none →
        checkMailcowResponse rt response body = none) ∧
    (∀ members, rt.parse body = some (Json.obj members) →
        unmarshalResponses rt body = none ∧ unmarshalResponsesMsgArray rt body = none ∧
        checkMailcowResponse rt response body = none) := by
  have hiff : checkMailcowResponse rt response body = none ↔
      (unmarshalResponses rt body).bind firstDanger = none ∧
        (unmarshalResponsesMsgArray rt body).bind firstDangerMsgArray = none := by
    simp only [checkMailcowResponse, if_neg h401, if_neg h400]
    cases (unmarshalResponses rt body).bind firstDanger <;>
      cases (unmarshalResponsesMsgArray rt body).bind firstDangerMsgArray <;> simp
  refine ⟨?_, ?_, ?_⟩
  · rw [hiff]
    constructor
    · rintro ⟨h1, h2⟩
      constructor
      · intro rs hrs
        rw [hrs] at h1
        exact (firstDanger_eq_none_iff rs).1 h1
      · intro rs hrs
        rw [hrs] at h2
        exact (firstDangerMsgArray_eq_none_iff rs).1 h2
    · rintro ⟨h1, h2⟩
      constructor
      · cases hrs : unmarshalResponses rt body with
        | none => rfl
        | some rs => exact (firstDanger_eq_none_iff rs).2 (h1 rs hrs)
      · cases hrs : unmarshalResponsesMsgArray rt body with
        | none => rfl
        | some rs => exact (firstDangerMsgArray_eq_none_iff rs).2 (h2 rs hrs)
  · intro h1 h2
    rw [hiff, h1, h2]
    exact ⟨rfl, rfl⟩
  · intro members hp
    have h1 : unmarshalResponses rt body = none := by simp [unmarshalResponses, hp]
    have h2 : unmarshalResponsesMsgArray rt body = none := by
      simp [unmarshalResponsesMsgArray, hp]
    refine ⟨h1, h2, ?_⟩
    rw [hiff, h1, h2]
    exact ⟨rfl, rfl⟩

/-- Instance of C9: status 200 and the single-object body `{"domain_name":"example.com"}`. -/
theorem C9_success_iff_no_danger_witness :
    checkMailcowResponse sampleRuntime (deliveredResponse 200 objectBody) objectBody = none :=
  ((C9_success_iff_no_danger sampleRuntime (deliveredResponse 200 objectBody) objectBody
    (by decide) (by decide)).2.2 [("domain_name", Json.str "example.com")]
    (by simp [sampleRuntime, objectBody, dangerBody])).2.2

/-- C10: when the transport delivers a response whose body reads as `b`, every response
that `Do` hands to the caller has the same status code and a body whose bytes are exactly
`b` and which reads and closes without error; `Do` hands such a response whenever the read
and the close of the original body succeed, together with the result of the
classification, whether that is an error or not. -/
theorem C10_body_replayed (rt : GoRuntime) (d : MailcowRequestDoer) (req : Request)
    (response : Response) (hdo : d.Client req = TransportResult.ok response) :
    (∀ r, (MailcowRequestDoer.Do rt d req).1 = some r →
        r.statusCode = response.statusCode ∧ r.body.data = response.body.data ∧
          r.body.readErr = none ∧ r.body.closeErr = none) ∧
    (response.body.readErr = none → response.body.closeErr = none →
        ∃ r, (MailcowRequestDoer.Do rt d req).1 = some r ∧
          r.statusCode = response.statusCode ∧ r.body.data = response.body.data ∧
          r.body.readErr = none ∧ r.body.closeErr = none ∧
          (MailcowRequestDoer.Do rt d req).2 =
            checkMailcowResponse rt response response.body.data) := by
  constructor
  · intro r hr
    unfold MailcowRequestDoer.Do at hr
    rw [hdo] at hr
    cases hread : response.body.readErr with
    | some e => simp [hread] at hr
    | none =>
      cases hclose : response.body.closeErr with
      | some e => simp [hread, hclose] at hr
      | none =>
        simp only [hread, hclose, Option.some.injEq] at hr
        subst hr
        exact ⟨rfl, rfl, rfl, rfl⟩
  · intro hread hclose
    refine ⟨{ response with body := nopCloser response.body.data }, ?_, rfl, rfl, rfl, rfl, ?_⟩
    · simp [MailcowRequestDoer.Do, hdo, hread, hclose]
    · simp [MailcowRequestDoer.Do, hdo, hread, hclose]

/-- Instance of C10: a status-200 danger-typed response; the caller gets the error
`mailcow api: quota exceeded` and a response with status 200 whose body holds the bytes
delivered. -/
theorem C10_body_replayed_witness :
    ∃ r, (MailcowRequestDoer.Do sampleRuntime (constantDoer (deliveredResponse 200 dangerBody))
          sampleRequest).1 = some r ∧
      r.statusCode = 200 ∧ r.body.data = dangerBody ∧
      r.body.readErr = none ∧ r.body.closeErr = none ∧
      (MailcowRequestDoer.Do sampleRuntime (constantDoer (deliveredResponse 200 dangerBody))
          sampleRequest).2 =
        checkMailcowResponse sampleRuntime (deliveredResponse 200 dangerBody) dangerBody :=
  (C10_body_replayed sampleRuntime (constantDoer (deliveredResponse 200 dangerBody))
    sampleRequest (deliveredResponse 200 dangerBody) rfl).2 rfl rfl

/-! ## The claims on the kind reconcilers -/

/-- C11 (failing input): a DomainAdmin with a deletion timestamp and the finalizer, whose
list query answers with status 500 and no error.  The pass issues no delete call, removes
the finalizer, sets no condition and returns nil.  Beside it: a Domain whose delete call
fails keeps the finalizer and returns the error but gets no Degraded condition, where a
Mailbox in the same situation keeps the finalizer, returns the error and is Degraded. -/
theorem C11_finalizer_dropped_on_status_500 :
    (DomainAdminReconciler.Reconcile (sampleCluster adminList500Backend)
        (sampleDomainAdmin (some 5) [sampleFinalizer] [])).calls =
      [Call.getMailcow "mailcow" "mail", Call.getSecret "mailcow-api" "mail",
       Call.newClient "https://mail.example.com" "k3y", Call.getDomainAdmins,
       Call.update []] ∧
    (DomainAdminReconciler.Reconcile (sampleCluster adminList500Backend)
        (sampleDomainAdmin (some 5) [sampleFinalizer] [])).object.finalizers = [] ∧
    (DomainAdminReconciler.Reconcile (sampleCluster adminList500Backend)
        (sampleDomainAdmin (some 5) [sampleFinalizer] [])).ret = Ret.nil ∧
    (DomainAdminReconciler.Reconcile (sampleCluster adminList500Backend)
        (sampleDomainAdmin (some 5) [sampleFinalizer] [])).object.resource.status.conditions
      = [] ∧
    (DomainReconciler.Reconcile (sampleCluster deleteFailsBackend)
        (sampleDomain (some 5) [sampleFinalizer] [])).ret =
      Ret.err "mailcow api: delete failed" ∧
    (DomainReconciler.Reconcile (sampleCluster deleteFailsBackend)
        (sampleDomain (some 5) [sampleFinalizer] [])).object.finalizers = [sampleFinalizer] ∧
    (DomainReconciler.Reconcile (sampleCluster deleteFailsBackend)
        (sampleDomain (some 5) [sampleFinalizer] [])).object.resource.status.conditions = [] ∧
    (MailboxReconciler.Reconcile (sampleCluster deleteFailsBackend)
        (sampleMailbox (some 5) [sampleFinalizer] [])).ret =
      Ret.err "mailcow api: delete failed" ∧
    (MailboxReconciler.Reconcile (sampleCluster deleteFailsBackend)
        (sampleMailbox (some 5) [sampleFinalizer] [])).object.finalizers = [sampleFinalizer] ∧
    IsStatusConditionTrue
      (MailboxReconciler.Reconcile (sampleCluster deleteFailsBackend)
        (sampleMailbox (some 5) [sampleFinalizer] [])).object.resource.status.conditions
      "Degraded" = true := by
  decide

/-- C12 (failing input): a non-deleting Alias whose by-key query answers with a parsed
payload without address (the empty object).  `AliasReconciler.ReconcileResource` issues the
update call and no create call; on the same kind of answer the mailbox and domain
reconcilers issue the create call. -/
theorem C12_alias_empty_object_updates :
    (AliasReconciler.ReconcileResource (sampleCluster emptyObjectBackend)
        (sampleAlias none [sampleFinalizer] [])).1.filter Call.isBackend =
      [Call.getAliases "info@example.com",
       Call.updateAlias
        { attr := { address := none, goto := some "user@example.com", active := some true }
          items := ["info@example.com"] }] ∧
    (MailboxReconciler.ReconcileResource (sampleCluster emptyObjectBackend)
        (sampleMailbox none [sampleFinalizer] [])).1.filter Call.isBackend =
      [Call.getMailboxes "user@example.com",
       Call.createMailbox
        { domain := some "example.com", localPart := some "user", name := some "User"
          password := some "hunter2", password2 := some "hunter2", active := some true
          forcePwUpdate := none, quota := some 1024 }] ∧
    (DomainReconciler.ReconcileResource (sampleCluster emptyObjectBackend)
        (sampleDomain none [sampleFinalizer] [])).1.filter Call.isMutation =
      [Call.createDomain
        { domain := some "example.com", description := some "Example", quota := some 1024
          defquota := some 256, maxquota := some 512, active := some true
          mailboxes := some 10, rlValue := some 100, rlFrame := some "hour" }] := by
  decide

/-- C13: in every kind's pass on a loaded object without deletion timestamp and without
the finalizer, the finalizer is appended and the object is persisted by the only call of
the pass (no connection lookup, no backend call, no status write); the pass then returns
a re-run request and no error, or, when the persist fails, that error. -/
theorem C13_finalizer_first (env : Cluster) :
    (∀ mailbox : Object MailboxSpec, IsZero mailbox.deletionTimestamp = true →
      ContainsFinalizer mailbox.finalizers env.Finalizer = false →
      finalizerStep env mailbox (MailboxReconciler.Reconcile env mailbox)) ∧
    (∀ domainadmin : Object DomainAdminSpec, IsZero domainadmin.deletionTimestamp = true →
      ContainsFinalizer domainadmin.finalizers env.Finalizer = false →
      finalizerStep env domainadmin (DomainAdminReconciler.Reconcile env domainadmin)) ∧
    (∀ aliasObj : Object AliasSpec, IsZero aliasObj.deletionTimestamp = true →
      ContainsFinalizer aliasObj.finalizers env.Finalizer = false →
      finalizerStep env aliasObj (AliasReconciler.Reconcile env aliasObj)) ∧
    (∀ domain : Object DomainSpec, IsZero domain.deletionTimestamp = true →
      ContainsFinalizer domain.finalizers env.Finalizer = false →
      finalizerStep env domain (DomainReconciler.Reconcile env domain)) :=
  ⟨fun mailbox hz hf => reconcileGated_finalizerStep env _ _ _ _ mailbox hz hf,
    fun domainadmin hz hf => reconcileGated_finalizerStep env _ _ _ _ domainadmin hz hf,
    fun aliasObj hz hf => reconcileGated_finalizerStep env _ _ _ _ aliasObj hz hf,
    fun domain hz hf => domain_finalizerStep env domain hz hf⟩

/-- Instance of C13: the Mailbox `user@example.com` without finalizer. -/
theorem C13_finalizer_first_witness :
    finalizerStep (sampleCluster sampleBackend) (sampleMailbox none [] [])
      (MailboxReconciler.Reconcile (sampleCluster sampleBackend) (sampleMailbox none [] [])) :=
  (C13_finalizer_first (sampleCluster sampleBackend)).1 (sampleMailbox none [] []) rfl rfl

/-- C14 (failing input): a non-deleting Domain that carries the finalizer.  The pass writes
no status, sets no condition, requests no re-run and goes on to four backend calls; a
Mailbox in the same situation is marked Progressing, its status is persisted and the pass
ends with a re-run request before any backend call. -/
theorem C14_domain_skips_progressing :
    (DomainReconciler.Reconcile (sampleCluster sampleBackend)
        (sampleDomain none [sampleFinalizer] [])).calls.filter Call.isStatusUpdate = [] ∧
    (DomainReconciler.Reconcile (sampleCluster sampleBackend)
        (sampleDomain none [sampleFinalizer] [])).object.resource.status.conditions = [] ∧
    (DomainReconciler.Reconcile (sampleCluster sampleBackend)
        (sampleDomain none [sampleFinalizer] [])).requeue = false ∧
    ((DomainReconciler.Reconcile (sampleCluster sampleBackend)
        (sampleDomain none [sampleFinalizer] [])).calls.filter Call.isBackend).length = 4 ∧
    ((MailboxReconciler.Reconcile (sampleCluster sampleBackend)
        (sampleMailbox none [sampleFinalizer] [])).calls.filter Call.isStatusUpdate).length
      = 1 ∧
    (MailboxReconciler.Reconcile (sampleCluster sampleBackend)
        (sampleMailbox none [sampleFinalizer] [])).calls.filter Call.isBackend = [] ∧
    (MailboxReconciler.Reconcile (sampleCluster sampleBackend)
        (sampleMailbox none [sampleFinalizer] [])).requeue = true ∧
    IsStatusConditionTrue
      (MailboxReconciler.Reconcile (sampleCluster sampleBackend)
        (sampleMailbox none [sampleFinalizer] [])).object.resource.status.conditions
      "Progressing" = true := by
  decide

/-- C15 (failing input): a non-deleting Domain that carries the finalizer.  When the
connection cannot be resolved the pass returns the error but sets no Degraded condition
and writes no status; when every step succeeds it returns nil but sets no Ready
condition.  A Mailbox in the same situations is marked Degraded with the error's message,
respectively Ready. -/
theorem C15_domain_marks_nothing :
    (DomainReconciler.Reconcile noConnectionCluster
        (sampleDomain none [sampleFinalizer] [])).ret = Ret.err "mailcow not found" ∧
    (DomainReconciler.Reconcile noConnectionCluster
        (sampleDomain none [sampleFinalizer] [])).object.resource.status.conditions = [] ∧
    (DomainReconciler.Reconcile noConnectionCluster
        (sampleDomain none [sampleFinalizer] [])).calls.filter Call.isStatusUpdate = [] ∧
    (DomainReconciler.Reconcile (sampleCluster sampleBackend)
        (sampleDomain none [sampleFinalizer] [])).ret = Ret.nil ∧
    (DomainReconciler.Reconcile (sampleCluster sampleBackend)
        (sampleDomain none [sampleFinalizer] [])).object.resource.status.conditions = [] ∧
    (MailboxReconciler.Reconcile noConnectionCluster
        (sampleMailbox none [sampleFinalizer] [progressingMailbox])).ret =
      Ret.err "mailcow not found" ∧
    (FindStatusCondition
      (MailboxReconciler.Reconcile noConnectionCluster
        (sampleMailbox none [sampleFinalizer] [progressingMailbox])).object.resource.status.conditions
      "Degraded").map (fun c => (c.status, c.reason, c.message)) =
      some ("True", "ReconcileFailed", "mailcow not found") ∧
    (MailboxReconciler.Reconcile (sampleCluster sampleBackend)
        (sampleMailbox none [sampleFinalizer] [progressingMailbox])).ret = Ret.nil ∧
    IsStatusConditionTrue
      (MailboxReconciler.Reconcile (sampleCluster sampleBackend)
        (sampleMailbox none [sampleFinalizer] [progressingMailbox])).object.resource.status.conditions
      "Ready" = true := by
  decide

/-- C16: in a pass on a Mailbox with a deletion timestamp whose connection resolves and
whose existence query returns a payload, no create or update call is issued; if the
record exists (username present) exactly one delete call is issued, with the payload
`[localPart@domain]`, and once it succeeds the finalizer is removed by an update that
follows the delete call; if the record does not exist no delete call is issued and the
finalizer is removed directly. -/
theorem C16_mailbox_deletion (env : Cluster) (mailbox : Object MailboxSpec) (c : List Call)
    (client : Backend) (response : ParsedResponse MailboxPayload) (payload : MailboxPayload)
    (hz : IsZero mailbox.deletionTimestamp = false)
    (hres : resolveClient env mailbox.spec.mailcow mailbox.ns = (c, Except.ok client))
    (hq : client.GetMailboxesWithResponse
        (mailbox.spec.localPart ++ "@" ++ mailbox.spec.domain) = Except.ok response)
    (hj : response.JSON200 = some payload) :
    ((MailboxReconciler.Reconcile env mailbox).calls.filter Call.isCreate = [] ∧
      (MailboxReconciler.Reconcile env mailbox).calls.filter Call.isUpdate = []) ∧
    (payload.username.isSome = true →
      (MailboxReconciler.Reconcile env mailbox).calls.filter Call.isDelete =
          [Call.deleteMailbox [mailbox.spec.localPart ++ "@" ++ mailbox.spec.domain]] ∧
        (client.DeleteMailboxWithResponse
            [mailbox.spec.localPart ++ "@" ++ mailbox.spec.domain] = none →
          ContainsFinalizer (MailboxReconciler.Reconcile env mailbox).object.finalizers
              env.Finalizer = false ∧
            (ContainsFinalizer mailbox.finalizers env.Finalizer = true →
              (MailboxReconciler.Reconcile env mailbox).calls =
                c ++ [Call.getMailboxes (mailbox.spec.localPart ++ "@" ++ mailbox.spec.domain),
                      Call.deleteMailbox
                        [mailbox.spec.localPart ++ "@" ++ mailbox.spec.domain],
                      Call.update (RemoveFinalizer mailbox.finalizers env.Finalizer)]))) ∧
    (payload.username.isSome = false →
      (MailboxReconciler.Reconcile env mailbox).calls.filter Call.isDelete = [] ∧
        ContainsFinalizer (MailboxReconciler.Reconcile env mailbox).object.finalizers
            env.Finalizer = false ∧
        (ContainsFinalizer mailbox.finalizers env.Finalizer = true →
          (MailboxReconciler.Reconcile env mailbox).calls =
            c ++ [Call.getMailboxes (mailbox.spec.localPart ++ "@" ++ mailbox.spec.domain),
                  Call.update (RemoveFinalizer mailbox.finalizers env.Finalizer)])) := by
  have hc : ∀ x ∈ c, x.isLookup = true := fun x hx =>
    resolveClient_lookup env mailbox.spec.mailcow mailbox.ns x (by rw [hres]; exact hx)
  have hrr := mailbox_rr_deleting env mailbox c client response payload hz hres hq hj
  have e1 := filter_lookup Call.isCreate lookup_not_create hc
  have e2 := filter_lookup Call.isUpdate lookup_not_update hc
  have e3 := filter_lookup Call.isDelete lookup_not_delete hc
  unfold MailboxReconciler.Reconcile
  rw [reconcileGated_deleting _ _ _ _ _ _ hz, finishGated_calls, finishGated_finalizers, hrr]
  cases hu : payload.username.isSome <;>
    cases hd : client.DeleteMailboxWithResponse
      [mailbox.spec.localPart ++ "@" ++ mailbox.spec.domain] <;>
    cases hf : ContainsFinalizer mailbox.finalizers env.Finalizer <;>
    simp [hz, hf, List.filter_append, e1, e2, e3, Call.isCreate, Call.isUpdate, Call.isDelete,
      filter_statusUpdate, isCreate_statusUpdate, isUpdate_statusUpdate, isDelete_statusUpdate,
      removeFinalizer_gone]

/-- Instance of C16: deleting the Mailbox `user@example.com` whose backend record exists
gives one delete call with `["user@example.com"]`. -/
theorem C16_mailbox_deletion_witness :
    (MailboxReconciler.Reconcile (sampleCluster sampleBackend)
        (sampleMailbox (some 5) [sampleFinalizer] [])).calls.filter Call.isDelete =
      [Call.deleteMailbox ["user@example.com"]] :=
  ((C16_mailbox_deletion (sampleCluster sampleBackend)
      (sampleMailbox (some 5) [sampleFinalizer] [])
      [Call.getMailcow "mailcow" "mail", Call.getSecret "mailcow-api" "mail",
       Call.newClient "https://mail.example.com" "k3y"]
      sampleBackend { JSON200 := some { username := some "user@example.com" } }
      { username := some "user@example.com" } rfl rfl rfl rfl).2.1 rfl).1

/-- C17 (failing input): a non-deleting Alias whose by-key query answers the empty object,
the backend's answer for a record that does not exist.  `AliasReconciler.ReconcileResource`
issues the update call and no create call.  Beside it, on the same kind of answer the
mailbox and domain reconcilers issue one create call carrying every desired field, and the
domain-admin reconciler does so when the list does not hold the username; when the record
exists each kind issues one primary update call (the domain followed by the rate-limit
edit) whose attribute set holds only mutable fields, no name, password, address or
username, with the identity key as the single element of `items`. -/
theorem C17_alias_absent_record_updated :
    (AliasReconciler.ReconcileResource (sampleCluster emptyObjectBackend)
        (sampleAlias none [sampleFinalizer] [])).1.filter Call.isMutation =
      [Call.updateAlias
        { attr := { address := none, goto := some "user@example.com", active := some true }
          items := ["info@example.com"] }] ∧
    (MailboxReconciler.ReconcileResource (sampleCluster emptyObjectBackend)
        (sampleMailbox none [sampleFinalizer] [])).1.filter Call.isMutation =
      [Call.createMailbox
        { domain := some "example.com", localPart := some "user", name := some "User"
          password := some "hunter2", password2 := some "hunter2", active := some true
          forcePwUpdate := none, quota := some 1024 }] ∧
    (DomainReconciler.ReconcileResource (sampleCluster emptyObjectBackend)
        (sampleDomain none [sampleFinalizer] [])).1.filter Call.isMutation =
      [Call.createDomain
        { domain := some "example.com", description := some "Example", quota := some 1024
          defquota := some 256, maxquota := some 512, active := some true
          mailboxes := some 10, rlValue := some 100, rlFrame := some "hour" }] ∧
    (DomainAdminReconciler.ReconcileResource (sampleCluster otherAdminBackend)
        (sampleDomainAdmin none [sampleFinalizer] [])).1.filter Call.isMutation =
      [Call.createDomainAdminUser
        { username := some "admin", password := some "hunter2", password2 := some "hunter2"
          active := some 1, domains := some ["example.com"] }] ∧
    (MailboxReconciler.ReconcileResource (sampleCluster sampleBackend)
        (sampleMailbox none [sampleFinalizer] [])).1.filter Call.isMutation =
      [Call.updateMailbox
        { attr :=
            { name := none, password := none, password2 := none, active := some true
              forcePwUpdate := none, quota := some 1024 }
          items := ["user@example.com"] }] ∧
    (DomainReconciler.ReconcileResource (sampleCluster sampleBackend)
        (sampleDomain none [sampleFinalizer] [])).1.filter Call.isMutation =
      [Call.updateDomain
        { attr :=
            { description := some "Example", quota := some 1024, defquota := some 256
              maxquota := some 512, active := some true, mailboxes := some 10 }
          items := ["example.com"] },
       Call.editDomainRatelimits
        { attr := { rlValue := some 100, rlFrame := some "hour" }, items := ["example.com"] }] ∧
    (DomainAdminReconciler.ReconcileResource (sampleCluster sampleBackend)
        (sampleDomainAdmin none [sampleFinalizer] [])).1.filter Call.isMutation =
      [Call.editDomainAdminUser
        { attr := { password := none, active := some true, domains := some ["example.com"] }
          items := ["admin"] }] ∧
    (AliasReconciler.ReconcileResource (sampleCluster sampleBackend)
        (sampleAlias none [sampleFinalizer] [])).1.filter Call.isMutation =
      [Call.updateAlias
        { attr := { address := none, goto := some "user@example.com", active := some true }
          items := ["info@example.com"] }] := by
  decide

/-- C18: in `ReconcileResource` on a non-deleting Domain whose connection resolves and
whose existence query returns a payload without domain name (its calls are those of the
whole pass once the object carries the finalizer), the backend calls are, in order: the
query, one create call with `domain` the spec's domain and `quota` the `float32` of the
spec's quota (the quota itself below 2^24, so 1024 gives 1024), and, only when the create
succeeded, one DKIM fetch for the domain; when the payload of that fetch has a TXT record
nothing more; when the fetch has no payload or a payload without TXT record, one generate
call with key size 2048 and selector `dkim` followed, once it succeeded, by one more
fetch. -/
theorem C18_domain_create_dkim (env : Cluster) (domain : Object DomainSpec) (c : List Call)
    (client : Backend) (response : ParsedResponse DomainPayload) (payload : DomainPayload)
    (cbody : CreateDomainBody) (gbody : GenerateDKIMKeyBody)
    (hz : IsZero domain.deletionTimestamp = true)
    (hres : resolveClient env domain.spec.mailcow domain.ns = (c, Except.ok client))
    (hq : client.GetDomainsWithResponse domain.spec.domain = Except.ok response)
    (hj : response.JSON200 = some payload)
    (habsent : payload.domainName = none)
    (hcbody : cbody =
      { domain := some domain.spec.domain
        description := some domain.spec.description
        quota := some (float32 domain.spec.quota)
        defquota := some (float32 domain.spec.defQuota)
        maxquota := some (float32 domain.spec.maxQuota)
        active := domain.spec.active
        mailboxes := some (float32 domain.spec.maxMailboxes)
        rlValue := domain.spec.rateLimit
        rlFrame := some domain.spec.rateLimitFrame })
    (hgbody : gbody =
      { domains := some domain.spec.domain, keySize := some 2048,
        dkimSelector := some "dkim" }) :
    (domain.spec.quota.natAbs < 2 ^ 24 → float32 domain.spec.quota = domain.spec.quota) ∧
    (ContainsFinalizer domain.finalizers env.Finalizer = true →
      (DomainReconciler.Reconcile env domain).calls =
        (DomainReconciler.ReconcileResource env domain).1) ∧
    (∀ e, client.CreateDomainWithResponse cbody = some e →
      (DomainReconciler.ReconcileResource env domain).1.filter Call.isBackend =
        [Call.getDomains domain.spec.domain, Call.createDomain cbody]) ∧
    (client.CreateDomainWithResponse cbody = none →
      ∀ r1, client.GetDKIMKeyWithResponse 0 domain.spec.domain = Except.ok r1 →
        ((∃ d txt, r1.JSON200 = some d ∧ d.dkimTxt = some txt) →
          (DomainReconciler.ReconcileResource env domain).1.filter Call.isBackend =
            [Call.getDomains domain.spec.domain, Call.createDomain cbody,
             Call.getDKIMKey domain.spec.domain]) ∧
        ((r1.JSON200 = none ∨ ∃ d, r1.JSON200 = some d ∧ d.dkimTxt = none) →
          (∀ e, client.GenerateDKIMKeyWithResponse gbody = some e →
            (DomainReconciler.ReconcileResource env domain).1.filter Call.isBackend =
              [Call.getDomains domain.spec.domain, Call.createDomain cbody,
               Call.getDKIMKey domain.spec.domain, Call.generateDKIMKey gbody]) ∧
          (client.GenerateDKIMKeyWithResponse gbody = none →
            (DomainReconciler.ReconcileResource env domain).1.filter Call.isBackend =
              [Call.getDomains domain.spec.domain, Call.createDomain cbody,
               Call.getDKIMKey domain.spec.domain, Call.generateDKIMKey gbody,
               Call.getDKIMKey domain.spec.domain]))) := by
  subst hcbody hgbody
  have habsent' : payload.domainName.isNone = true := by simp [habsent]
  have hc : ∀ x ∈ c, x.isLookup = true := fun x hx =>
    resolveClient_lookup env domain.spec.mailcow domain.ns x (by rw [hres]; exact hx)
  have e1 := filter_lookup Call.isBackend lookup_not_backend hc
  refine ⟨float32_exact _, fun hf => (domain_reconcile_live env domain hz hf).2, ?_, ?_⟩
  · intro e he
    rw [domain_rr_live_calls env domain c client response payload hz hres hq hj,
      createOrUpdate_absent client domain payload habsent', he]
    simp [List.filter_append, e1, Call.isBackend, Call.isMutation, Call.isCreate,
      Call.isUpdate, Call.isDelete]
  · intro he r1 h1
    rw [domain_rr_live_calls env domain c client response payload hz hres hq hj,
      createOrUpdate_absent client domain payload habsent', he]
    constructor
    · rintro ⟨d, txt, hd, ht⟩
      rw [reconcileDKIM_present env client domain r1 h1 (dkimMissing_of_txt hd ht)]
      simp [List.filter_append, e1, Call.isBackend, Call.isMutation, Call.isCreate,
        Call.isUpdate, Call.isDelete,
        filter_nil_of Call.isConfigMap Call.isBackend configMap_not_backend
          (publishDKIM_isConfigMap env domain r1.JSON200)]
    · intro hno
      have hm := dkimMissing_of_no_txt hno
      constructor
      · intro e hg
        rw [reconcileDKIM_generate_failed env client domain r1 e h1 hm hg]
        simp [List.filter_append, e1, Call.isBackend, Call.isMutation, Call.isCreate,
          Call.isUpdate, Call.isDelete]
      · intro hg
        cases h2 : client.GetDKIMKeyWithResponse 1 domain.spec.domain with
        | error e =>
          rw [reconcileDKIM_refetch_failed env client domain r1 e h1 hm hg h2]
          simp [List.filter_append, e1, Call.isBackend, Call.isMutation, Call.isCreate,
            Call.isUpdate, Call.isDelete]
        | ok r2 =>
          rw [reconcileDKIM_generated env client domain r1 r2 h1 hm hg h2]
          simp [List.filter_append, e1, Call.isBackend, Call.isMutation, Call.isCreate,
            Call.isUpdate, Call.isDelete,
            filter_nil_of Call.isConfigMap Call.isBackend configMap_not_backend
              (publishDKIM_isConfigMap env domain r2.JSON200)]

/-- Instance of C18: creating the Domain `example.com` with quota 1024.  On a backend whose
first DKIM fetch has no TXT record the backend calls are the query, the create call with
quota 1024, the fetch, the generate call with key size 2048 and selector `dkim`, and one
more fetch; on a backend whose fetch has a TXT record they are the query, the create call
and one fetch. -/
theorem C18_domain_create_dkim_witness :
    (DomainReconciler.ReconcileResource (sampleCluster freshDomainBackend)
        (sampleDomain none [sampleFinalizer] [])).1.filter Call.isBackend =
      [Call.getDomains "example.com",
       Call.createDomain
        { domain := some "example.com", description := some "Example", quota := some 1024
          defquota := some 256, maxquota := some 512, active := some true
          mailboxes := some 10, rlValue := some 100, rlFrame := some "hour" },
       Call.getDKIMKey "example.com",
       Call.generateDKIMKey
        { domains := some "example.com", keySize := some 2048, dkimSelector := some "dkim" },
       Call.getDKIMKey "example.com"] ∧
    (DomainReconciler.ReconcileResource (sampleCluster emptyObjectBackend)
        (sampleDomain none [sampleFinalizer] [])).1.filter Call.isBackend =
      [Call.getDomains "example.com",
       Call.createDomain
        { domain := some "example.com", description := some "Example", quota := some 1024
          defquota := some 256, maxquota := some 512, active := some true
          mailboxes := some 10, rlValue := some 100, rlFrame := some "hour" },
       Call.getDKIMKey "example.com"] :=
  ⟨(((C18_domain_create_dkim (sampleCluster freshDomainBackend)
      (sampleDomain none [sampleFinalizer] [])
      [Call.getMailcow "mailcow" "mail", Call.getSecret "mailcow-api" "mail",
       Call.newClient "https://mail.example.com" "k3y"]
      freshDomainBackend { JSON200 := some { domainName := none } } { domainName := none }
      _ _ rfl rfl rfl rfl rfl rfl rfl).2.2.2 rfl
      { JSON200 :=
          some { dkimSelector := none, dkimTxt := none, length := none, pubkey := none } }
      rfl).2 (Or.inr ⟨_, rfl, rfl⟩)).2 rfl,
   ((C18_domain_create_dkim (sampleCluster emptyObjectBackend)
      (sampleDomain none [sampleFinalizer] [])
      [Call.getMailcow "mailcow" "mail", Call.getSecret "mailcow-api" "mail",
       Call.newClient "https://mail.example.com" "k3y"]
      emptyObjectBackend { JSON200 := some { domainName := none } } { domainName := none }
      _ _ rfl rfl rfl rfl rfl rfl rfl).2.2.2 rfl
      { JSON200 :=
          some { dkimSelector := some "dkim", dkimTxt := some "v=DKIM1;k=rsa;p=abc",
                 length := some "2048", pubkey := some "abc" } } rfl).1 ⟨_, _, rfl, rfl⟩⟩

/-- C19 (failing input): the Domain `example` whose first DKIM fetch has no TXT record, so
that a key is generated and fetched again, in a cluster where a ConfigMap `dkim-example`
exists without owner reference.  `reconcileDKIM` publishes the bundle of the final fetch
by an update that replaces the value set and leaves the owner references as they were:
the published object is not owned by the Domain.  Beside it: when no ConfigMap of that
name exists, the same bundle is published by a create that carries the Domain as
controlling owner. -/
theorem C19_update_leaves_unowned :
    DomainReconciler.reconcileDKIM (unownedConfigMapCluster freshDomainBackend)
        freshDomainBackend (sampleDomain none [sampleFinalizer] []) =
      ([Call.getDKIMKey "example.com",
        Call.generateDKIMKey
          { domains := some "example.com", keySize := some 2048, dkimSelector := some "dkim" },
        Call.getDKIMKey "example.com",
        Call.getConfigMap "dkim-example" "mail",
        Call.updateConfigMap
          { name := "dkim-example", ns := "mail", ownerReferences := [],
            data := [("selector", "dkim"), ("txt", "v=DKIM1;k=rsa;p=new"),
                     ("length", "2048"), ("pubkey", "new")] }], Ret.nil) ∧
    DomainReconciler.reconcileDKIM (sampleCluster freshDomainBackend)
        freshDomainBackend (sampleDomain none [sampleFinalizer] []) =
      ([Call.getDKIMKey "example.com",
        Call.generateDKIMKey
          { domains := some "example.com", keySize := some 2048, dkimSelector := some "dkim" },
        Call.getDKIMKey "example.com",
        Call.getConfigMap "dkim-example" "mail",
        Call.createConfigMap
          { name := "dkim-example", ns := "mail",
            ownerReferences :=
              [{ kind := "Domain", name := "example", uid := "uid-2", controller := true,
                 blockOwnerDeletion := true }],
            data := [("selector", "dkim"), ("txt", "v=DKIM1;k=rsa;p=new"),
                     ("length", "2048"), ("pubkey", "new")] }], Ret.nil) := by
  decide

/-- C20 (as stated, refuted): a Mailbox pass ends Ready with nil error and one update call.
The next pass on the object it leaves, with nothing else changed, issues no backend call
but changes the conditions (Ready is no longer True) and asks for a re-run, and that
re-run issues the update call again.  A Domain pass on an existing record issues the
update and the rate-limit edit, and does so again on the object it leaves. -/
theorem C20_counterexample :
    (MailboxReconciler.Reconcile (sampleCluster sampleBackend)
        (sampleMailbox none [sampleFinalizer] [progressingMailbox])).ret = Ret.nil ∧
    IsStatusConditionTrue
      (MailboxReconciler.Reconcile (sampleCluster sampleBackend)
        (sampleMailbox none [sampleFinalizer] [progressingMailbox])).object.resource.status.conditions
      "Ready" = true ∧
    (MailboxReconciler.Reconcile (sampleCluster sampleBackend)
        (MailboxReconciler.Reconcile (sampleCluster sampleBackend)
          (sampleMailbox none [sampleFinalizer] [progressingMailbox])).object).object.resource.status.conditions
      ≠
      (MailboxReconciler.Reconcile (sampleCluster sampleBackend)
        (sampleMailbox none [sampleFinalizer] [progressingMailbox])).object.resource.status.conditions ∧
    IsStatusConditionTrue
      (MailboxReconciler.Reconcile (sampleCluster sampleBackend)
        (MailboxReconciler.Reconcile (sampleCluster sampleBackend)
          (sampleMailbox none [sampleFinalizer] [progressingMailbox])).object).object.resource.status.conditions
      "Ready" = false ∧
    (MailboxReconciler.Reconcile (sampleCluster sampleBackend)
        (MailboxReconciler.Reconcile (sampleCluster sampleBackend)
          (MailboxReconciler.Reconcile (sampleCluster sampleBackend)
            (sampleMailbox none [sampleFinalizer]
              [progressingMailbox])).object).object).calls.filter Call.isMutation =
      [Call.updateMailbox
        { attr :=
            { name := none, password := none, password2 := none, active := some true
              forcePwUpdate := none, quota := some 1024 }
          items := ["user@example.com"] }] ∧
    ((DomainReconciler.Reconcile (sampleCluster sampleBackend)
        (DomainReconciler.Reconcile (sampleCluster sampleBackend)
          (sampleDomain none [sampleFinalizer] [])).object).calls.filter
        Call.isMutation).length = 2 := by
  decide

/-- C20 (amended): let a pass on a non-deleting object end without error and without re-run
request, and let every status write succeed.  For a Mailbox, DomainAdmin or Alias whose
backend record exists, the next reconciliation takes two passes, at later clock readings:
the first issues no backend call, takes Ready away and requests a re-run; the re-run issues
the backend calls of the earlier pass again, among them exactly one mutation, the update
call, returns nil and leaves Ready True and every condition, looked up by type, with the
status, reason, message and observed generation it had before.  For a Domain whose record
exists and whose DKIM key has a TXT record, the next pass issues the calls of the earlier
pass again, among them exactly two mutations, the primary update and the rate-limit
edit. -/
theorem C20_second_reconciliation (env : Cluster) (n2 n3 : Nat)
    (hsu : ∀ x, env.StatusUpdate x = none) :
    (∀ (mailbox : Object MailboxSpec) (c pc : List Call) (client : Backend)
        (response : ParsedResponse MailboxPayload) (payload : MailboxPayload)
        (u password : String) (p1 p2 p3 : PassResult MailboxSpec),
      IsZero mailbox.deletionTimestamp = true →
      p1 = MailboxReconciler.Reconcile env mailbox → p1.ret = Ret.nil → p1.requeue = false →
      p2 = MailboxReconciler.Reconcile { env with now := n2 } p1.object →
      p3 = MailboxReconciler.Reconcile { env with now := n3 } p2.object →
      resolveClient env mailbox.spec.mailcow mailbox.ns = (c, Except.ok client) →
      client.GetMailboxesWithResponse
          (mailbox.spec.localPart ++ "@" ++ mailbox.spec.domain) = Except.ok response →
      response.JSON200 = some payload → payload.username = some u →
      Mailbox.GetPassword env mailbox = (pc, Except.ok password) →
      IsStatusConditionTrue p1.object.resource.status.conditions "Ready" = true ∧
        p2.calls.filter Call.isBackend = [] ∧ p2.requeue = true ∧ p2.ret = Ret.nil ∧
        IsStatusConditionTrue p2.object.resource.status.conditions "Ready" = false ∧
        p3.calls.filter Call.isBackend = p1.calls.filter Call.isBackend ∧
        p3.requeue = false ∧ p3.ret = Ret.nil ∧
        IsStatusConditionTrue p3.object.resource.status.conditions "Ready" = true ∧
        (∀ t,
          (FindStatusCondition p3.object.resource.status.conditions t).map
              (fun k => (k.status, k.reason, k.message, k.observedGeneration)) =
            (FindStatusCondition p1.object.resource.status.conditions t).map
              (fun k => (k.status, k.reason, k.message, k.observedGeneration))) ∧
        p3.calls.filter Call.isMutation =
          [Call.updateMailbox
            { attr :=
                { name := none, password := none, password2 := none
                  active := mailbox.spec.active, forcePwUpdate := none
                  quota := Int64ToFloat32 mailbox.spec.quota }
              items := [mailbox.spec.localPart ++ "@" ++ mailbox.spec.domain] }]) ∧
    (∀ (domainadmin : Object DomainAdminSpec) (c pc : List Call) (client : Backend)
        (response : DomainAdminsResponse) (parsed : ParsedResponse (List DomainAdminPayload))
        (admins : List DomainAdminPayload) (password : String)
        (p1 p2 p3 : PassResult DomainAdminSpec),
      IsZero domainadmin.deletionTimestamp = true →
      p1 = DomainAdminReconciler.Reconcile env domainadmin → p1.ret = Ret.nil →
      p1.requeue = false →
      p2 = DomainAdminReconciler.Reconcile { env with now := n2 } p1.object →
      p3 = DomainAdminReconciler.Reconcile { env with now := n3 } p2.object →
      resolveClient env domainadmin.spec.mailcow domainadmin.ns = (c, Except.ok client) →
      client.GetDomainAdmins = Except.ok response →
      response.statusCode = 200 → response.parsed = some parsed →
      parsed.JSON200 = some admins →
      (∃ da ∈ admins, da.username = some domainadmin.spec.username) →
      DomainAdmin.GetPassword env domainadmin = (pc, Except.ok password) →
      IsStatusConditionTrue p1.object.resource.status.conditions "Ready" = true ∧
        p2.calls.filter Call.isBackend = [] ∧ p2.requeue = true ∧ p2.ret = Ret.nil ∧
        IsStatusConditionTrue p2.object.resource.status.conditions "Ready" = false ∧
        p3.calls.filter Call.isBackend = p1.calls.filter Call.isBackend ∧
        p3.requeue = false ∧ p3.ret = Ret.nil ∧
        IsStatusConditionTrue p3.object.resource.status.conditions "Ready" = true ∧
        (∀ t,
          (FindStatusCondition p3.object.resource.status.conditions t).map
              (fun k => (k.status, k.reason, k.message, k.observedGeneration)) =
            (FindStatusCondition p1.object.resource.status.conditions t).map
              (fun k => (k.status, k.reason, k.message, k.observedGeneration))) ∧
        p3.calls.filter Call.isMutation =
          [Call.editDomainAdminUser
            { attr :=
                { password := none, active := domainadmin.spec.active
                  domains := some domainadmin.spec.domains }
              items := [domainadmin.spec.username] }]) ∧
    (∀ (aliasObj : Object AliasSpec) (c : List Call) (client : Backend)
        (response : ParsedResponse AliasPayload) (payload : AliasPayload) (a : String)
        (p1 p2 p3 : PassResult AliasSpec),
      IsZero aliasObj.deletionTimestamp = true →
      p1 = AliasReconciler.Reconcile env aliasObj → p1.ret = Ret.nil → p1.requeue = false →
      p2 = AliasReconciler.Reconcile { env with now := n2 } p1.object →
      p3 = AliasReconciler.Reconcile { env with now := n3 } p2.object →
      resolveClient env aliasObj.spec.mailcow aliasObj.ns = (c, Except.ok client) →
      client.GetAliasesWithResponse aliasObj.spec.address = Except.ok response →
      response.JSON200 = some payload → payload.address = some a →
      IsStatusConditionTrue p1.object.resource.status.conditions "Ready" = true ∧
        p2.calls.filter Call.isBackend = [] ∧ p2.requeue = true ∧ p2.ret = Ret.nil ∧
        IsStatusConditionTrue p2.object.resource.status.conditions "Ready" = false ∧
        p3.calls.filter Call.isBackend = p1.calls.filter Call.isBackend ∧
        p3.requeue = false ∧ p3.ret = Ret.nil ∧
        IsStatusConditionTrue p3.object.resource.status.conditions "Ready" = true ∧
        (∀ t,
          (FindStatusCondition p3.object.resource.status.conditions t).map
              (fun k => (k.status, k.reason, k.message, k.observedGeneration)) =
            (FindStatusCondition p1.object.resource.status.conditions t).map
              (fun k => (k.status, k.reason, k.message, k.observedGeneration))) ∧
        p3.calls.filter Call.isMutation =
          [Call.updateAlias
            { attr :=
                { address := none, goto := some aliasObj.spec.goTo
                  active := some aliasObj.spec.active }
              items := [aliasObj.spec.address] }]) ∧
    (∀ (domain : Object DomainSpec) (c : List Call) (client : Backend)
        (response : ParsedResponse DomainPayload) (payload : DomainPayload) (name : String)
        (r1 : ParsedResponse DKIMPayload) (d : DKIMPayload) (txt : String)
        (p1 p2 : PassResult DomainSpec),
      IsZero domain.deletionTimestamp = true →
      p1 = DomainReconciler.Reconcile env domain → p1.ret = Ret.nil → p1.requeue = false →
      p2 = DomainReconciler.Reconcile { env with now := n2 } p1.object →
      resolveClient env domain.spec.mailcow domain.ns = (c, Except.ok client) →
      client.GetDomainsWithResponse domain.spec.domain = Except.ok response →
      response.JSON200 = some payload → payload.domainName = some name →
      client.GetDKIMKeyWithResponse 0 domain.spec.domain = Except.ok r1 →
      r1.JSON200 = some d → d.dkimTxt = some txt →
      p2.calls = p1.calls ∧ p2.ret = Ret.nil ∧
        p2.calls.filter Call.isMutation =
          [Call.updateDomain
            { attr :=
                { description := some domain.spec.description
                  quota := some (float32 domain.spec.quota)
                  defquota := some (float32 domain.spec.defQuota)
                  maxquota := some (float32 domain.spec.maxQuota)
                  active := domain.spec.active
                  mailboxes := some (float32 domain.spec.maxMailboxes) }
              items := [domain.spec.domain] },
           Call.editDomainRatelimits
            { attr :=
                { rlValue := domain.spec.rateLimit
                  rlFrame := some domain.spec.rateLimitFrame }
              items := [domain.spec.domain] }]) := by
  have hsm : ∀ x, Call.isMutation (Call.statusUpdate x) = false := fun _ => rfl
  refine ⟨?_, ?_, ?_, ?_⟩
  · intro mailbox c pc client response payload u password p1 p2 p3 hz h1 hret hreq h2 h3 hres
      hq hj hu hp
    subst h1 h2 h3
    obtain ⟨hra, hcalls, -, -⟩ := gated_three_passes env n2 n3
      MailboxReconciler.ReconcileResource
      (fun e r msg => MailboxReconciler.setDegraded e.now e.StatusUpdate r "ReconcileFailed" msg)
      "Reconciling mailbox" "Mailbox successfully reconciled" MailboxReconciler.Reconcile
      (fun _ _ => rfl) (fun _ _ _ => rfl) (fun _ _ => rfl) mailbox hz hsu hret hreq
    obtain ⟨a1, a2, a3, a4, a5, a6, a7, a8, a9, a10⟩ := hra
    refine ⟨a1, a2, a3, a4, a5, a6, a7, a8, a9, a10, ?_⟩
    rw [hcalls _ hsm]
    have hc : ∀ x ∈ c, x.isLookup = true := fun x hx =>
      resolveClient_lookup env mailbox.spec.mailcow mailbox.ns x (by rw [hres]; exact hx)
    have hpc : ∀ x ∈ pc, x.isLookup = true := fun x hx =>
      getPasswordFrom_lookup env mailbox.spec.passwordSecret mailbox.ns x (by
        have := congrArg Prod.fst hp
        simp only [Mailbox.GetPassword] at this
        rw [this]; exact hx)
    rw [mailbox_rr_live env mailbox c pc client response payload password hz hres hq hp hj]
    simp [hu, List.filter_append, filter_lookup _ lookup_not_mutation hc,
      filter_lookup _ lookup_not_mutation hpc, Call.isMutation, Call.isCreate, Call.isUpdate,
      Call.isDelete]
  · intro domainadmin c pc client response parsed admins password p1 p2 p3 hz h1 hret hreq h2
      h3 hres hq hs hpr hj hex hp
    subst h1 h2 h3
    obtain ⟨hra, hcalls, -, -⟩ := gated_three_passes env n2 n3
      DomainAdminReconciler.ReconcileResource
      (fun e r msg => DomainAdminReconciler.setDegraded e.now e.StatusUpdate r msg)
      "Reconciling domainadmin" "DomainAdmin successfully reconciled"
      DomainAdminReconciler.Reconcile
      (fun _ _ => rfl) (fun _ _ _ => rfl) (fun _ _ => rfl) domainadmin hz hsu hret hreq
    obtain ⟨a1, a2, a3, a4, a5, a6, a7, a8, a9, a10⟩ := hra
    refine ⟨a1, a2, a3, a4, a5, a6, a7, a8, a9, a10, ?_⟩
    rw [hcalls _ hsm]
    have hc : ∀ x ∈ c, x.isLookup = true := fun x hx =>
      resolveClient_lookup env domainadmin.spec.mailcow domainadmin.ns x (by
        rw [hres]; exact hx)
    have hpc : ∀ x ∈ pc, x.isLookup = true := fun x hx =>
      getPasswordFrom_lookup env domainadmin.spec.passwordSecret domainadmin.ns x (by
        have := congrArg Prod.fst hp
        simp only [DomainAdmin.GetPassword] at this
        rw [this]; exact hx)
    rw [domainadmin_rr_live env domainadmin c pc client response true password hz hres hq hs
      (domainAdminExists_listed hpr hj hex) hp]
    simp [List.filter_append, filter_lookup _ lookup_not_mutation hc,
      filter_lookup _ lookup_not_mutation hpc, Call.isMutation, Call.isCreate, Call.isUpdate,
      Call.isDelete]
  · intro aliasObj c client response payload a p1 p2 p3 hz h1 hret hreq h2 h3 hres hq hj _
    subst h1 h2 h3
    obtain ⟨hra, hcalls, -, -⟩ := gated_three_passes env n2 n3
      AliasReconciler.ReconcileResource
      (fun e r msg => AliasReconciler.setDegraded e.now e.StatusUpdate r msg)
      "Reconciling alias" "Alias successfully reconciled" AliasReconciler.Reconcile
      (fun _ _ => rfl) (fun _ _ _ => rfl) (fun _ _ => rfl) aliasObj hz hsu hret hreq
    obtain ⟨a1, a2, a3, a4, a5, a6, a7, a8, a9, a10⟩ := hra
    refine ⟨a1, a2, a3, a4, a5, a6, a7, a8, a9, a10, ?_⟩
    rw [hcalls _ hsm]
    have hc : ∀ x ∈ c, x.isLookup = true := fun x hx =>
      resolveClient_lookup env aliasObj.spec.mailcow aliasObj.ns x (by rw [hres]; exact hx)
    rw [alias_rr_live env aliasObj c client response hz hres hq]
    simp [hj, List.filter_append, filter_lookup _ lookup_not_mutation hc, Call.isMutation,
      Call.isCreate, Call.isUpdate, Call.isDelete]
  · intro domain c client response payload name r1 d txt p1 p2 hz h1 hret hreq h2 hres hq hj
      hname h1k hd htxt
    subst h1 h2
    obtain ⟨hf, hrr⟩ := domain_reconcile_ended env domain hz hret hreq
    obtain ⟨ho, hcalls⟩ := domain_reconcile_live env domain hz hf
    have hc : ∀ x ∈ c, x.isLookup = true := fun x hx =>
      resolveClient_lookup env domain.spec.mailcow domain.ns x (by rw [hres]; exact hx)
    have hpres : payload.domainName.isNone = false := by simp [hname]
    have h2eq : DomainReconciler.Reconcile { env with now := n2 }
        (DomainReconciler.Reconcile env domain).object = DomainReconciler.Reconcile env domain := by
      rw [ho]
      rfl
    rw [h2eq]
    refine ⟨rfl, hret, ?_⟩
    rw [domain_rr_live env domain c client response payload hz hres hq hj,
      createOrUpdate_present client domain payload hpres] at hrr
    rw [hcalls, domain_rr_live_calls env domain c client response payload hz hres hq hj,
      createOrUpdate_present client domain payload hpres,
      reconcileDKIM_present env client domain r1 h1k (dkimMissing_of_txt hd htxt)]
    revert hrr
    generalize client.UpdateDomainWithResponse _ = v1
    generalize client.EditDomainRatelimits _ = v2
    intro hrr
    cases v1 with
    | some e => simp at hrr
    | none =>
      cases v2 with
      | some e => simp at hrr
      | none =>
        simp [List.filter_append, filter_lookup _ lookup_not_mutation hc, Call.isMutation,
          Call.isCreate, Call.isUpdate, Call.isDelete,
          filter_nil_of Call.isConfigMap Call.isMutation configMap_not_mutation
            (publishDKIM_isConfigMap env domain r1.JSON200)]

/-- Instance of C20 (amended): the sample Mailbox, DomainAdmin, Alias and Domain after a
pass that ended without error and without re-run request.  For the first three, of the
next two passes, at clock readings 200 and 300, the second issues the update call again
as its only mutation; for the Domain the next pass issues the primary update and the
rate-limit edit again. -/
theorem C20_second_reconciliation_witness :
    (MailboxReconciler.Reconcile { sampleCluster sampleBackend with now := 300 }
        (MailboxReconciler.Reconcile { sampleCluster sampleBackend with now := 200 }
          (MailboxReconciler.Reconcile (sampleCluster sampleBackend)
            (sampleMailbox none [sampleFinalizer]
              [progressingMailbox])).object).object).calls.filter Call.isMutation =
      [Call.updateMailbox
        { attr :=
            { name := none, password := none, password2 := none, active := some true
              forcePwUpdate := none, quota := some 1024 }
          items := ["user@example.com"] }] ∧
    (DomainAdminReconciler.Reconcile { sampleCluster sampleBackend with now := 300 }
        (DomainAdminReconciler.Reconcile { sampleCluster sampleBackend with now := 200 }
          (DomainAdminReconciler.Reconcile (sampleCluster sampleBackend)
            (sampleDomainAdmin none [sampleFinalizer]
              [progressingDomainAdmin])).object).object).calls.filter Call.isMutation =
      [Call.editDomainAdminUser
        { attr := { password := none, active := some true, domains := some ["example.com"] }
          items := ["admin"] }] ∧
    (AliasReconciler.Reconcile { sampleCluster sampleBackend with now := 300 }
        (AliasReconciler.Reconcile { sampleCluster sampleBackend with now := 200 }
          (AliasReconciler.Reconcile (sampleCluster sampleBackend)
            (sampleAlias none [sampleFinalizer]
              [progressingAlias])).object).object).calls.filter Call.isMutation =
      [Call.updateAlias
        { attr := { address := none, goto := some "user@example.com", active := some true }
          items := ["info@example.com"] }] ∧
    (DomainReconciler.Reconcile { sampleCluster sampleBackend with now := 200 }
        (DomainReconciler.Reconcile (sampleCluster sampleBackend)
          (sampleDomain none [sampleFinalizer] [])).object).calls.filter Call.isMutation =
      [Call.updateDomain
        { attr :=
            { description := some "Example", quota := some 1024
              defquota := some 256, maxquota := some 512
              active := some true, mailboxes := some 10 }
          items := ["example.com"] },
       Call.editDomainRatelimits
        { attr := { rlValue := some 100, rlFrame := some "hour" }, items := ["example.com"] }] :=
  ⟨((C20_second_reconciliation (sampleCluster sampleBackend) 200 300 (fun _ => rfl)).1
      (sampleMailbox none [sampleFinalizer] [progressingMailbox])
      [Call.getMailcow "mailcow" "mail", Call.getSecret "mailcow-api" "mail",
       Call.newClient "https://mail.example.com" "k3y"]
      [Call.getSecret "user-password" "mail"]
      sampleBackend { JSON200 := some { username := some "user@example.com" } }
      { username := some "user@example.com" } "user@example.com" "hunter2" _ _ _
      rfl rfl (by decide) (by decide) rfl rfl rfl rfl rfl rfl rfl).2.2.2.2.2.2.2.2.2.2,
   ((C20_second_reconciliation (sampleCluster sampleBackend) 200 300 (fun _ => rfl)).2.1
      (sampleDomainAdmin none [sampleFinalizer] [progressingDomainAdmin])
      [Call.getMailcow "mailcow" "mail", Call.getSecret "mailcow-api" "mail",
       Call.newClient "https://mail.example.com" "k3y"]
      [Call.getSecret "admin-password" "mail"]
      sampleBackend
      { statusCode := 200, parsed := some { JSON200 := some [{ username := some "admin" }] } }
      { JSON200 := some [{ username := some "admin" }] } [{ username := some "admin" }]
      "hunter2" _ _ _
      rfl rfl (by decide) (by decide) rfl rfl rfl rfl rfl rfl rfl
      ⟨_, List.mem_singleton.2 rfl, rfl⟩ rfl).2.2.2.2.2.2.2.2.2.2,
   ((C20_second_reconciliation (sampleCluster sampleBackend) 200 300 (fun _ => rfl)).2.2.1
      (sampleAlias none [sampleFinalizer] [progressingAlias])
      [Call.getMailcow "mailcow" "mail", Call.getSecret "mailcow-api" "mail",
       Call.newClient "https://mail.example.com" "k3y"]
      sampleBackend { JSON200 := some { address := some "info@example.com" } }
      { address := some "info@example.com" } "info@example.com" _ _ _
      rfl rfl (by decide) (by decide) rfl rfl rfl rfl rfl rfl).2.2.2.2.2.2.2.2.2.2,
   ((C20_second_reconciliation (sampleCluster sampleBackend) 200 300 (fun _ => rfl)).2.2.2
      (sampleDomain none [sampleFinalizer] [])
      [Call.getMailcow "mailcow" "mail", Call.getSecret "mailcow-api" "mail",
       Call.newClient "https://mail.example.com" "k3y"]
      sampleBackend { JSON200 := some { domainName := some "example.com" } }
      { domainName := some "example.com" } "example.com"
      { JSON200 :=
          some { dkimSelector := some "dkim", dkimTxt := some "v=DKIM1;k=rsa;p=abc",
                 length := some "2048", pubkey := some "abc" } }
      { dkimSelector := some "dkim", dkimTxt := some "v=DKIM1;k=rsa;p=abc",
        length := some "2048", pubkey := some "abc" } "v=DKIM1;k=rsa;p=abc" _ _
      rfl rfl (by decide) (by decide) rfl rfl rfl rfl rfl rfl rfl rfl).2.2⟩

/-! ## The claims on error handling, phase, decode order, update ordering and frame -/

/-- C21 (failing input): a DomainAdmin without deletion timestamp, carrying the finalizer and
already Progressing, whose list query answers with status 500 and no error.
`ReconcileResource` issues the query only and returns nil, and the pass returns nil with
the object marked Ready; with a deletion timestamp the pass removes the finalizer.  Beside
it: when the same query fails with an error, the pass returns that error, keeps the
finalizer and marks the object Degraded, not Ready; an Alias whose by-key query answers
with status 500 is taken as absent, created and marked Ready; and a Mailbox whose delete
call fails and whose Degraded status cannot be persisted returns the error of the status
write, not the error of the delete call. -/
theorem C21_status_500_swallowed :
    DomainAdminReconciler.ReconcileResource (sampleCluster status500Backend)
        (sampleDomainAdmin none [sampleFinalizer] [progressingDomainAdmin]) =
      ([Call.getMailcow "mailcow" "mail", Call.getSecret "mailcow-api" "mail",
        Call.newClient "https://mail.example.com" "k3y", Call.getDomainAdmins], Ret.nil) ∧
    (DomainAdminReconciler.Reconcile (sampleCluster status500Backend)
        (sampleDomainAdmin none [sampleFinalizer] [progressingDomainAdmin])).ret = Ret.nil ∧
    IsStatusConditionTrue
      (DomainAdminReconciler.Reconcile (sampleCluster status500Backend)
        (sampleDomainAdmin none [sampleFinalizer]
          [progressingDomainAdmin])).object.resource.status.conditions "Ready" = true ∧
    (DomainAdminReconciler.Reconcile (sampleCluster status500Backend)
        (sampleDomainAdmin none [sampleFinalizer]
          [progressingDomainAdmin])).object.resource.status.phase = "Ready" ∧
    (DomainAdminReconciler.Reconcile (sampleCluster status500Backend)
        (sampleDomainAdmin (some 5) [sampleFinalizer] [])).ret = Ret.nil ∧
    (DomainAdminReconciler.Reconcile (sampleCluster status500Backend)
        (sampleDomainAdmin (some 5) [sampleFinalizer] [])).object.finalizers = [] ∧
    (DomainAdminReconciler.Reconcile (sampleCluster adminListFailsBackend)
        (sampleDomainAdmin none [sampleFinalizer] [progressingDomainAdmin])).ret =
      Ret.err "mailcow api: unauthorized" ∧
    IsStatusConditionTrue
      (DomainAdminReconciler.Reconcile (sampleCluster adminListFailsBackend)
        (sampleDomainAdmin none [sampleFinalizer]
          [progressingDomainAdmin])).object.resource.status.conditions "Degraded" = true ∧
    IsStatusConditionTrue
      (DomainAdminReconciler.Reconcile (sampleCluster adminListFailsBackend)
        (sampleDomainAdmin none [sampleFinalizer]
          [progressingDomainAdmin])).object.resource.status.conditions "Ready" = false ∧
    (DomainAdminReconciler.Reconcile (sampleCluster adminListFailsBackend)
        (sampleDomainAdmin (some 5) [sampleFinalizer] [])).object.finalizers =
      [sampleFinalizer] ∧
    AliasReconciler.ReconcileResource (sampleCluster status500Backend)
        (sampleAlias none [sampleFinalizer] [progressingAlias]) =
      ([Call.getMailcow "mailcow" "mail", Call.getSecret "mailcow-api" "mail",
        Call.newClient "https://mail.example.com" "k3y", Call.getAliases "info@example.com",
        Call.createAlias
          { address := some "info@example.com", goto := some "user@example.com"
            active := some true }], Ret.nil) ∧
    IsStatusConditionTrue
      (AliasReconciler.Reconcile (sampleCluster status500Backend)
        (sampleAlias none [sampleFinalizer]
          [progressingAlias])).object.resource.status.conditions "Ready" = true ∧
    (MailboxReconciler.ReconcileResource (statusConflictCluster deleteFailsBackend)
        (sampleMailbox (some 5) [sampleFinalizer] [])).2 =
      Ret.err "mailcow api: delete failed" ∧
    (MailboxReconciler.Reconcile (statusConflictCluster deleteFailsBackend)
        (sampleMailbox (some 5) [sampleFinalizer] [])).ret = Ret.err "status conflict" := by
  decide

/-- C22 (failing input): a by-key query that answers with no error and no parsed payload
(`JSON200` is nil, as for a status 500 whose body the normalizer lets through).  The
mailbox and domain `ReconcileResource` read the identity field of the absent payload and
fault, for an object with and without deletion timestamp, and the pass ends in that fault;
the domain-admin reconciler faults in the same way on a status-200 list response that
parses without payload.  Beside it: the alias reconciler tests the payload for nil and
returns. -/
theorem C22_absent_payload_faults :
    checkMailcowResponse sampleRuntime (deliveredResponse 500 objectBody) objectBody = none ∧
    (MailboxReconciler.ReconcileResource (sampleCluster status500Backend)
        (sampleMailbox none [sampleFinalizer] [progressingMailbox])).2 = Ret.panic ∧
    (MailboxReconciler.ReconcileResource (sampleCluster status500Backend)
        (sampleMailbox (some 5) [sampleFinalizer] [])).2 = Ret.panic ∧
    (MailboxReconciler.Reconcile (sampleCluster status500Backend)
        (sampleMailbox none [sampleFinalizer] [progressingMailbox])).ret = Ret.panic ∧
    (DomainReconciler.ReconcileResource (sampleCluster status500Backend)
        (sampleDomain none [sampleFinalizer] [])).2 = Ret.panic ∧
    (DomainReconciler.ReconcileResource (sampleCluster status500Backend)
        (sampleDomain (some 5) [sampleFinalizer] [])).2 = Ret.panic ∧
    (DomainReconciler.Reconcile (sampleCluster status500Backend)
        (sampleDomain none [sampleFinalizer] [])).ret = Ret.panic ∧
    (DomainAdminReconciler.ReconcileResource (sampleCluster adminListUnparsedBackend)
        (sampleDomainAdmin none [sampleFinalizer] [progressingDomainAdmin])).2 = Ret.panic ∧
    (DomainAdminReconciler.Reconcile (sampleCluster adminListUnparsedBackend)
        (sampleDomainAdmin none [sampleFinalizer] [progressingDomainAdmin])).ret = Ret.panic ∧
    (AliasReconciler.ReconcileResource (sampleCluster status500Backend)
        (sampleAlias (some 5) [sampleFinalizer] [])).2 = Ret.nil := by
  decide

/-- C23: on an object whose `status.phase` is the type of the one well-known condition that
is True, each of `setProgressing`, `setReady` and `setDegraded` of the mailbox,
domain-admin, alias and domain controllers leaves an object whose phase is again the type
of the one well-known condition that is True; for the gated helpers this covers the call
that reports no change, which persists nothing and leaves the phase as it was. -/
theorem C23_phase_mirrors (now : Nat) (statusUpdate : Resource → Option String)
    (obj : Resource) (reason message : String) (h : phaseMirrors obj = true) :
    (phaseMirrors (MailboxReconciler.setProgressing now statusUpdate obj message).2.object = true ∧
      phaseMirrors (MailboxReconciler.setReady now statusUpdate obj message).2.object = true ∧
      phaseMirrors
        (MailboxReconciler.setDegraded now statusUpdate obj reason message).2.object = true) ∧
    (phaseMirrors
        (DomainAdminReconciler.setProgressing now statusUpdate obj message).2.object = true ∧
      phaseMirrors (DomainAdminReconciler.setReady now statusUpdate obj message).2.object = true ∧
      phaseMirrors
        (DomainAdminReconciler.setDegraded now statusUpdate obj message).2.object = true) ∧
    (phaseMirrors (AliasReconciler.setProgressing now statusUpdate obj message).2.object = true ∧
      phaseMirrors (AliasReconciler.setReady now statusUpdate obj message).2.object = true ∧
      phaseMirrors (AliasReconciler.setDegraded now statusUpdate obj message).2.object = true) ∧
    (phaseMirrors (DomainReconciler.setProgressing now statusUpdate obj message).object = true ∧
      phaseMirrors (DomainReconciler.setReady now statusUpdate obj reason message).object = true ∧
      phaseMirrors
        (DomainReconciler.setDegraded now statusUpdate obj reason message).object = true) ∧
    (∀ T r m, T ∈ otherTypes → (setConditionGated now statusUpdate obj T r m).1 = false →
      (setConditionGated now statusUpdate obj T r m).2.updates = [] ∧
      (setConditionGated now statusUpdate obj T r m).2.object.status.phase = obj.status.phase ∧
      obj.status.phase = T ∧
      phaseMirrors (setConditionGated now statusUpdate obj T r m).2.object = true) := by
  have hP : "Progressing" ∈ otherTypes := by decide
  have hR : "Ready" ∈ otherTypes := by decide
  have hD : "Degraded" ∈ otherTypes := by decide
  refine ⟨⟨?_, ?_, ?_⟩, ⟨?_, ?_, ?_⟩, ⟨?_, ?_, ?_⟩, ⟨?_, ?_, ?_⟩, ?_⟩
  · exact setConditionGated_mirrors now statusUpdate obj _ _ _ hP h
  · exact setConditionGated_mirrors now statusUpdate obj _ _ _ hR h
  · exact setConditionGated_mirrors now statusUpdate obj _ _ _ hD h
  · exact setConditionGated_mirrors now statusUpdate obj _ _ _ hP h
  · exact setConditionGated_mirrors now statusUpdate obj _ _ _ hR h
  · exact setConditionGated_mirrors now statusUpdate obj _ _ _ hD h
  · exact setConditionGated_mirrors now statusUpdate obj _ _ _ hP h
  · exact setConditionGated_mirrors now statusUpdate obj _ _ _ hR h
  · exact setConditionGated_mirrors now statusUpdate obj _ _ _ hD h
  · exact setConditionAlways_mirrors now statusUpdate obj _ _ _ hP
  · exact setConditionAlways_mirrors now statusUpdate obj _ _ _ hR
  · exact setConditionAlways_mirrors now statusUpdate obj _ _ _ hD
  · intro T r m hT hun
    obtain ⟨h1, h2⟩ := setConditionGated_unchanged now statusUpdate obj T r m hun
    have hm := setConditionGated_mirrors now statusUpdate obj T r m hT h
    refine ⟨h1, h2, ?_, hm⟩
    have htrue : IsStatusConditionTrue obj.status.conditions T = true := by
      apply true_of_unchanged now _ T r m obj.generation
      unfold setConditionGated at hun
      cases hch : (SetConditionStatusChanged now obj.status.conditions T ConditionTrue r m
          obj.generation).2 with
      | true => simp [hch] at hun
      | false => rfl
    have := ((phaseMirrors_iff obj).1 h).2 T hT
    rw [htrue] at this
    exact (by simpa using this : T = obj.status.phase).symm

/-- Instance of C23: a Mailbox whose phase is `Progressing` and whose Progressing condition
is True with the same reason and message; `setProgressing` reports no change, persists
nothing, and the phase still mirrors the True condition. -/
theorem C23_phase_mirrors_witness :
    (MailboxReconciler.setProgressing 100 (fun _ => none)
        { generation := 1, status := { phase := "Progressing", conditions := [progressingMailbox] } }
        "Reconciling mailbox").1 = false ∧
      phaseMirrors
        (MailboxReconciler.setProgressing 100 (fun _ => none)
          { generation := 1,
            status := { phase := "Progressing", conditions := [progressingMailbox] } }
          "Reconciling mailbox").2.object = true :=
  ⟨by decide,
    (C23_phase_mirrors 100 (fun _ => none)
      { generation := 1, status := { phase := "Progressing", conditions := [progressingMailbox] } }
      "Reconciling" "Reconciling mailbox" (by decide)).1.1⟩

/-- C24: for a status that is neither 401 nor 400, the string-message decoding is used
first: when it succeeds and holds a danger-typed record, the error carries the message of
the first such record in body order, whatever the array-message decoding gives; only when
it fails or holds no danger-typed record is the first danger-typed record of the
array-message decoding reported; and when both decodings succeed they hold the same
record types, so the error, if any, is the string-message form. -/
theorem C24_decode_order (rt : GoRuntime) (response : Response) (body : String)
    (h401 : response.statusCode ≠ StatusUnauthorized)
    (h400 : response.statusCode ≠ StatusBadRequest) :
    (∀ rs r, unmarshalResponses rt body = some rs → firstDanger rs = some r →
        checkMailcowResponse rt response body = some ("mailcow api: " ++ r.msg) ∧
        ∃ pre post, rs = pre ++ r :: post ∧ ∀ x ∈ pre, x.type ≠ "danger") ∧
    ((unmarshalResponses rt body).bind firstDanger = none →
      ∀ rs r, unmarshalResponsesMsgArray rt body = some rs → firstDangerMsgArray rs = some r →
        checkMailcowResponse rt response body = some ("mailcow api: " ++ rt.sprintV r.msg) ∧
        ∃ pre post, rs = pre ++ r :: post ∧ ∀ x ∈ pre, x.type ≠ "danger") ∧
    (∀ elems rs, rt.parse body = some (Json.arr elems) →
        unmarshalResponses rt body = some rs →
        rs = elems.map (fun j => (MailcowOKResponse.decode rt j).1)) ∧
    (∀ elems rs, rt.parse body = some (Json.arr elems) →
        unmarshalResponsesMsgArray rt body = some rs →
        rs = elems.map (fun j => (MailcowOKResponseMsgArray.decode rt j).1)) ∧
    (∀ rs rs', unmarshalResponses rt body = some rs →
        unmarshalResponsesMsgArray rt body = some rs' →
        rs.map (fun r => r.type) = rs'.map (fun r => r.type) ∧
        checkMailcowResponse rt response body =
          (firstDanger rs).map (fun r => "mailcow api: " ++ r.msg)) := by
  refine ⟨?_, ?_, ?_, ?_, ?_⟩
  · intro rs r hrs hf
    refine ⟨?_, firstDanger_split hf⟩
    simp only [checkMailcowResponse, if_neg h401, if_neg h400, hrs, Option.some_bind, hf]
  · intro hnone rs r hrs hf
    refine ⟨?_, firstDangerMsgArray_split hf⟩
    simp only [checkMailcowResponse, if_neg h401, if_neg h400, hnone, hrs, Option.some_bind, hf]
  · intro elems rs hp hrs
    rcases unmarshalResponses_arr hrs with ⟨hp', _⟩ | ⟨elems', hp', h⟩
    · rw [hp] at hp'; cases hp'
    · rw [hp] at hp'
      simp only [Option.some.injEq, Json.arr.injEq] at hp'
      subst hp'
      exact h
  · intro elems rs hp hrs
    rcases unmarshalResponsesMsgArray_arr hrs with ⟨hp', _⟩ | ⟨elems', hp', h⟩
    · rw [hp] at hp'; cases hp'
    · rw [hp] at hp'
      simp only [Option.some.injEq, Json.arr.injEq] at hp'
      subst hp'
      exact h
  · intro rs rs' hrs hrs'
    have ht := both_decodings_types hrs hrs'
    refine ⟨ht, ?_⟩
    cases hf : firstDanger rs with
    | none =>
      have hf' := firstDangerMsgArray_none_of_types ht hf
      simp only [checkMailcowResponse, if_neg h401, if_neg h400, hrs, hrs', Option.some_bind,
        hf, hf', Option.map_none']
    | some r =>
      simp only [checkMailcowResponse, if_neg h401, if_neg h400, hrs, Option.some_bind, hf,
        Option.map_some']

/-- Instance of C24: status 200 and the body `[{"type":"success"},{"type":"danger"}]`,
which decodes under both shapes, give the string-message form with an empty message. -/
theorem C24_decode_order_witness :
    checkMailcowResponse shapesRuntime (deliveredResponse 200 noMsgBody) noMsgBody =
      some ("mailcow api: " ++ "") :=
  ((C24_decode_order shapesRuntime (deliveredResponse 200 noMsgBody) noMsgBody
    (by decide) (by decide)).1
      [{ type := "success", msg := "" }, { type := "danger", msg := "" }]
      { type := "danger", msg := "" }
      (by simp [unmarshalResponses, shapesRuntime, MailcowOKResponse.decode,
        MailcowOKResponse.storeMember, lookupField, storeString])
      (by simp [firstDanger])).1

/-- C25: in `ReconcileResource` on a non-deleting Domain whose connection resolves and whose
existence query returns a payload (its calls are those of the whole pass once the object
carries the finalizer): when the record exists, the calls are the lookups, the query, the
primary update and, exactly when the primary update succeeded, one rate-limit edit
carrying the spec's rate limit and frame with items the domain name, followed, exactly
when that edit succeeded too, by the calls of the DKIM sync; when the record does not
exist, the calls are the lookups, the query, the create and, exactly when the create
succeeded, the calls of the DKIM sync.  A failed create, primary update or rate-limit edit
is returned as the error, and since the DKIM sync always starts with a DKIM fetch, it
leaves no DKIM fetch, generate or ConfigMap call among the calls. -/
theorem C25_domain_update_ordering (env : Cluster) (domain : Object DomainSpec)
    (c : List Call) (client : Backend) (response : ParsedResponse DomainPayload)
    (payload : DomainPayload) (body : UpdateDomainBody) (rl : EditDomainRatelimitsBody)
    (cbody : CreateDomainBody)
    (hz : IsZero domain.deletionTimestamp = true)
    (hres : resolveClient env domain.spec.mailcow domain.ns = (c, Except.ok client))
    (hq : client.GetDomainsWithResponse domain.spec.domain = Except.ok response)
    (hj : response.JSON200 = some payload)
    (hbody : body =
      { attr :=
          { description := some domain.spec.description
            quota := some (float32 domain.spec.quota)
            defquota := some (float32 domain.spec.defQuota)
            maxquota := some (float32 domain.spec.maxQuota)
            active := domain.spec.active
            mailboxes := some (float32 domain.spec.maxMailboxes) }
        items := [domain.spec.domain] })
    (hrl : rl =
      { attr := { rlValue := domain.spec.rateLimit, rlFrame := some domain.spec.rateLimitFrame }
        items := [domain.spec.domain] })
    (hcbody : cbody =
      { domain := some domain.spec.domain
        description := some domain.spec.description
        quota := some (float32 domain.spec.quota)
        defquota := some (float32 domain.spec.defQuota)
        maxquota := some (float32 domain.spec.maxQuota)
        active := domain.spec.active
        mailboxes := some (float32 domain.spec.maxMailboxes)
        rlValue := domain.spec.rateLimit
        rlFrame := some domain.spec.rateLimitFrame }) :
    (payload.domainName.isNone = false →
      DomainReconciler.ReconcileResource env domain =
        (match client.UpdateDomainWithResponse body with
          | some e =>
            (c ++ [Call.getDomains domain.spec.domain, Call.updateDomain body], Ret.err e)
          | none =>
            match client.EditDomainRatelimits rl with
            | some e =>
              (c ++ [Call.getDomains domain.spec.domain, Call.updateDomain body,
                Call.editDomainRatelimits rl], Ret.err e)
            | none =>
              (c ++ [Call.getDomains domain.spec.domain, Call.updateDomain body,
                  Call.editDomainRatelimits rl] ++
                (DomainReconciler.reconcileDKIM env client domain).1,
                (DomainReconciler.reconcileDKIM env client domain).2)) ∧
      (∀ x, Call.editDomainRatelimits x ∈ (DomainReconciler.ReconcileResource env domain).1 ↔
        x = rl ∧ client.UpdateDomainWithResponse body = none) ∧
      (DomainReconciler.ReconcileResource env domain).1.filter Call.isDKIM =
        (if client.UpdateDomainWithResponse body = none ∧ client.EditDomainRatelimits rl = none
          then (DomainReconciler.reconcileDKIM env client domain).1 else [])) ∧
    (payload.domainName.isNone = true →
      DomainReconciler.ReconcileResource env domain =
        (match client.CreateDomainWithResponse cbody with
          | some e =>
            (c ++ [Call.getDomains domain.spec.domain, Call.createDomain cbody], Ret.err e)
          | none =>
            (c ++ [Call.getDomains domain.spec.domain, Call.createDomain cbody] ++
              (DomainReconciler.reconcileDKIM env client domain).1,
              (DomainReconciler.reconcileDKIM env client domain).2)) ∧
      (DomainReconciler.ReconcileResource env domain).1.filter Call.isDKIM =
        (if client.CreateDomainWithResponse cbody = none
          then (DomainReconciler.reconcileDKIM env client domain).1 else [])) ∧
    (DomainReconciler.reconcileDKIM env client domain).1.head? =
      some (Call.getDKIMKey domain.spec.domain) ∧
    (ContainsFinalizer domain.finalizers env.Finalizer = true →
      (DomainReconciler.Reconcile env domain).calls =
        (DomainReconciler.ReconcileResource env domain).1) := by
  subst hbody hrl hcbody
  have hrr := domain_rr_live env domain c client response payload hz hres hq hj
  have hc : ∀ x ∈ c, x.isLookup = true := by
    have := resolveClient_lookup env domain.spec.mailcow domain.ns
    rw [hres] at this
    exact this
  have hcd : c.filter Call.isDKIM = [] := filter_lookup Call.isDKIM lookup_not_dkim hc
  have hk := reconcileDKIM_isDKIM env client domain
  have hkd := filter_dkim_self hk
  refine ⟨?_, ?_, reconcileDKIM_head env client domain,
    fun hf => (domain_reconcile_live env domain hz hf).2⟩
  · intro hp
    rw [hrr, createOrUpdate_present client domain payload hp]
    generalize client.UpdateDomainWithResponse _ = u
    generalize client.EditDomainRatelimits _ = v
    generalize DomainReconciler.reconcileDKIM env client domain = k at hk hkd ⊢
    have hnc : ∀ x, Call.editDomainRatelimits x ∉ c :=
      fun x hx => lookup_not_ratelimit _ (hc _ hx) x rfl
    have hnk : ∀ x, Call.editDomainRatelimits x ∉ k.1 :=
      fun x hx => dkim_not_ratelimit _ (hk _ hx) x rfl
    cases u <;> cases v <;>
      simp [List.filter_append, hcd, hkd, hnc, hnk, Call.isDKIM, eq_comm]
  · intro hp
    rw [hrr, createOrUpdate_absent client domain payload hp]
    generalize client.CreateDomainWithResponse _ = u
    generalize DomainReconciler.reconcileDKIM env client domain = k at hk hkd ⊢
    cases u <;> simp [List.filter_append, hcd, hkd, Call.isDKIM]

/-- Instance of C25: updating the Domain `example.com` on a backend whose rate-limit edit
fails: the calls are the lookups, the query, the primary update and the rate-limit edit,
no DKIM call, and the error of the edit is returned. -/
theorem C25_domain_update_ordering_witness :
    DomainReconciler.ReconcileResource (sampleCluster ratelimitFailsBackend)
        (sampleDomain none [sampleFinalizer] []) =
      ([Call.getMailcow "mailcow" "mail", Call.getSecret "mailcow-api" "mail",
        Call.newClient "https://mail.example.com" "k3y",
        Call.getDomains "example.com",
        Call.updateDomain
          { attr :=
              { description := some "Example", quota := some 1024, defquota := some 256
                maxquota := some 512, active := some true, mailboxes := some 10 }
            items := ["example.com"] },
        Call.editDomainRatelimits
          { attr := { rlValue := some 100, rlFrame := some "hour" }, items := ["example.com"] }],
        Ret.err "mailcow api: rate limit rejected") :=
  ((C25_domain_update_ordering (sampleCluster ratelimitFailsBackend)
      (sampleDomain none [sampleFinalizer] [])
      [Call.getMailcow "mailcow" "mail", Call.getSecret "mailcow-api" "mail",
       Call.newClient "https://mail.example.com" "k3y"]
      ratelimitFailsBackend { JSON200 := some { domainName := some "example.com" } }
      { domainName := some "example.com" } _ _ _ rfl rfl rfl rfl rfl rfl rfl).1 rfl).1

/-- C26: for a status that is neither 401 nor 400 and a body that is a JSON array holding
a record with a string `msg` and a record with an array `msg`, the string-message decoding
and the array-message decoding both fail and `checkMailcowResponse` returns success,
whatever the types of the records are. -/
theorem C26_mixed_shapes (rt : GoRuntime) (response : Response) (body : String)
    (elems : List Json) (stringMembers arrayMembers : List (String × Json)) (s : String)
    (xs : List Json)
    (h401 : response.statusCode ≠ StatusUnauthorized)
    (h400 : response.statusCode ≠ StatusBadRequest)
    (hbody : rt.parse body = some (Json.arr elems))
    (hs : Json.obj stringMembers ∈ elems) (hsm : ("msg", Json.str s) ∈ stringMembers)
    (ha : Json.obj arrayMembers ∈ elems) (ham : ("msg", Json.arr xs) ∈ arrayMembers) :
    unmarshalResponses rt body = none ∧ unmarshalResponsesMsgArray rt body = none ∧
      checkMailcowResponse rt response body = none := by
  have h1 := unmarshalResponses_arrayMsg rt body elems arrayMembers xs hbody ha ham
  have h2 := unmarshalResponsesMsgArray_stringMsg rt body elems stringMembers s hbody hs hsm
  refine ⟨h1, h2, ?_⟩
  simp only [checkMailcowResponse, if_neg h401, if_neg h400, h1, h2, Option.none_bind]

/-- Instance of C26: status 200 and the body
`[{"type":"danger","msg":"quota exceeded"},{"type":"success","msg":["mailbox_added","a@example.com"]}]`,
whose first record is danger-typed, give success. -/
theorem C26_mixed_shapes_witness :
    checkMailcowResponse shapesRuntime (deliveredResponse 200 mixedBody) mixedBody = none :=
  (C26_mixed_shapes shapesRuntime (deliveredResponse 200 mixedBody) mixedBody
    [stringRecord "danger" "quota exceeded",
      Json.obj [("type", Json.str "success"),
        ("msg", Json.arr [Json.str "mailbox_added", Json.str "a@example.com"])]]
    [("type", Json.str "danger"), ("msg", Json.str "quota exceeded")]
    [("type", Json.str "success"),
      ("msg", Json.arr [Json.str "mailbox_added", Json.str "a@example.com"])]
    "quota exceeded" [Json.str "mailbox_added", Json.str "a@example.com"]
    (by decide) (by decide)
    (by simp [shapesRuntime, mixedBody, noMsgBody])
    (by simp [stringRecord]) (by simp) (by simp) (by simp)).2.2

/-- C27: for every condition list and target type `T`, the types in the list after
`SetConditionStatus` are the types before, in the same positions, followed by `T` when `T`
was absent (so a type is in the result exactly when it was there before or is `T`, and a
well-known condition other than `T` that was absent is not created), and every condition
whose type is none of Ready, Progressing, Degraded and is not `T` stands unchanged at the
position it had. -/
theorem C27_frame (now : Nat) (l : List Condition) (T s r m : String) (g : Int) :
    (∀ t, t ∈ (SetConditionStatus now l T s r m g).map Condition.type ↔
        t ∈ l.map Condition.type ∨ t = T) ∧
      (∀ t ∈ otherTypes, t ≠ T → FindStatusCondition l t = none →
        FindStatusCondition (SetConditionStatus now l T s r m g) t = none) ∧
      (∀ (i : Nat) (c : Condition), l[i]? = some c → c.type ≠ T → c.type ∉ otherTypes →
        (SetConditionStatus now l T s r m g)[i]? = some c) ∧
      (∀ (i : Nat) (c : Condition), l[i]? = some c →
        ∃ d, (SetConditionStatus now l T s r m g)[i]? = some d ∧ d.type = c.type) ∧
      (SetConditionStatus now l T s r m g).map Condition.type =
        (if T ∈ l.map Condition.type then l.map Condition.type
          else l.map Condition.type ++ [T]) := by
  have hmap := map_type_SetConditionStatus now l T s r m g
  refine ⟨?_, ?_, ?_, ?_, hmap⟩
  · intro t
    rw [hmap]
    split_ifs with hT
    · constructor
      · exact fun h => Or.inl h
      · rintro (h | h)
        · exact h
        · subst h; exact hT
    · simp
  · intro t _ ht h
    exact find_other_none now l T s r m g ht h
  · intro i c h hT hx
    exact getElem_SetConditionStatus now l T s r m g h hT hx
  · intro i c h
    have hi : i < l.length := by
      by_contra hc
      rw [List.getElem?_eq_none (not_lt.1 hc)] at h
      cases h
    have h1 : (l.map Condition.type)[i]? = some c.type := by
      rw [List.getElem?_map, h]; rfl
    have h2 : ((SetConditionStatus now l T s r m g).map Condition.type)[i]? = some c.type := by
      rw [hmap]
      split_ifs
      · exact h1
      · rw [List.getElem?_append_left (by simpa using hi)]
        exact h1
    rw [List.getElem?_map] at h2
    cases hd : (SetConditionStatus now l T s r m g)[i]? with
    | none => rw [hd] at h2; cases h2
    | some d =>
      rw [hd] at h2
      simp only [Option.map_some', Option.some.injEq] at h2
      exact ⟨d, rfl, h2⟩

/-- Instance of C27: a list with a custom condition between a True `Ready` and nothing else,
target `Degraded`: the custom condition keeps its place and every field. -/
theorem C27_frame_witness :
    (SetConditionStatus 7
        [{ type := "Ready", status := "True", observedGeneration := 2,
           lastTransitionTime := 5, reason := "Reconciled", message := "fine" },
         { type := "Custom", status := "True", observedGeneration := 1,
           lastTransitionTime := 4, reason := "x", message := "y" }]
        "Degraded" ConditionTrue "ReconcileFailed" "boom" 3)[1]? =
      some { type := "Custom", status := "True", observedGeneration := 1,
             lastTransitionTime := 4, reason := "x", message := "y" } :=
  (C27_frame 7 _ "Degraded" ConditionTrue "ReconcileFailed" "boom" 3).2.2.1 1 _
    (by rfl) (by decide) (by decide)

end MailcowOperator
